import Mathlib

/-!
# Ever-free labeling and removal engine of dynablox (`TsdfMapper.cpp`)

A shallow embedding of `dynablox::EverFreeIntegrator` (lines 79-284 of
`src/dynablox/src/TsdfMapper.cpp`) and theorems about it.

Modelling conventions.

* `float` fields (`distance`, `weight`) and the literal `1e-6` are rationals, so every
  comparison is the mathematical one (no NaN); `int` fields are mathematical integers
  (no overflow).
* The voxblox grid classes are not defined in `TsdfMapper.cpp`.  A layer is a sparse map
  from block coordinates to blocks, given by a lookup function together with the
  iteration order of its keys; a block is a voxel store addressed by linear index plus
  its `updated` bit for `Update::kEsdf`.
* `NeighborhoodSearch::search` and the block's linear/3D index conversions are not defined
  in `TsdfMapper.cpp` either: they are fields of the integrator, so every general theorem
  holds for whatever these functions are.  A 6/18/26-connectivity search and the
  row-major addressing are supplied for the concrete scenes.
* Each pass starts `num_threads` workers (lines 107 and 146), which take the blocks from
  the index getter, each block once; with `num_threads ≤ 0` no worker is started and the
  pass visits no block (`takenIndices`).  A phase-1 worker reads and writes its own block
  only, and a phase-2 worker reads of other blocks only fields that phase 2 never writes,
  so the work of the started workers is modelled by visiting the blocks they take one
  after the other in the order of the block list; the merge step runs between the two
  passes as in the source.
-/

namespace dynablox

/-- Integer coordinate of a block of the sparse grid (`voxblox::BlockIndex`). -/
abbrev BlockIndex := Int × Int × Int

/-- Local 3D coordinate of a voxel inside its block (`voxblox::VoxelIndex`). -/
abbrev VoxelIndex := Int × Int × Int

/-- Pair of block coordinate and local voxel coordinate (`voxblox::VoxelKey`). -/
abbrev VoxelKey := BlockIndex × VoxelIndex

/-- Fields of `TsdfVoxel` that the ever-free engine reads or writes. -/
structure TsdfVoxel where
  distance : ℚ
  weight : ℚ
  ever_free : Bool
  dynamic : Bool
  occ_counter : Int
  last_occupied : Int
  last_lidar_occupied : Int
  deriving DecidableEq

/-- Modelled from the spec: the `TsdfBlock` class is not defined in `TsdfMapper.cpp`.  A block
is "a fixed-size cube of voxels addressed by a linear index" that "exposes a reset-able
updated flag per update kind"; only the flag of kind `kEsdf` is used by the engine. -/
structure TsdfBlock where
  voxels : Nat → TsdfVoxel
  updated_kEsdf : Bool

/-- Modelled from the spec: the `TsdfLayer` class is not defined in `TsdfMapper.cpp`.  The
layer is a sparse map from block coordinate to block ("get-block(coordinate) → optional
non-owning block handle"); `allocated` is the iteration order of the map's keys, used by
"enumerate-blocks-updated". -/
structure TsdfLayer where
  block_map : BlockIndex → Option TsdfBlock
  allocated : List BlockIndex

/-- Configuration `common::Config::EverFreeCfg` (read-only). -/
structure EverFreeCfg where
  tsdf_occupancy_threshold : ℚ
  counter_to_reset : Int
  temporal_buffer : Int
  burn_in_period : Int
  neighbor_connectivity : Nat
  num_threads : Int

/-- Members of `EverFreeIntegrator` apart from the layer handle, which is passed
explicitly as the state.  `search` is `neighborhood_search_.search`; the two index
conversions are the block methods of the same names. -/
structure EverFreeIntegrator where
  config_ : EverFreeCfg
  voxels_per_side_ : Nat
  search : BlockIndex → VoxelIndex → Nat → List VoxelKey
  computeVoxelIndexFromLinearIndex : Nat → VoxelIndex
  computeLinearIndexFromVoxelIndex : VoxelIndex → Nat

namespace TsdfBlock

/-- Read access `getVoxelByLinearIndex(index)`. -/
def getVoxelByLinearIndex (block : TsdfBlock) (index : Nat) : TsdfVoxel :=
  block.voxels index

/-- Write through the reference returned by `getVoxelByLinearIndex(index)`. -/
def setVoxelByLinearIndex (block : TsdfBlock) (index : Nat) (voxel : TsdfVoxel) : TsdfBlock :=
  { block with voxels := Function.update block.voxels index voxel }

end TsdfBlock

namespace TsdfLayer

/-- Lookup `getBlockPtrByIndex(index)`; `none` is the null pointer. -/
def getBlockPtrByIndex (layer : TsdfLayer) (index : BlockIndex) : Option TsdfBlock :=
  layer.block_map index

/-- Modelled from the spec: `getAllUpdatedBlocks(Update::kEsdf, ..)` is not defined in
`TsdfMapper.cpp`; it is "enumerate-blocks-updated-since-last-call(kind) → list of block
coordinates": the allocated blocks whose `kEsdf` flag is set, in iteration order. -/
def getAllUpdatedBlocks (layer : TsdfLayer) : List BlockIndex :=
  layer.allocated.filter fun index =>
    match layer.block_map index with
    | some block => block.updated_kEsdf
    | none => false

/-- Effect on the layer of writing through a block pointer obtained for `index`. -/
def setBlock (layer : TsdfLayer) (index : BlockIndex) (block : TsdfBlock) : TsdfLayer :=
  { layer with block_map := Function.update layer.block_map index (some block) }

end TsdfLayer

namespace EverFreeIntegrator

/-- Member `voxels_per_block_`, initialised at line 86. -/
def voxels_per_block_ (I : EverFreeIntegrator) : Nat :=
  I.voxels_per_side_ * I.voxels_per_side_ * I.voxels_per_side_

/-- Block read access `getVoxelByVoxelIndex(voxel_index)`. -/
def getVoxelByVoxelIndex (I : EverFreeIntegrator) (block : TsdfBlock) (voxel_index : VoxelIndex) :
    TsdfVoxel :=
  block.getVoxelByLinearIndex (I.computeLinearIndexFromVoxelIndex voxel_index)

/-- The two assignments `ever_free = false; dynamic = false` (lines 136-137, 251-252,
263-264). -/
def clearEverFree (voxel : TsdfVoxel) : TsdfVoxel :=
  { voxel with ever_free := false, dynamic := false }

/-- Function `EverFreeIntegrator::updateOccupancyCounter`, lines 274-283. -/
def updateOccupancyCounter (I : EverFreeIntegrator) (voxel : TsdfVoxel) (frame_counter : Int) :
    TsdfVoxel :=
  let voxel :=
    if voxel.last_occupied ≥ frame_counter - I.config_.temporal_buffer then
      { voxel with occ_counter := voxel.occ_counter + 1 }
    else
      { voxel with occ_counter := 1 }
  { voxel with last_occupied := frame_counter }

/-- Body of the neighbor loop of `removeEverFree`, lines 259-269: a neighbor of the same
block is cleared in place, any other key is appended to `voxels_to_remove`. -/
def removeEverFreeStep (I : EverFreeIntegrator) (block_index : BlockIndex)
    (st : TsdfBlock × List VoxelKey) (neighbor_key : VoxelKey) : TsdfBlock × List VoxelKey :=
  if neighbor_key.1 = block_index then
    (st.1.setVoxelByLinearIndex (I.computeLinearIndexFromVoxelIndex neighbor_key.2)
      (clearEverFree (I.getVoxelByVoxelIndex st.1 neighbor_key.2)), st.2)
  else
    (st.1, st.2 ++ [neighbor_key])

/-- Function `EverFreeIntegrator::removeEverFree`, lines 247-272.  The reference `voxel`
is the voxel of `block` at linear index `index`. -/
def removeEverFree (I : EverFreeIntegrator) (block : TsdfBlock) (index : Nat)
    (block_index : BlockIndex) (voxel_index : VoxelIndex) : TsdfBlock × List VoxelKey :=
  let block := block.setVoxelByLinearIndex index (clearEverFree (block.getVoxelByLinearIndex index))
  let neighbors := I.search block_index voxel_index I.voxels_per_side_
  neighbors.foldl (I.removeEverFreeStep block_index) (block, [])

/-- First part of the body of the voxel loop of `blockWiseUpdateEverFree`, lines 168-176,
for the voxel at linear index `index`: the occupancy-counter update and the reset of
`dynamic`.  `tsdf_voxel` is a reference into the block, so every write is a write to the
block. -/
def updateCounterStep (I : EverFreeIntegrator) (frame_counter : Int) (tsdf_block : TsdfBlock)
    (index : Nat) : TsdfBlock :=
  -- Updating the occupancy counter.
  let tsdf_block :=
    if (tsdf_block.getVoxelByLinearIndex index).distance < I.config_.tsdf_occupancy_threshold ∨
        (tsdf_block.getVoxelByLinearIndex index).last_lidar_occupied = frame_counter then
      tsdf_block.setVoxelByLinearIndex index
        (I.updateOccupancyCounter (tsdf_block.getVoxelByLinearIndex index) frame_counter)
    else tsdf_block
  if (tsdf_block.getVoxelByLinearIndex index).last_lidar_occupied <
      frame_counter - I.config_.temporal_buffer then
    tsdf_block.setVoxelByLinearIndex index
      { tsdf_block.getVoxelByLinearIndex index with dynamic := false }
  else tsdf_block

/-- Condition of line 179 on the voxel at linear index `index` of `tsdf_block`. -/
def removalWarranted (I : EverFreeIntegrator) (tsdf_block : TsdfBlock) (index : Nat) : Prop :=
  (tsdf_block.getVoxelByLinearIndex index).occ_counter ≥ I.config_.counter_to_reset ∧
    (tsdf_block.getVoxelByLinearIndex index).ever_free = true

instance (I : EverFreeIntegrator) (tsdf_block : TsdfBlock) (index : Nat) :
    Decidable (I.removalWarranted tsdf_block index) := by
  unfold removalWarranted; infer_instance

/-- Body of the voxel loop of `blockWiseUpdateEverFree`, lines 168-184, for the voxel at
linear index `index`. -/
def updateEverFreeStep (I : EverFreeIntegrator) (block_index : BlockIndex) (frame_counter : Int)
    (st : TsdfBlock × List VoxelKey) (index : Nat) : TsdfBlock × List VoxelKey :=
  let tsdf_block := I.updateCounterStep frame_counter st.1 index
  -- Call to remove ever-free if warranted.
  if I.removalWarranted tsdf_block index then
    let voxel_index := I.computeVoxelIndexFromLinearIndex index
    let voxels := I.removeEverFree tsdf_block index block_index voxel_index
    (voxels.1, st.2 ++ voxels.2)
  else
    (tsdf_block, st.2)

/-- Function `EverFreeIntegrator::blockWiseUpdateEverFree`, lines 160-188.  The result is
the layer after the call, the output vector `voxels_to_remove` after the call, and the
returned flag. -/
def blockWiseUpdateEverFree (I : EverFreeIntegrator) (layer : TsdfLayer) (block_index : BlockIndex)
    (frame_counter : Int) (voxels_to_remove : List VoxelKey) : TsdfLayer × List VoxelKey × Bool :=
  match layer.getBlockPtrByIndex block_index with
  | none => (layer, voxels_to_remove, false)
  | some tsdf_block =>
    let r := (List.range I.voxels_per_block_).foldl
      (I.updateEverFreeStep block_index frame_counter) (tsdf_block, voxels_to_remove)
    (layer.setBlock block_index r.1, r.2, !r.2.isEmpty)

/-- Neighbor loop of `blockWiseMakeEverFree`, lines 215-237: the value of
`neighbor_occupied_or_unobserved` when the loop is left.  `tsdf_block` is the block being
processed, `layer` the grid the other blocks are looked up in. -/
def neighborOccupiedOrUnobserved (I : EverFreeIntegrator) (layer : TsdfLayer)
    (tsdf_block : TsdfBlock) (block_index : BlockIndex) (frame_counter : Int) :
    List VoxelKey → Bool
  | [] => false
  | neighbor_key :: rest =>
    let neighbor_block :=
      if neighbor_key.1 = block_index then some tsdf_block
      else layer.getBlockPtrByIndex neighbor_key.1
    match neighbor_block with
    | none => true
    | some neighbor_block =>
      let neighbor_voxel := I.getVoxelByVoxelIndex neighbor_block neighbor_key.2
      if neighbor_voxel.weight < 1e-6 ∨
          neighbor_voxel.last_occupied > frame_counter - I.config_.burn_in_period then
        true
      else
        neighborOccupiedOrUnobserved I layer tsdf_block block_index frame_counter rest

/-- Body of the voxel loop of `blockWiseMakeEverFree`, lines 198-242. -/
def makeEverFreeStep (I : EverFreeIntegrator) (layer : TsdfLayer) (block_index : BlockIndex)
    (frame_counter : Int) (tsdf_block : TsdfBlock) (index : Nat) : TsdfBlock :=
  let tsdf_voxel := tsdf_block.getVoxelByLinearIndex index
  if tsdf_voxel.ever_free = true ∨ tsdf_voxel.weight ≤ 1e-6 ∨
      tsdf_voxel.last_occupied > frame_counter - I.config_.burn_in_period then
    tsdf_block
  else
    let voxel_index := I.computeVoxelIndexFromLinearIndex index
    let neighbors := I.search block_index voxel_index I.voxels_per_side_
    if I.neighborOccupiedOrUnobserved layer tsdf_block block_index frame_counter neighbors then
      tsdf_block
    else
      tsdf_block.setVoxelByLinearIndex index { tsdf_voxel with ever_free := true }

/-- Function `EverFreeIntegrator::blockWiseMakeEverFree`, lines 190-245. -/
def blockWiseMakeEverFree (I : EverFreeIntegrator) (layer : TsdfLayer) (block_index : BlockIndex)
    (frame_counter : Int) : TsdfLayer :=
  match layer.getBlockPtrByIndex block_index with
  | none => layer
  | some tsdf_block =>
    let tsdf_block := (List.range I.voxels_per_block_).foldl
      (I.makeEverFreeStep layer block_index frame_counter) tsdf_block
    layer.setBlock block_index { tsdf_block with updated_kEsdf := false }

/-- Modelled from the spec: `IndexGetter` is not defined in `TsdfMapper.cpp`; the
dispatcher "hands out blocks to worker tasks such that each block is processed exactly
once per pass".  The worker loops of `updateEverFreeVoxels`, lines 107 and 146
(`for (int i = 0; i < *config_.num_threads; ++i)`), start one worker per iteration, and
every worker takes blocks from the shared index getter until none is left.  The blocks
visited in a pass are therefore all of `indices` when the loop starts a worker, and none
when `num_threads ≤ 0`. -/
def takenIndices (I : EverFreeIntegrator) (indices : List BlockIndex) : List BlockIndex :=
  if 0 < I.config_.num_threads then indices else []

/-- Work of the phase-1 workers of `updateEverFreeVoxels` (body of the worker, lines
108-123) on the blocks `indices` that they take from the index getter: every block is
handed to `blockWiseUpdateEverFree` with a fresh vector `voxels`, which is appended to
the collected keys when the call returns true.  The worker loop of line 107, which
decides whether any block is taken, is `takenIndices`. -/
def removeOccupied (I : EverFreeIntegrator) (frame_counter : Int)
    (st : TsdfLayer × List VoxelKey) (indices : List BlockIndex) : TsdfLayer × List VoxelKey :=
  indices.foldl (fun st index =>
    let r := I.blockWiseUpdateEverFree st.1 index frame_counter []
    (r.1, if r.2.2 then st.2 ++ r.2.1 else st.2)) st

/-- Body of the merge loop of `updateEverFreeVoxels`, lines 130-138. -/
def removeRemainingStep (I : EverFreeIntegrator) (layer : TsdfLayer) (voxel_key : VoxelKey) :
    TsdfLayer :=
  match layer.getBlockPtrByIndex voxel_key.1 with
  | none => layer
  | some tsdf_block =>
    layer.setBlock voxel_key.1
      (tsdf_block.setVoxelByLinearIndex (I.computeLinearIndexFromVoxelIndex voxel_key.2)
        (clearEverFree (I.getVoxelByVoxelIndex tsdf_block voxel_key.2)))

/-- Merge step of `updateEverFreeVoxels`, lines 129-138. -/
def removeRemaining (I : EverFreeIntegrator) (layer : TsdfLayer) (voxels_to_remove : List VoxelKey) :
    TsdfLayer :=
  voxels_to_remove.foldl I.removeRemainingStep layer

/-- Work of the phase-2 workers of `updateEverFreeVoxels` (body of the worker, lines
147-152) on the blocks `indices` that they take from the index getter.  The worker loop
of line 146, which decides whether any block is taken, is `takenIndices`. -/
def labelFree (I : EverFreeIntegrator) (frame_counter : Int) (layer : TsdfLayer)
    (indices : List BlockIndex) : TsdfLayer :=
  indices.foldl (fun layer index => I.blockWiseMakeEverFree layer index frame_counter) layer

/-- Lines 108-139 of `updateEverFreeVoxels`: the work of the phase-1 workers on the blocks
`indices` that they take, followed by the single-threaded merge of the collected keys. -/
def removeOccupiedAndMerge (I : EverFreeIntegrator) (layer : TsdfLayer) (frame_counter : Int)
    (indices : List BlockIndex) : TsdfLayer :=
  let r := I.removeOccupied frame_counter (layer, []) indices
  I.removeRemaining r.1 r.2

/-- Lines 100-157 of `updateEverFreeVoxels` for a given order `indices` of the updated
blocks, used by the index getters of both passes: phase 1 by the workers started at line
107, the merge, and phase 2 by the workers started at line 146.  With `num_threads ≤ 0`
neither pass visits a block and the merge finds no key. -/
def updateEverFreeVoxelsOn (I : EverFreeIntegrator) (layer : TsdfLayer) (frame_counter : Int)
    (indices : List BlockIndex) : TsdfLayer :=
  I.labelFree frame_counter
    (I.removeOccupiedAndMerge layer frame_counter (I.takenIndices indices))
    (I.takenIndices indices)

/-- Function `EverFreeIntegrator::updateEverFreeVoxels`, lines 90-158. -/
def updateEverFreeVoxels (I : EverFreeIntegrator) (layer : TsdfLayer) (frame_counter : Int) :
    TsdfLayer :=
  I.updateEverFreeVoxelsOn layer frame_counter layer.getAllUpdatedBlocks

end EverFreeIntegrator

/-- Modelled from the spec: the addressing of a block is not defined in `TsdfMapper.cpp`.
Linear index of a local coordinate, x running fastest. -/
def linearIndexOf (voxels_per_side : Nat) (voxel_index : VoxelIndex) : Nat :=
  (voxel_index.1 + voxels_per_side * (voxel_index.2.1 + voxel_index.2.2 * voxels_per_side)).toNat

/-- Modelled from the spec: the addressing of a block is not defined in `TsdfMapper.cpp`.
Local coordinate of a linear index, x running fastest. -/
def voxelIndexOf (voxels_per_side : Nat) (linear_index : Nat) : VoxelIndex :=
  let rem := linear_index % (voxels_per_side * voxels_per_side)
  (((rem % voxels_per_side : Nat) : Int), ((rem / voxels_per_side : Nat) : Int),
    ((linear_index / (voxels_per_side * voxels_per_side) : Nat) : Int))

/-- Modelled from the spec: offsets of the "face/edge/corner variants" of the
connectivity: 6 (faces), 18 (faces and edges), anything else 26 (faces, edges, corners). -/
def neighborOffsets (connectivity : Nat) : List (Int × Int × Int) :=
  let faces : List (Int × Int × Int) :=
    [(-1, 0, 0), (1, 0, 0), (0, -1, 0), (0, 1, 0), (0, 0, -1), (0, 0, 1)]
  let edges : List (Int × Int × Int) :=
    [(-1, -1, 0), (-1, 1, 0), (1, -1, 0), (1, 1, 0), (-1, 0, -1), (-1, 0, 1),
     (1, 0, -1), (1, 0, 1), (0, -1, -1), (0, -1, 1), (0, 1, -1), (0, 1, 1)]
  let corners : List (Int × Int × Int) :=
    [(-1, -1, -1), (-1, -1, 1), (-1, 1, -1), (-1, 1, 1),
     (1, -1, -1), (1, -1, 1), (1, 1, -1), (1, 1, 1)]
  if connectivity = 6 then faces
  else if connectivity = 18 then faces ++ edges
  else faces ++ edges ++ corners

/-- Modelled from the spec: `NeighborhoodSearch::search` is not defined in `TsdfMapper.cpp`.
It "produces the ordered set of neighbor VoxelKeys, correctly translating local
coordinates that fall outside the source block's bounds into the appropriate adjacent
block coordinate plus wrapped local coordinate". -/
def neighborhoodSearch (connectivity : Nat) (block_index : BlockIndex) (voxel_index : VoxelIndex)
    (voxels_per_side : Nat) : List VoxelKey :=
  (neighborOffsets connectivity).map fun d =>
    let x := voxel_index.1 + d.1
    let y := voxel_index.2.1 + d.2.1
    let z := voxel_index.2.2 + d.2.2
    let n : Int := voxels_per_side
    ((block_index.1 + x / n, block_index.2.1 + y / n, block_index.2.2 + z / n),
      (x % n, y % n, z % n))

/-- Integrator built by the constructor (lines 80-88) over a layer with
`voxels_per_side` voxels per block side, with the modelled search and addressing. -/
def mkIntegrator (config : EverFreeCfg) (voxels_per_side : Nat) : EverFreeIntegrator where
  config_ := config
  voxels_per_side_ := voxels_per_side
  search := neighborhoodSearch config.neighbor_connectivity
  computeVoxelIndexFromLinearIndex := voxelIndexOf voxels_per_side
  computeLinearIndexFromVoxelIndex := linearIndexOf voxels_per_side

/-! ## Auxiliary definitions used in the statements -/

namespace EverFreeIntegrator

/-- Labeling decision of the pass for the voxel at linear index `index`, read on the block
`block` as it is before the pass. -/
def labelCondition (I : EverFreeIntegrator) (layer : TsdfLayer) (block : TsdfBlock)
    (block_index : BlockIndex) (frame_counter : Int) (index : Nat) : Bool :=
  decide (¬ ((block.voxels index).ever_free = true ∨ (block.voxels index).weight ≤ 1e-6 ∨
      (block.voxels index).last_occupied > frame_counter - I.config_.burn_in_period)) &&
  !(I.neighborOccupiedOrUnobserved layer block block_index frame_counter
      (I.search block_index (I.computeVoxelIndexFromLinearIndex index) I.voxels_per_side_))

/-- Result of the voxel loop of `blockWiseUpdateEverFree` (lines 167-185) on the block
`tsdf_block` with an empty output vector. -/
def updateEverFreeLoop (I : EverFreeIntegrator) (block_index : BlockIndex) (frame_counter : Int)
    (tsdf_block : TsdfBlock) (n : Nat) : TsdfBlock × List VoxelKey :=
  (List.range n).foldl (I.updateEverFreeStep block_index frame_counter) (tsdf_block, [])

/-- The removal trigger of line 179 fires for the voxel at linear index `index` when the
voxel loop of `blockWiseUpdateEverFree`, started on `tsdf_block`, reaches it: the
condition holds on the block as the iterations `0 .. index - 1` and the counter update of
`index` have left it. -/
def removalTriggerFires (I : EverFreeIntegrator) (block_index : BlockIndex) (frame_counter : Int)
    (tsdf_block : TsdfBlock) (index : Nat) : Prop :=
  I.removalWarranted
    (I.updateCounterStep frame_counter
      (I.updateEverFreeLoop block_index frame_counter tsdf_block index).1 index) index

instance (I : EverFreeIntegrator) (block_index : BlockIndex) (frame_counter : Int)
    (tsdf_block : TsdfBlock) (index : Nat) :
    Decidable (I.removalTriggerFires block_index frame_counter tsdf_block index) := by
  unfold removalTriggerFires; infer_instance

end EverFreeIntegrator

/-! ## A concrete scene: one block of 3 x 3 x 3 voxels, 6-connectivity -/

/-- Configuration of the scenario: burn-in 5, counter to reset 3, temporal buffer 2,
6-connectivity. -/
def sceneConfig : EverFreeCfg where
  tsdf_occupancy_threshold := 1 / 2
  counter_to_reset := 3
  temporal_buffer := 2
  burn_in_period := 5
  neighbor_connectivity := 6
  num_threads := 1

/-- Integrator of the scenario, over blocks of 3 x 3 x 3 voxels. -/
def sceneIntegrator : EverFreeIntegrator := mkIntegrator sceneConfig 3

/-- Configuration of the scenario with a worker count of zero: the worker loops of lines
107 and 146 start no worker. -/
def idleConfig : EverFreeCfg := { sceneConfig with num_threads := 0 }

/-- Integrator of the scenario without workers. -/
def idleIntegrator : EverFreeIntegrator := mkIntegrator idleConfig 3

/-- A voxel observed free (weight set, distance above the threshold), last occupied at
frame 0, not labeled. -/
def freeVoxel : TsdfVoxel where
  distance := 1
  weight := 1
  ever_free := false
  dynamic := false
  occ_counter := 0
  last_occupied := 0
  last_lidar_occupied := -1

/-- Layer with the single block `block` at coordinate (0, 0, 0). -/
def singleBlockLayer (block : TsdfBlock) : TsdfLayer where
  block_map := fun k => if k = (0, 0, 0) then some block else none
  allocated := [(0, 0, 0)]

/-- Block of free, observed, unlabeled voxels, flagged updated. -/
def freeBlock : TsdfBlock where
  voxels := fun _ => freeVoxel
  updated_kEsdf := true

/-- The scene before frame 5: every voxel of the single block is free and observed. -/
def sceneLayer : TsdfLayer := singleBlockLayer freeBlock

/-! ## Relations between a state and a later state, used in the proofs -/

/-- What phase 1 and the merge step of frame `frame_counter` can do to a voxel `v`, giving
`v'`: the sensor fields are kept, the two flags can only be cleared, `last_occupied` is
kept or set to the frame, and the counter fields are kept when the counter branch of
line 171 does not apply to the voxel. -/
def TsdfVoxel.RemovalUpdate (cfg : EverFreeCfg) (frame_counter : Int) (v v' : TsdfVoxel) : Prop :=
  v'.distance = v.distance ∧ v'.weight = v.weight ∧
  v'.last_lidar_occupied = v.last_lidar_occupied ∧
  (v'.ever_free = true → v.ever_free = true) ∧
  (v'.dynamic = true → v.dynamic = true) ∧
  (v'.last_occupied = v.last_occupied ∨ v'.last_occupied = frame_counter) ∧
  (¬ (v.distance < cfg.tsdf_occupancy_threshold ∨ v.last_lidar_occupied = frame_counter) →
    v'.occ_counter = v.occ_counter ∧ v'.last_occupied = v.last_occupied)

/-- What the labeling pass can do to a voxel `v`, giving `v'`: nothing, or set `ever_free`
on a voxel that did not have it. -/
def TsdfVoxel.LabelUpdate (v v' : TsdfVoxel) : Prop :=
  v' = v ∨ (v.ever_free = false ∧ v' = { v with ever_free := true })

/-- Block `b'` is a later state of block `b` in phase 1 or the merge step. -/
def TsdfBlock.RemovalUpdate (cfg : EverFreeCfg) (frame_counter : Int) (b b' : TsdfBlock) : Prop :=
  b'.updated_kEsdf = b.updated_kEsdf ∧
  ∀ j, TsdfVoxel.RemovalUpdate cfg frame_counter (b.voxels j) (b'.voxels j)

/-- Block `b'` is a later state of block `b` in the labeling pass. -/
def TsdfBlock.LabelUpdate (b b' : TsdfBlock) : Prop :=
  (b'.updated_kEsdf = false ∨ b'.updated_kEsdf = b.updated_kEsdf) ∧
  ∀ j, TsdfVoxel.LabelUpdate (b.voxels j) (b'.voxels j)

/-- Layer `layer'` has the blocks of `layer`, each related to its old state by `R`. -/
def TsdfLayer.Blockwise (R : TsdfBlock → TsdfBlock → Prop) (layer layer' : TsdfLayer) : Prop :=
  layer'.allocated = layer.allocated ∧
  ∀ k, (layer.block_map k = none → layer'.block_map k = none) ∧
    (∀ b, layer.block_map k = some b → ∃ b', layer'.block_map k = some b' ∧ R b b')

/-- Both flags of the voxel are false, as after `ever_free = false; dynamic = false`. -/
def TsdfVoxel.Cleared (v : TsdfVoxel) : Prop :=
  v.ever_free = false ∧ v.dynamic = false

/-! ## Concrete scenes for removal -/

/-- A voxel labeled ever-free and never occupied. -/
def everFreeVoxel : TsdfVoxel := { freeVoxel with ever_free := true }

/-- A voxel labeled ever-free that was counted occupied at frames 6 and 7 and is hit by
the sensor again at frame 8. -/
def occupiedVoxel : TsdfVoxel where
  distance := 1
  weight := 1
  ever_free := true
  dynamic := true
  occ_counter := 2
  last_occupied := 7
  last_lidar_occupied := 8

/-- Block of ever-free voxels whose voxels at the linear indices `occupied` are
`occupiedVoxel`, flagged updated. -/
def occupiedBlock (occupied : List Nat) : TsdfBlock where
  voxels := fun j => if j ∈ occupied then occupiedVoxel else everFreeVoxel
  updated_kEsdf := true

/-- Layer with the two blocks `a` at (0, 0, 0) and `b` at (1, 0, 0). -/
def twoBlockLayer (a b : TsdfBlock) : TsdfLayer where
  block_map := fun k => if k = (0, 0, 0) then some a else if k = (1, 0, 0) then some b else none
  allocated := [(0, 0, 0), (1, 0, 0)]

/-! ## Auxiliary definitions for the voxel loop of phase 1 -/

namespace EverFreeIntegrator

/-- Lines 170-176 on a voxel value: the occupancy-counter update when the branch of line
171 applies, then the reset of `dynamic` when the last lidar hit is stale. -/
def updateCounterVoxel (I : EverFreeIntegrator) (frame_counter : Int) (voxel : TsdfVoxel) :
    TsdfVoxel :=
  let voxel :=
    if voxel.distance < I.config_.tsdf_occupancy_threshold ∨
        voxel.last_lidar_occupied = frame_counter then
      I.updateOccupancyCounter voxel frame_counter
    else voxel
  if voxel.last_lidar_occupied < frame_counter - I.config_.temporal_buffer then
    { voxel with dynamic := false }
  else voxel

/-- The per-voxel step of phase 1 (lines 168-184) run over the linear indices in the
order `order`, from the block `tsdf_block` and an empty output vector.  The loop of the
source is the order `List.range voxels_per_block_`. -/
def updateEverFreeLoopOn (I : EverFreeIntegrator) (block_index : BlockIndex) (frame_counter : Int)
    (tsdf_block : TsdfBlock) (order : List Nat) : TsdfBlock × List VoxelKey :=
  order.foldl (I.updateEverFreeStep block_index frame_counter) (tsdf_block, [])

/-- The voxel at `index` of the block as the pass finds it is ever-free and its counter
reaches `counter_to_reset` with this frame's counter update: its trigger fires if the
loop reaches it with the label intact. -/
def removalCandidate (I : EverFreeIntegrator) (frame_counter : Int) (tsdf_block : TsdfBlock)
    (index : Nat) : Prop :=
  (I.updateCounterVoxel frame_counter (tsdf_block.voxels index)).occ_counter ≥
      I.config_.counter_to_reset ∧
    (tsdf_block.voxels index).ever_free = true

instance (I : EverFreeIntegrator) (frame_counter : Int) (tsdf_block : TsdfBlock) (index : Nat) :
    Decidable (I.removalCandidate frame_counter tsdf_block index) := by
  unfold removalCandidate; infer_instance

/-- The voxel at linear index `j` of block `block_index` is named by a neighbor key of the
voxel at linear index `i` of the same block. -/
def ownBlockNeighbor (I : EverFreeIntegrator) (block_index : BlockIndex) (i j : Nat) : Prop :=
  ∃ key ∈ I.search block_index (I.computeVoxelIndexFromLinearIndex i) I.voxels_per_side_,
    key.1 = block_index ∧ I.computeLinearIndexFromVoxelIndex key.2 = j

instance (I : EverFreeIntegrator) (block_index : BlockIndex) (i j : Nat) :
    Decidable (I.ownBlockNeighbor block_index i j) := by
  unfold ownBlockNeighbor; infer_instance

/-- Keys handed over to the merge step by a removal at linear index `i`: the neighbor keys
of other blocks, in search order (lines 265-268). -/
def foreignNeighborKeys (I : EverFreeIntegrator) (block_index : BlockIndex) (i : Nat) :
    List VoxelKey :=
  (I.search block_index (I.computeVoxelIndexFromLinearIndex i) I.voxels_per_side_).filter
    (fun key => decide (key.1 ≠ block_index))

end EverFreeIntegrator

/-- The voxels `v` and `v'` agree on every field but the flags `ever_free` and `dynamic`. -/
def TsdfVoxel.SameButFlags (v v' : TsdfVoxel) : Prop :=
  v'.distance = v.distance ∧ v'.weight = v.weight ∧ v'.occ_counter = v.occ_counter ∧
    v'.last_occupied = v.last_occupied ∧ v'.last_lidar_occupied = v.last_lidar_occupied

/-! ## Concrete scenes for the counter and the dynamic flag -/

/-- A voxel labeled ever-free whose counter reached 3 long ago: last counted occupied at
frame 0, never hit by the lidar since, free and observed now. -/
def staleCounterVoxel : TsdfVoxel where
  distance := 1
  weight := 1
  ever_free := true
  dynamic := false
  occ_counter := 3
  last_occupied := 0
  last_lidar_occupied := 0

/-- Block of ever-free voxels whose interior voxel (linear index 13) is
`staleCounterVoxel`, flagged updated. -/
def staleCounterBlock : TsdfBlock where
  voxels := fun j => if j = 13 then staleCounterVoxel else everFreeVoxel
  updated_kEsdf := true

/-- A voxel that is not ever-free, flagged dynamic, last hit by the lidar at frame
`last_lidar`. -/
def dynamicVoxel (last_lidar : Int) : TsdfVoxel where
  distance := 1
  weight := 1
  ever_free := false
  dynamic := true
  occ_counter := 0
  last_occupied := 0
  last_lidar_occupied := last_lidar

/-- Block of free voxels whose interior voxel (linear index 13) is
`dynamicVoxel last_lidar`, flagged updated. -/
def dynamicBlock (last_lidar : Int) : TsdfBlock where
  voxels := fun j => if j = 13 then dynamicVoxel last_lidar else freeVoxel
  updated_kEsdf := true

/-! ## Relation between a voxel and a later state that records removals -/

/-- In the later state `v'` the voxel `v` either has its old `ever_free` (and `dynamic` was
not set), or both flags are cleared. -/
def TsdfVoxel.KeptOrCleared (v v' : TsdfVoxel) : Prop :=
  (v'.ever_free = v.ever_free ∧ (v'.dynamic = true → v.dynamic = true)) ∨ v'.Cleared

/-- Every voxel of `b'` is kept or cleared with respect to `b`. -/
def TsdfBlock.KeptOrCleared (b b' : TsdfBlock) : Prop :=
  ∀ j, TsdfVoxel.KeptOrCleared (b.voxels j) (b'.voxels j)

/-! ## Auxiliary definitions for the visiting order inside a block -/

namespace EverFreeIntegrator

/-- Some candidate of the order `order` clears the voxel at linear index `j`: the voxel is
a candidate of the order itself or a neighbor, in the own block, of one. -/
def clearedDuring (I : EverFreeIntegrator) (block_index : BlockIndex) (frame_counter : Int)
    (tsdf_block : TsdfBlock) (order : List Nat) (j : Nat) : Prop :=
  ∃ i ∈ order, I.removalCandidate frame_counter tsdf_block i ∧
    (j = i ∨ I.ownBlockNeighbor block_index i j)

/-- The voxel at linear index `j` with its counter update applied when the order `order`
visits it. -/
def visitedVoxel (I : EverFreeIntegrator) (frame_counter : Int) (tsdf_block : TsdfBlock)
    (order : List Nat) (j : Nat) : TsdfVoxel :=
  if j ∈ order then I.updateCounterVoxel frame_counter (tsdf_block.voxels j)
  else tsdf_block.voxels j

end EverFreeIntegrator

/-- The linear indices 0 .. 26 with 12 and 13 exchanged. -/
def swappedOrder : List Nat :=
  (List.range 27).map fun i => if i = 12 then 13 else if i = 13 then 12 else i

/-! ## Construction of the integrator -/

/-- What the constructor reads through the layer handle (lines 84-85). -/
structure LayerParams where
  voxel_size : ℚ
  voxels_per_side : Nat

/-- Ways in which the constructor ends without an integrator. -/
inductive ConstructionFailure where
  /-- Member access through a null handle (undefined behaviour, in practice a crash). -/
  | nullDereference
  /-- The fatal check `CHECK_NOTNULL` fails. -/
  | fatalCheck
  deriving DecidableEq

/-- Member access `tsdf_layer_->member()` through the handle; `none` is the null handle. -/
def readThroughHandle {α : Type} (tsdf_layer : Option LayerParams) (member : LayerParams → α) :
    Except ConstructionFailure α :=
  match tsdf_layer with
  | none => Except.error ConstructionFailure.nullDereference
  | some layer => Except.ok (member layer)

/-- Check `CHECK_NOTNULL(tsdf_layer_.get())` of line 87. -/
def checkNotNull (tsdf_layer : Option LayerParams) : Except ConstructionFailure Unit :=
  match tsdf_layer with
  | none => Except.error ConstructionFailure.fatalCheck
  | some _ => Except.ok ()

/-- Constructor `EverFreeIntegrator::EverFreeIntegrator`, lines 80-88: the member
initialisers of lines 81-86 run before the body of line 87, whatever the declaration
order of the members; `voxel_size_` and `voxels_per_side_` are read through the handle. -/
def EverFreeIntegrator.construct (config : EverFreeCfg) (tsdf_layer : Option LayerParams) :
    Except ConstructionFailure EverFreeIntegrator := do
  let _voxel_size_ ← readThroughHandle tsdf_layer LayerParams.voxel_size
  let voxels_per_side_ ← readThroughHandle tsdf_layer LayerParams.voxels_per_side
  checkNotNull tsdf_layer
  pure (mkIntegrator config voxels_per_side_)

/-! # Theorems -/

open EverFreeIntegrator

/-! ## Elementary facts about the accessors -/

@[simp] theorem TsdfBlock.getVoxelByLinearIndex_eq (block : TsdfBlock) (index : Nat) :
    block.getVoxelByLinearIndex index = block.voxels index := rfl

@[simp] theorem TsdfBlock.voxels_setVoxelByLinearIndex (block : TsdfBlock) (index : Nat)
    (voxel : TsdfVoxel) (j : Nat) :
    (block.setVoxelByLinearIndex index voxel).voxels j = if j = index then voxel else block.voxels j := by
  simp [TsdfBlock.setVoxelByLinearIndex, Function.update_apply]

@[simp] theorem TsdfBlock.updated_setVoxelByLinearIndex (block : TsdfBlock) (index : Nat)
    (voxel : TsdfVoxel) :
    (block.setVoxelByLinearIndex index voxel).updated_kEsdf = block.updated_kEsdf := rfl

@[simp] theorem TsdfLayer.getBlockPtrByIndex_eq (layer : TsdfLayer) (index : BlockIndex) :
    layer.getBlockPtrByIndex index = layer.block_map index := rfl

@[simp] theorem TsdfLayer.block_map_setBlock (layer : TsdfLayer) (index : BlockIndex)
    (block : TsdfBlock) (k : BlockIndex) :
    (layer.setBlock index block).block_map k = if k = index then some block else layer.block_map k := by
  simp [TsdfLayer.setBlock, Function.update_apply]

@[simp] theorem TsdfLayer.allocated_setBlock (layer : TsdfLayer) (index : BlockIndex)
    (block : TsdfBlock) : (layer.setBlock index block).allocated = layer.allocated := rfl

theorem TsdfBlock.block_ext_iff {a b : TsdfBlock} :
    a = b ↔ (∀ j, a.voxels j = b.voxels j) ∧ a.updated_kEsdf = b.updated_kEsdf := by
  constructor
  · rintro rfl; exact ⟨fun _ => rfl, rfl⟩
  · rintro ⟨h1, h2⟩
    cases a; cases b
    simp only [TsdfBlock.mk.injEq]
    exact ⟨funext h1, h2⟩

theorem TsdfLayer.layer_ext_iff {a b : TsdfLayer} :
    a = b ↔ (∀ k, a.block_map k = b.block_map k) ∧ a.allocated = b.allocated := by
  constructor
  · rintro rfl; exact ⟨fun _ => rfl, rfl⟩
  · rintro ⟨h1, h2⟩
    cases a; cases b
    simp only [TsdfLayer.mk.injEq]
    exact ⟨funext h1, h2⟩

/-! ## The labeling pass -/

/-- The neighbor loop leaves `neighbor_occupied_or_unobserved` false exactly when every
neighbor key resolves to a block whose voxel is observed and outside the burn-in window. -/
theorem neighborOccupiedOrUnobserved_eq_false_iff (I : EverFreeIntegrator) (layer : TsdfLayer)
    (tsdf_block : TsdfBlock) (block_index : BlockIndex) (frame_counter : Int)
    (neighbors : List VoxelKey) :
    I.neighborOccupiedOrUnobserved layer tsdf_block block_index frame_counter neighbors = false ↔
      ∀ key ∈ neighbors, ∃ nb,
        (if key.1 = block_index then some tsdf_block else layer.block_map key.1) = some nb ∧
        (1e-6 : ℚ) ≤ (I.getVoxelByVoxelIndex nb key.2).weight ∧
        (I.getVoxelByVoxelIndex nb key.2).last_occupied ≤
          frame_counter - I.config_.burn_in_period := by
  induction neighbors with
  | nil => simp [neighborOccupiedOrUnobserved]
  | cons key rest ih =>
    simp only [neighborOccupiedOrUnobserved, TsdfLayer.getBlockPtrByIndex_eq, List.mem_cons,
      forall_eq_or_imp]
    cases hnb : (if key.1 = block_index then some tsdf_block else layer.block_map key.1) with
    | none => simp
    | some nb =>
      simp only [Option.some.injEq, exists_eq_left']
      by_cases hc : (I.getVoxelByVoxelIndex nb key.2).weight < 1e-6 ∨
          (I.getVoxelByVoxelIndex nb key.2).last_occupied >
            frame_counter - I.config_.burn_in_period
      · rw [if_pos hc]
        simp only [Bool.true_eq_false, false_iff, not_and]
        intro h
        rcases hc with hc | hc
        · exact absurd h.1 (not_le.mpr hc)
        · exact absurd h.2 (not_le.mpr hc)
      · rw [if_neg hc, ih]
        push_neg at hc
        simp [hc.1, hc.2]

/-- The neighbor loop reads only `weight` and `last_occupied` of the processed block. -/
theorem neighborOccupiedOrUnobserved_congr (I : EverFreeIntegrator) (layer : TsdfLayer)
    (b b' : TsdfBlock) (block_index : BlockIndex) (frame_counter : Int)
    (hw : ∀ j, (b'.voxels j).weight = (b.voxels j).weight)
    (hl : ∀ j, (b'.voxels j).last_occupied = (b.voxels j).last_occupied)
    (neighbors : List VoxelKey) :
    I.neighborOccupiedOrUnobserved layer b' block_index frame_counter neighbors =
      I.neighborOccupiedOrUnobserved layer b block_index frame_counter neighbors := by
  induction neighbors with
  | nil => rfl
  | cons key rest ih =>
    simp only [neighborOccupiedOrUnobserved]
    by_cases hk : key.1 = block_index
    · simp only [hk, if_true, getVoxelByVoxelIndex, TsdfBlock.getVoxelByLinearIndex_eq, hw, hl, ih]
    · simp only [hk, if_false, ih]

/-- One iteration of the voxel loop of `blockWiseMakeEverFree` on a block `cur` that agrees
with the block `block` of before the pass on the fields the decision reads. -/
theorem makeEverFreeStep_eq (I : EverFreeIntegrator) (layer : TsdfLayer) (block cur : TsdfBlock)
    (block_index : BlockIndex) (frame_counter : Int) (n : Nat)
    (hw : ∀ j, (cur.voxels j).weight = (block.voxels j).weight)
    (hl : ∀ j, (cur.voxels j).last_occupied = (block.voxels j).last_occupied)
    (hn : cur.voxels n = block.voxels n) :
    I.makeEverFreeStep layer block_index frame_counter cur n =
      if labelCondition I layer block block_index frame_counter n = true then
        cur.setVoxelByLinearIndex n { block.voxels n with ever_free := true }
      else cur := by
  unfold makeEverFreeStep labelCondition
  simp only [TsdfBlock.getVoxelByLinearIndex_eq, hn,
    neighborOccupiedOrUnobserved_congr I layer block cur block_index frame_counter hw hl]
  by_cases hskip : (block.voxels n).ever_free = true ∨ (block.voxels n).weight ≤ 1e-6 ∨
      (block.voxels n).last_occupied > frame_counter - I.config_.burn_in_period
  · simp [hskip]
  · rw [if_neg hskip]
    cases hN : I.neighborOccupiedOrUnobserved layer block block_index frame_counter
        (I.search block_index (I.computeVoxelIndexFromLinearIndex n) I.voxels_per_side_)
    · simp [hskip]
    · simp

/-- State of the processed block after the first `n` iterations of the voxel loop of
`blockWiseMakeEverFree`. -/
theorem foldl_makeEverFreeStep (I : EverFreeIntegrator) (layer : TsdfLayer) (block : TsdfBlock)
    (block_index : BlockIndex) (frame_counter : Int) (n : Nat) :
    (List.range n).foldl (I.makeEverFreeStep layer block_index frame_counter) block =
      { voxels := fun j =>
          if j < n ∧ labelCondition I layer block block_index frame_counter j = true then
            { block.voxels j with ever_free := true }
          else block.voxels j
        updated_kEsdf := block.updated_kEsdf } := by
  induction n with
  | zero => simp
  | succ n ih =>
    rw [List.range_succ, List.foldl_append, ih]
    simp only [List.foldl_cons, List.foldl_nil]
    rw [makeEverFreeStep_eq I layer block _ block_index frame_counter n
      (by intro j; dsimp only; split <;> rfl) (by intro j; dsimp only; split <;> rfl)
      (by simp)]
    rw [TsdfBlock.block_ext_iff]
    refine ⟨fun j => ?_, ?_⟩
    · by_cases hj : j = n
      · subst hj
        by_cases hc : labelCondition I layer block block_index frame_counter j = true
        · simp [hc]
        · simp [hc]
      · have hlt : j < n + 1 ↔ j < n := by omega
        by_cases hc : labelCondition I layer block block_index frame_counter n = true
        · simp [hc, hj, hlt]
        · simp [hc, hlt]
    · split <;> rfl

/-- Layer after `blockWiseMakeEverFree` on an existing block. -/
theorem blockWiseMakeEverFree_of_some (I : EverFreeIntegrator) (layer : TsdfLayer)
    (block_index : BlockIndex) (frame_counter : Int) (block : TsdfBlock)
    (hb : layer.block_map block_index = some block) :
    I.blockWiseMakeEverFree layer block_index frame_counter =
      layer.setBlock block_index
        { voxels := fun j =>
            if j < I.voxels_per_block_ ∧
                labelCondition I layer block block_index frame_counter j = true then
              { block.voxels j with ever_free := true }
            else block.voxels j
          updated_kEsdf := false } := by
  unfold blockWiseMakeEverFree
  simp only [TsdfLayer.getBlockPtrByIndex_eq, hb, foldl_makeEverFreeStep]

/-- A missing block is skipped by `blockWiseMakeEverFree`. -/
theorem blockWiseMakeEverFree_of_none (I : EverFreeIntegrator) (layer : TsdfLayer)
    (block_index : BlockIndex) (frame_counter : Int)
    (hb : layer.block_map block_index = none) :
    I.blockWiseMakeEverFree layer block_index frame_counter = layer := by
  unfold blockWiseMakeEverFree
  simp only [TsdfLayer.getBlockPtrByIndex_eq, hb]

/-- The labeling decision spelled out on the state before the pass. -/
theorem labelCondition_iff (I : EverFreeIntegrator) (layer : TsdfLayer) (block : TsdfBlock)
    (block_index : BlockIndex) (frame_counter : Int) (index : Nat)
    (hb : layer.block_map block_index = some block) :
    labelCondition I layer block block_index frame_counter index = true ↔
      (block.voxels index).ever_free = false ∧ (block.voxels index).weight > 1e-6 ∧
      (block.voxels index).last_occupied ≤ frame_counter - I.config_.burn_in_period ∧
      ∀ key ∈ I.search block_index (I.computeVoxelIndexFromLinearIndex index) I.voxels_per_side_,
        ∃ nb, layer.block_map key.1 = some nb ∧
          (I.getVoxelByVoxelIndex nb key.2).weight ≥ 1e-6 ∧
          (I.getVoxelByVoxelIndex nb key.2).last_occupied ≤
            frame_counter - I.config_.burn_in_period := by
  have hsame : ∀ key : VoxelKey,
      (if key.1 = block_index then some block else layer.block_map key.1) =
        layer.block_map key.1 := by
    intro key
    by_cases hk : key.1 = block_index
    · simp [hk, hb]
    · simp [hk]
  simp only [labelCondition, Bool.and_eq_true, decide_eq_true_eq, Bool.not_eq_true',
    neighborOccupiedOrUnobserved_eq_false_iff, hsame, not_or, not_le, not_lt, gt_iff_lt,
    ge_iff_le, Bool.not_eq_true]
  tauto



/-- C1. Labeling pass characterisation: after `blockWiseMakeEverFree` on an existing block,
a voxel of the block is ever-free exactly when it was ever-free before, or when on the
state before the pass its weight exceeds 1e-6, its `last_occupied` is at most
`frame_counter - burn_in_period`, and every neighbor key of the search lies in an existing
block with weight at least 1e-6 and `last_occupied` at most
`frame_counter - burn_in_period`; a newly labeled voxel has positive weight. -/
theorem C1_labeling_pass_characterisation (I : EverFreeIntegrator) (layer : TsdfLayer)
    (block_index : BlockIndex) (frame_counter : Int) (block : TsdfBlock) (index : Nat)
    (hb : layer.getBlockPtrByIndex block_index = some block)
    (hi : index < I.voxels_per_block_) :
    ∃ block', (I.blockWiseMakeEverFree layer block_index frame_counter).getBlockPtrByIndex
        block_index = some block' ∧
      ((block'.getVoxelByLinearIndex index).ever_free = true ↔
        (block.getVoxelByLinearIndex index).ever_free = true ∨
        ((block.getVoxelByLinearIndex index).weight > 1e-6 ∧
         (block.getVoxelByLinearIndex index).last_occupied ≤
            frame_counter - I.config_.burn_in_period ∧
         ∀ key ∈ I.search block_index (I.computeVoxelIndexFromLinearIndex index)
            I.voxels_per_side_,
          ∃ nb, layer.getBlockPtrByIndex key.1 = some nb ∧
            (I.getVoxelByVoxelIndex nb key.2).weight ≥ 1e-6 ∧
            (I.getVoxelByVoxelIndex nb key.2).last_occupied ≤
              frame_counter - I.config_.burn_in_period)) ∧
      ((block.getVoxelByLinearIndex index).ever_free = false →
        (block'.getVoxelByLinearIndex index).ever_free = true →
        (block'.getVoxelByLinearIndex index).weight > 0) := by
  simp only [TsdfLayer.getBlockPtrByIndex_eq] at hb
  rw [blockWiseMakeEverFree_of_some I layer block_index frame_counter block hb]
  simp only [TsdfLayer.getBlockPtrByIndex_eq, TsdfLayer.block_map_setBlock, if_true,
    Option.some.injEq, exists_eq_left']
  refine ⟨?_, ?_⟩
  · simp only [TsdfBlock.getVoxelByLinearIndex_eq, hi, true_and]
    by_cases hc : labelCondition I layer block block_index frame_counter index = true
    · have hc' := (labelCondition_iff I layer block block_index frame_counter index hb).mp hc
      simp only [hc, if_true, true_iff]
      exact Or.inr hc'.2
    · simp only [hc, if_false]
      rw [labelCondition_iff I layer block block_index frame_counter index hb] at hc
      constructor
      · intro h; exact Or.inl h
      · rintro (h | h)
        · exact h
        · by_contra hne
          exact hc ⟨by simpa using hne, h⟩
  · simp only [TsdfBlock.getVoxelByLinearIndex_eq, hi, true_and]
    intro hfalse
    by_cases hc : labelCondition I layer block block_index frame_counter index = true
    · have hc' := (labelCondition_iff I layer block block_index frame_counter index hb).mp hc
      simp only [hc, if_true]
      intro _
      have : (0 : ℚ) < 1e-6 := by norm_num
      exact lt_trans this hc'.2.1
    · simp only [hc, if_false, hfalse]
      intro h; exact absurd h (by simp [hfalse])

/-- Witness of C1 on the scene: the interior voxel (linear index 13) of the single block
at frame 5. -/
theorem C1_labeling_pass_characterisation_witness :
    sceneLayer.getBlockPtrByIndex (0, 0, 0) = some freeBlock ∧
    13 < sceneIntegrator.voxels_per_block_ ∧
    ∃ block', (sceneIntegrator.blockWiseMakeEverFree sceneLayer (0, 0, 0) 5).getBlockPtrByIndex
        (0, 0, 0) = some block' ∧
      ((block'.getVoxelByLinearIndex 13).ever_free = true ↔
        (freeBlock.getVoxelByLinearIndex 13).ever_free = true ∨
        ((freeBlock.getVoxelByLinearIndex 13).weight > 1e-6 ∧
         (freeBlock.getVoxelByLinearIndex 13).last_occupied ≤
            5 - sceneIntegrator.config_.burn_in_period ∧
         ∀ key ∈ sceneIntegrator.search (0, 0, 0)
            (sceneIntegrator.computeVoxelIndexFromLinearIndex 13)
            sceneIntegrator.voxels_per_side_,
          ∃ nb, sceneLayer.getBlockPtrByIndex key.1 = some nb ∧
            (sceneIntegrator.getVoxelByVoxelIndex nb key.2).weight ≥ 1e-6 ∧
            (sceneIntegrator.getVoxelByVoxelIndex nb key.2).last_occupied ≤
              5 - sceneIntegrator.config_.burn_in_period)) ∧
      ((freeBlock.getVoxelByLinearIndex 13).ever_free = false →
        (block'.getVoxelByLinearIndex 13).ever_free = true →
        (block'.getVoxelByLinearIndex 13).weight > 0) :=
  ⟨rfl, by decide,
    C1_labeling_pass_characterisation sceneIntegrator sceneLayer (0, 0, 0) 5 freeBlock 13 rfl
      (by decide)⟩

/-- C4. Hysteresis of the occupancy counter: `updateOccupancyCounter` sets `occ_counter`
to the old value plus one when the old `last_occupied` is at least
`frame_counter - temporal_buffer` and to 1 otherwise, sets `last_occupied` to
`frame_counter`, and changes no other field; a voxel last occupied at frame `f0` and
observed occupied at a frame beyond `f0 + temporal_buffer` ends with `occ_counter = 1`. -/
theorem C4_updateOccupancyCounter_hysteresis (I : EverFreeIntegrator) (voxel : TsdfVoxel)
    (frame_counter : Int) :
    (I.updateOccupancyCounter voxel frame_counter).occ_counter =
      (if voxel.last_occupied ≥ frame_counter - I.config_.temporal_buffer then
        voxel.occ_counter + 1 else 1) ∧
    (I.updateOccupancyCounter voxel frame_counter).last_occupied = frame_counter ∧
    (I.updateOccupancyCounter voxel frame_counter).distance = voxel.distance ∧
    (I.updateOccupancyCounter voxel frame_counter).weight = voxel.weight ∧
    (I.updateOccupancyCounter voxel frame_counter).ever_free = voxel.ever_free ∧
    (I.updateOccupancyCounter voxel frame_counter).dynamic = voxel.dynamic ∧
    (I.updateOccupancyCounter voxel frame_counter).last_lidar_occupied =
      voxel.last_lidar_occupied ∧
    (frame_counter > voxel.last_occupied + I.config_.temporal_buffer →
      (I.updateOccupancyCounter voxel frame_counter).occ_counter = 1) := by
  unfold updateOccupancyCounter
  refine ⟨?_, ?_, ?_, ?_, ?_, ?_, ?_, ?_⟩
  · split <;> rfl
  · rfl
  · dsimp only; split <;> rfl
  · dsimp only; split <;> rfl
  · dsimp only; split <;> rfl
  · dsimp only; split <;> rfl
  · dsimp only; split <;> rfl
  · intro h
    have hlt : ¬ voxel.last_occupied ≥ frame_counter - I.config_.temporal_buffer := by omega
    simp only [hlt, if_false]



/-- Witness of C4 on a voxel last occupied at frame 0 with counter 7, observed occupied at
frame 6 with temporal buffer 2: the counter restarts at 1. -/
theorem C4_updateOccupancyCounter_hysteresis_witness :
    (6 : Int) > ({ freeVoxel with occ_counter := 7 } : TsdfVoxel).last_occupied +
      sceneIntegrator.config_.temporal_buffer ∧
    (sceneIntegrator.updateOccupancyCounter { freeVoxel with occ_counter := 7 } 6).occ_counter
      = 1 :=
  ⟨by decide,
    (C4_updateOccupancyCounter_hysteresis sceneIntegrator { freeVoxel with occ_counter := 7 }
      6).2.2.2.2.2.2.2 (by decide)⟩

/-- Counterexample to C6 as stated: on the scene at frame 5 the interior voxel has
`frame_counter - last_occupied = 5 = burn_in_period`, is not ever-free before the pass,
and is ever-free after `blockWiseMakeEverFree`. -/
theorem C6_burn_in_gating_counterexample :
    sceneLayer.getBlockPtrByIndex (0, 0, 0) = some freeBlock ∧
    (freeBlock.getVoxelByLinearIndex 13).ever_free = false ∧
    5 - (freeBlock.getVoxelByLinearIndex 13).last_occupied ≤
      sceneIntegrator.config_.burn_in_period ∧
    ∃ block', (sceneIntegrator.blockWiseMakeEverFree sceneLayer (0, 0, 0) 5).getBlockPtrByIndex
        (0, 0, 0) = some block' ∧ (block'.getVoxelByLinearIndex 13).ever_free = true := by
  refine ⟨rfl, rfl, by decide, ?_⟩
  have h : ((sceneIntegrator.blockWiseMakeEverFree sceneLayer (0, 0, 0) 5).getBlockPtrByIndex
      (0, 0, 0)).map (fun b => (b.getVoxelByLinearIndex 13).ever_free) = some true := by
    decide!
  obtain ⟨b, hb, hv⟩ := Option.map_eq_some'.mp h
  exact ⟨b, hb, hv⟩

/-- C6 (amended). Burn-in gating: a voxel that is not ever-free before the labeling pass and
whose `last_occupied` is strictly less than `burn_in_period` frames before the current
frame (`frame_counter - last_occupied < burn_in_period`) is not ever-free after
`blockWiseMakeEverFree` on its block, whatever the state of its neighbors. -/
theorem C6_burn_in_gating (I : EverFreeIntegrator) (layer : TsdfLayer)
    (block_index : BlockIndex) (frame_counter : Int) (block : TsdfBlock) (index : Nat)
    (hb : layer.getBlockPtrByIndex block_index = some block)
    (hnot : (block.getVoxelByLinearIndex index).ever_free = false)
    (hwin : frame_counter - (block.getVoxelByLinearIndex index).last_occupied <
      I.config_.burn_in_period) :
    ∃ block', (I.blockWiseMakeEverFree layer block_index frame_counter).getBlockPtrByIndex
        block_index = some block' ∧ (block'.getVoxelByLinearIndex index).ever_free = false := by
  simp only [TsdfLayer.getBlockPtrByIndex_eq, TsdfBlock.getVoxelByLinearIndex_eq] at hb hnot hwin
  rw [blockWiseMakeEverFree_of_some I layer block_index frame_counter block hb]
  simp only [TsdfLayer.getBlockPtrByIndex_eq, TsdfLayer.block_map_setBlock, if_true,
    Option.some.injEq, exists_eq_left', TsdfBlock.getVoxelByLinearIndex_eq]
  have hc : ¬ labelCondition I layer block block_index frame_counter index = true := by
    rw [labelCondition_iff I layer block block_index frame_counter index hb]
    rintro ⟨_, _, h, _⟩
    omega
  simp [hc, hnot]

/-- Witness of C6 (amended) on the scene at frame 4: the interior voxel, last occupied at
frame 0, is within the burn-in window of 5 frames. -/
theorem C6_burn_in_gating_witness :
    sceneLayer.getBlockPtrByIndex (0, 0, 0) = some freeBlock ∧
    (freeBlock.getVoxelByLinearIndex 13).ever_free = false ∧
    4 - (freeBlock.getVoxelByLinearIndex 13).last_occupied <
      sceneIntegrator.config_.burn_in_period ∧
    ∃ block', (sceneIntegrator.blockWiseMakeEverFree sceneLayer (0, 0, 0) 4).getBlockPtrByIndex
        (0, 0, 0) = some block' ∧ (block'.getVoxelByLinearIndex 13).ever_free = false :=
  ⟨rfl, rfl, by decide,
    C6_burn_in_gating sceneIntegrator sceneLayer (0, 0, 0) 4 freeBlock 13 rfl rfl (by decide)⟩



/-! ## Later states: reflexivity, transitivity, lifting to folds -/

theorem TsdfVoxel.voxel_removalUpdate_refl (cfg : EverFreeCfg) (f : Int) (v : TsdfVoxel) :
    TsdfVoxel.RemovalUpdate cfg f v v := by
  simp [TsdfVoxel.RemovalUpdate]

theorem TsdfVoxel.voxel_removalUpdate_trans (cfg : EverFreeCfg) (f : Int) {u v w : TsdfVoxel}
    (h1 : TsdfVoxel.RemovalUpdate cfg f u v) (h2 : TsdfVoxel.RemovalUpdate cfg f v w) :
    TsdfVoxel.RemovalUpdate cfg f u w := by
  obtain ⟨a1, a2, a3, a4, a5, a6, a7⟩ := h1
  obtain ⟨b1, b2, b3, b4, b5, b6, b7⟩ := h2
  refine ⟨b1.trans a1, b2.trans a2, b3.trans a3, fun h => a4 (b4 h), fun h => a5 (b5 h), ?_, ?_⟩
  · rcases b6 with h | h
    · rw [h]; exact a6
    · exact Or.inr h
  · intro hn
    have hn' : ¬ (v.distance < cfg.tsdf_occupancy_threshold ∨ v.last_lidar_occupied = f) := by
      rw [a1, a3]; exact hn
    exact ⟨(b7 hn').1.trans (a7 hn).1, (b7 hn').2.trans (a7 hn).2⟩

theorem TsdfVoxel.removalUpdate_clearEverFree (cfg : EverFreeCfg) (f : Int) (v : TsdfVoxel) :
    TsdfVoxel.RemovalUpdate cfg f v (clearEverFree v) := by
  simp [TsdfVoxel.RemovalUpdate, clearEverFree]

theorem TsdfBlock.block_removalUpdate_refl (cfg : EverFreeCfg) (f : Int) (b : TsdfBlock) :
    TsdfBlock.RemovalUpdate cfg f b b :=
  ⟨rfl, fun _ => TsdfVoxel.voxel_removalUpdate_refl cfg f _⟩

theorem TsdfBlock.block_removalUpdate_trans (cfg : EverFreeCfg) (f : Int) {a b c : TsdfBlock}
    (h1 : TsdfBlock.RemovalUpdate cfg f a b) (h2 : TsdfBlock.RemovalUpdate cfg f b c) :
    TsdfBlock.RemovalUpdate cfg f a c :=
  ⟨h2.1.trans h1.1, fun j => TsdfVoxel.voxel_removalUpdate_trans cfg f (h1.2 j) (h2.2 j)⟩

/-- Writing a later state of one voxel gives a later state of the block. -/
theorem TsdfBlock.removalUpdate_setVoxel (cfg : EverFreeCfg) (f : Int) (b : TsdfBlock)
    (index : Nat) (v : TsdfVoxel) (hv : TsdfVoxel.RemovalUpdate cfg f (b.voxels index) v) :
    TsdfBlock.RemovalUpdate cfg f b (b.setVoxelByLinearIndex index v) := by
  refine ⟨rfl, fun j => ?_⟩
  by_cases hj : j = index
  · subst hj; simpa using hv
  · simpa [hj] using TsdfVoxel.voxel_removalUpdate_refl cfg f _

theorem TsdfLayer.blockwise_refl (R : TsdfBlock → TsdfBlock → Prop) (hR : ∀ b, R b b)
    (layer : TsdfLayer) : TsdfLayer.Blockwise R layer layer :=
  ⟨rfl, fun _ => ⟨fun h => h, fun b hb => ⟨b, hb, hR b⟩⟩⟩

theorem TsdfLayer.blockwise_trans (R : TsdfBlock → TsdfBlock → Prop)
    (hR : ∀ a b c, R a b → R b c → R a c) {l1 l2 l3 : TsdfLayer}
    (h1 : TsdfLayer.Blockwise R l1 l2) (h2 : TsdfLayer.Blockwise R l2 l3) :
    TsdfLayer.Blockwise R l1 l3 := by
  refine ⟨h2.1.trans h1.1, fun k => ⟨fun h => (h2.2 k).1 ((h1.2 k).1 h), fun b hb => ?_⟩⟩
  obtain ⟨b', hb', hr⟩ := (h1.2 k).2 b hb
  obtain ⟨b'', hb'', hr'⟩ := (h2.2 k).2 b' hb'
  exact ⟨b'', hb'', hR _ _ _ hr hr'⟩

/-- Replacing an existing block by a related one gives a blockwise related layer. -/
theorem TsdfLayer.blockwise_setBlock (R : TsdfBlock → TsdfBlock → Prop) (hR : ∀ b, R b b)
    (layer : TsdfLayer) (index : BlockIndex) (b b' : TsdfBlock)
    (hb : layer.block_map index = some b) (hr : R b b') :
    TsdfLayer.Blockwise R layer (layer.setBlock index b') := by
  refine ⟨rfl, fun k => ⟨fun h => ?_, fun c hc => ?_⟩⟩
  · have hk : k ≠ index := by rintro rfl; rw [hb] at h; exact absurd h (by simp)
    simpa [hk] using h
  · by_cases hk : k = index
    · subst hk
      rw [hb] at hc
      cases hc
      exact ⟨b', by simp, hr⟩
    · exact ⟨c, by simpa [hk] using hc, hR c⟩

/-- A fold of steps that each lead to a blockwise related layer leads to one. -/
theorem TsdfLayer.blockwise_foldl (R : TsdfBlock → TsdfBlock → Prop) {α : Type}
    (hrefl : ∀ b, R b b) (htrans : ∀ a b c, R a b → R b c → R a c)
    (step : TsdfLayer → α → TsdfLayer)
    (hstep : ∀ layer x, TsdfLayer.Blockwise R layer (step layer x))
    (xs : List α) (layer : TsdfLayer) :
    TsdfLayer.Blockwise R layer (xs.foldl step layer) := by
  induction xs generalizing layer with
  | nil => exact TsdfLayer.blockwise_refl R hrefl layer
  | cons x xs ih =>
    exact TsdfLayer.blockwise_trans R htrans (hstep layer x) (ih (step layer x))

theorem TsdfLayer.layer_removalUpdate_refl (cfg : EverFreeCfg) (f : Int) (layer : TsdfLayer) :
    TsdfLayer.Blockwise (TsdfBlock.RemovalUpdate cfg f) layer layer :=
  TsdfLayer.blockwise_refl (TsdfBlock.RemovalUpdate cfg f) (TsdfBlock.block_removalUpdate_refl cfg f) layer

theorem TsdfLayer.layer_removalUpdate_trans (cfg : EverFreeCfg) (f : Int) {l1 l2 l3 : TsdfLayer}
    (h1 : TsdfLayer.Blockwise (TsdfBlock.RemovalUpdate cfg f) l1 l2)
    (h2 : TsdfLayer.Blockwise (TsdfBlock.RemovalUpdate cfg f) l2 l3) :
    TsdfLayer.Blockwise (TsdfBlock.RemovalUpdate cfg f) l1 l3 :=
  TsdfLayer.blockwise_trans (TsdfBlock.RemovalUpdate cfg f)
    (fun _ _ _ h h' => TsdfBlock.block_removalUpdate_trans cfg f h h') h1 h2

theorem TsdfLayer.removalUpdate_setBlock (cfg : EverFreeCfg) (f : Int) (layer : TsdfLayer)
    (index : BlockIndex) (b b' : TsdfBlock) (hb : layer.block_map index = some b)
    (hr : TsdfBlock.RemovalUpdate cfg f b b') :
    TsdfLayer.Blockwise (TsdfBlock.RemovalUpdate cfg f) layer (layer.setBlock index b') :=
  TsdfLayer.blockwise_setBlock (TsdfBlock.RemovalUpdate cfg f)
    (TsdfBlock.block_removalUpdate_refl cfg f) layer index b b' hb hr

/-! ## Phase 1 and the merge step lead to later states -/

theorem updateCounterStep_removalUpdate (I : EverFreeIntegrator) (f : Int) (b : TsdfBlock)
    (index : Nat) : TsdfBlock.RemovalUpdate I.config_ f b (I.updateCounterStep f b index) := by
  unfold updateCounterStep
  simp only [TsdfBlock.getVoxelByLinearIndex_eq]
  have h1 : TsdfBlock.RemovalUpdate I.config_ f b
      (if (b.voxels index).distance < I.config_.tsdf_occupancy_threshold ∨
          (b.voxels index).last_lidar_occupied = f then
        b.setVoxelByLinearIndex index (I.updateOccupancyCounter (b.voxels index) f)
      else b) := by
    split
    · rename_i hc
      apply TsdfBlock.removalUpdate_setVoxel
      unfold updateOccupancyCounter TsdfVoxel.RemovalUpdate
      dsimp only
      refine ⟨?_, ?_, ?_, ?_, ?_, Or.inr rfl, fun hn => absurd hc hn⟩ <;> split <;> simp
    · exact TsdfBlock.block_removalUpdate_refl _ _ _
  generalize (if (b.voxels index).distance < I.config_.tsdf_occupancy_threshold ∨
      (b.voxels index).last_lidar_occupied = f then
    b.setVoxelByLinearIndex index (I.updateOccupancyCounter (b.voxels index) f)
    else b) = c at h1 ⊢
  refine TsdfBlock.block_removalUpdate_trans _ _ h1 ?_
  split
  · apply TsdfBlock.removalUpdate_setVoxel
    simp [TsdfVoxel.RemovalUpdate]
  · exact TsdfBlock.block_removalUpdate_refl _ _ _

theorem removeEverFreeStep_removalUpdate (I : EverFreeIntegrator) (f : Int)
    (block_index : BlockIndex) (st : TsdfBlock × List VoxelKey) (key : VoxelKey) :
    TsdfBlock.RemovalUpdate I.config_ f st.1 (I.removeEverFreeStep block_index st key).1 := by
  unfold removeEverFreeStep
  split
  · exact TsdfBlock.removalUpdate_setVoxel _ _ _ _ _
      (TsdfVoxel.removalUpdate_clearEverFree _ _ _)
  · exact TsdfBlock.block_removalUpdate_refl _ _ _

theorem foldl_removeEverFreeStep_removalUpdate (I : EverFreeIntegrator) (f : Int)
    (block_index : BlockIndex) (keys : List VoxelKey) (st : TsdfBlock × List VoxelKey) :
    TsdfBlock.RemovalUpdate I.config_ f st.1
      (keys.foldl (I.removeEverFreeStep block_index) st).1 := by
  induction keys generalizing st with
  | nil => exact TsdfBlock.block_removalUpdate_refl _ _ _
  | cons key rest ih =>
    exact TsdfBlock.block_removalUpdate_trans _ _
      (removeEverFreeStep_removalUpdate I f block_index st key) (ih _)

theorem removeEverFree_removalUpdate (I : EverFreeIntegrator) (f : Int) (b : TsdfBlock)
    (index : Nat) (block_index : BlockIndex) (voxel_index : VoxelIndex) :
    TsdfBlock.RemovalUpdate I.config_ f b
      (I.removeEverFree b index block_index voxel_index).1 := by
  unfold removeEverFree
  exact TsdfBlock.block_removalUpdate_trans _ _
    (TsdfBlock.removalUpdate_setVoxel _ _ _ _ _ (TsdfVoxel.removalUpdate_clearEverFree _ _ _))
    (foldl_removeEverFreeStep_removalUpdate I f block_index _ _)

theorem updateEverFreeStep_removalUpdate (I : EverFreeIntegrator) (f : Int)
    (block_index : BlockIndex) (st : TsdfBlock × List VoxelKey) (index : Nat) :
    TsdfBlock.RemovalUpdate I.config_ f st.1 (I.updateEverFreeStep block_index f st index).1 := by
  unfold updateEverFreeStep
  dsimp only
  split
  · exact TsdfBlock.block_removalUpdate_trans _ _ (updateCounterStep_removalUpdate I f st.1 index)
      (removeEverFree_removalUpdate I f _ _ _ _)
  · exact updateCounterStep_removalUpdate I f st.1 index

theorem foldl_updateEverFreeStep_removalUpdate (I : EverFreeIntegrator) (f : Int)
    (block_index : BlockIndex) (indices : List Nat) (st : TsdfBlock × List VoxelKey) :
    TsdfBlock.RemovalUpdate I.config_ f st.1
      (indices.foldl (I.updateEverFreeStep block_index f) st).1 := by
  induction indices generalizing st with
  | nil => exact TsdfBlock.block_removalUpdate_refl _ _ _
  | cons index rest ih =>
    exact TsdfBlock.block_removalUpdate_trans _ _
      (updateEverFreeStep_removalUpdate I f block_index st index) (ih _)

theorem blockWiseUpdateEverFree_removalUpdate (I : EverFreeIntegrator) (layer : TsdfLayer)
    (block_index : BlockIndex) (f : Int) (voxels_to_remove : List VoxelKey) :
    TsdfLayer.Blockwise (TsdfBlock.RemovalUpdate I.config_ f) layer
      (I.blockWiseUpdateEverFree layer block_index f voxels_to_remove).1 := by
  unfold blockWiseUpdateEverFree
  simp only [TsdfLayer.getBlockPtrByIndex_eq]
  cases hb : layer.block_map block_index with
  | none => exact TsdfLayer.layer_removalUpdate_refl _ _ layer
  | some b =>
    exact TsdfLayer.removalUpdate_setBlock _ _ layer block_index b _ hb
      (foldl_updateEverFreeStep_removalUpdate I f block_index _ _)

theorem removeOccupied_removalUpdate (I : EverFreeIntegrator) (f : Int)
    (indices : List BlockIndex) (st : TsdfLayer × List VoxelKey) :
    TsdfLayer.Blockwise (TsdfBlock.RemovalUpdate I.config_ f) st.1
      (I.removeOccupied f st indices).1 := by
  unfold removeOccupied
  induction indices generalizing st with
  | nil => exact TsdfLayer.layer_removalUpdate_refl _ _ _
  | cons index rest ih =>
    exact TsdfLayer.layer_removalUpdate_trans _ _
      (blockWiseUpdateEverFree_removalUpdate I st.1 index f []) (ih _)

theorem removeRemainingStep_removalUpdate (I : EverFreeIntegrator) (f : Int) (layer : TsdfLayer)
    (key : VoxelKey) :
    TsdfLayer.Blockwise (TsdfBlock.RemovalUpdate I.config_ f) layer
      (I.removeRemainingStep layer key) := by
  unfold removeRemainingStep
  simp only [TsdfLayer.getBlockPtrByIndex_eq]
  cases hb : layer.block_map key.1 with
  | none => exact TsdfLayer.layer_removalUpdate_refl _ _ layer
  | some b =>
    exact TsdfLayer.removalUpdate_setBlock _ _ layer key.1 b _ hb
      (TsdfBlock.removalUpdate_setVoxel _ _ _ _ _ (TsdfVoxel.removalUpdate_clearEverFree _ _ _))

theorem removeRemaining_removalUpdate (I : EverFreeIntegrator) (f : Int) (layer : TsdfLayer)
    (keys : List VoxelKey) :
    TsdfLayer.Blockwise (TsdfBlock.RemovalUpdate I.config_ f) layer
      (I.removeRemaining layer keys) :=
  TsdfLayer.blockwise_foldl (TsdfBlock.RemovalUpdate I.config_ f)
    (TsdfBlock.block_removalUpdate_refl _ _)
    (fun _ _ _ h h' => TsdfBlock.block_removalUpdate_trans _ _ h h') _
    (removeRemainingStep_removalUpdate I f) keys layer

theorem removeOccupiedAndMerge_removalUpdate (I : EverFreeIntegrator) (layer : TsdfLayer)
    (f : Int) (indices : List BlockIndex) :
    TsdfLayer.Blockwise (TsdfBlock.RemovalUpdate I.config_ f) layer
      (I.removeOccupiedAndMerge layer f indices) := by
  unfold removeOccupiedAndMerge
  exact TsdfLayer.layer_removalUpdate_trans _ _
    (removeOccupied_removalUpdate I f indices (layer, []))
    (removeRemaining_removalUpdate I f _ _)



/-! ## The labeling pass leads to later states -/

theorem TsdfVoxel.voxel_labelUpdate_refl (v : TsdfVoxel) : TsdfVoxel.LabelUpdate v v := Or.inl rfl

theorem TsdfVoxel.voxel_labelUpdate_trans {u v w : TsdfVoxel} (h1 : TsdfVoxel.LabelUpdate u v)
    (h2 : TsdfVoxel.LabelUpdate v w) : TsdfVoxel.LabelUpdate u w := by
  rcases h1 with rfl | ⟨hu, rfl⟩
  · exact h2
  · rcases h2 with rfl | ⟨hv, _⟩
    · exact Or.inr ⟨hu, rfl⟩
    · simp at hv

theorem TsdfBlock.block_labelUpdate_refl (b : TsdfBlock) : TsdfBlock.LabelUpdate b b :=
  ⟨Or.inr rfl, fun _ => TsdfVoxel.voxel_labelUpdate_refl _⟩

theorem TsdfBlock.block_labelUpdate_trans {a b c : TsdfBlock} (h1 : TsdfBlock.LabelUpdate a b)
    (h2 : TsdfBlock.LabelUpdate b c) : TsdfBlock.LabelUpdate a c := by
  refine ⟨?_, fun j => TsdfVoxel.voxel_labelUpdate_trans (h1.2 j) (h2.2 j)⟩
  rcases h2.1 with h | h
  · exact Or.inl h
  · rcases h1.1 with h' | h'
    · exact Or.inl (h.trans h')
    · exact Or.inr (h.trans h')

theorem TsdfLayer.layer_labelUpdate_refl (layer : TsdfLayer) :
    TsdfLayer.Blockwise TsdfBlock.LabelUpdate layer layer :=
  TsdfLayer.blockwise_refl TsdfBlock.LabelUpdate TsdfBlock.block_labelUpdate_refl layer

theorem TsdfLayer.layer_labelUpdate_trans {l1 l2 l3 : TsdfLayer}
    (h1 : TsdfLayer.Blockwise TsdfBlock.LabelUpdate l1 l2)
    (h2 : TsdfLayer.Blockwise TsdfBlock.LabelUpdate l2 l3) :
    TsdfLayer.Blockwise TsdfBlock.LabelUpdate l1 l3 :=
  TsdfLayer.blockwise_trans TsdfBlock.LabelUpdate
    (fun _ _ _ h h' => TsdfBlock.block_labelUpdate_trans h h') h1 h2

theorem blockWiseMakeEverFree_labelUpdate (I : EverFreeIntegrator) (layer : TsdfLayer)
    (block_index : BlockIndex) (f : Int) :
    TsdfLayer.Blockwise TsdfBlock.LabelUpdate layer (I.blockWiseMakeEverFree layer block_index f) := by
  cases hb : layer.block_map block_index with
  | none =>
    rw [blockWiseMakeEverFree_of_none I layer block_index f hb]
    exact TsdfLayer.layer_labelUpdate_refl layer
  | some b =>
    rw [blockWiseMakeEverFree_of_some I layer block_index f b hb]
    refine TsdfLayer.blockwise_setBlock TsdfBlock.LabelUpdate TsdfBlock.block_labelUpdate_refl layer
      block_index b _ hb ⟨Or.inl rfl, fun j => ?_⟩
    dsimp only
    by_cases hc : j < I.voxels_per_block_ ∧ labelCondition I layer b block_index f j = true
    · rw [if_pos hc]
      have h := (labelCondition_iff I layer b block_index f j hb).mp hc.2
      exact Or.inr ⟨h.1, rfl⟩
    · rw [if_neg hc]
      exact Or.inl rfl

theorem labelFree_labelUpdate (I : EverFreeIntegrator) (f : Int) (layer : TsdfLayer)
    (indices : List BlockIndex) :
    TsdfLayer.Blockwise TsdfBlock.LabelUpdate layer (I.labelFree f layer indices) :=
  TsdfLayer.blockwise_foldl TsdfBlock.LabelUpdate TsdfBlock.block_labelUpdate_refl
    (fun _ _ _ h h' => TsdfBlock.block_labelUpdate_trans h h') _
    (fun layer index => blockWiseMakeEverFree_labelUpdate I layer index f) indices layer

/-! ## Conservative labeling -/

/-- A voxel that is not ever-free and has a neighbor key in an absent block stays so under
`blockWiseMakeEverFree` on any block. -/
theorem blockWiseMakeEverFree_absent_neighbor (I : EverFreeIntegrator) (layer : TsdfLayer)
    (block_index : BlockIndex) (f : Int) (index : Nat) (key : VoxelKey) (x : BlockIndex)
    (hkey : key ∈ I.search block_index (I.computeVoxelIndexFromLinearIndex index)
      I.voxels_per_side_)
    (h : (∃ b, layer.block_map block_index = some b ∧ (b.voxels index).ever_free = false) ∧
      layer.block_map key.1 = none) :
    (∃ b, (I.blockWiseMakeEverFree layer x f).block_map block_index = some b ∧
        (b.voxels index).ever_free = false) ∧
      (I.blockWiseMakeEverFree layer x f).block_map key.1 = none := by
  obtain ⟨⟨b, hb, hnot⟩, habs⟩ := h
  refine ⟨?_, ((blockWiseMakeEverFree_labelUpdate I layer x f).2 key.1).1 habs⟩
  cases hx : layer.block_map x with
  | none =>
    rw [blockWiseMakeEverFree_of_none I layer x f hx]
    exact ⟨b, hb, hnot⟩
  | some bx =>
    rw [blockWiseMakeEverFree_of_some I layer x f bx hx]
    by_cases hk : block_index = x
    · subst hk
      rw [hb] at hx
      cases hx
      simp only [TsdfLayer.block_map_setBlock, if_true, Option.some.injEq, exists_eq_left']
      have hc : ¬ labelCondition I layer b block_index f index = true := by
        rw [labelCondition_iff I layer b block_index f index hb]
        rintro ⟨_, _, _, hall⟩
        obtain ⟨nb, hnb, _⟩ := hall key hkey
        rw [habs] at hnb
        exact absurd hnb (by simp)
      simp [hc, hnot]
    · exact ⟨b, by simpa [hk] using hb, hnot⟩

/-- With at least one worker the workers of a pass take every block of the list. -/
theorem takenIndices_of_workers (I : EverFreeIntegrator) (indices : List BlockIndex)
    (h : I.config_.num_threads ≥ 1) : I.takenIndices indices = indices := by
  unfold takenIndices
  rw [if_pos (by omega)]

/-- With `num_threads ≤ 0` no worker is started and no block is taken. -/
theorem takenIndices_of_no_workers (I : EverFreeIntegrator) (indices : List BlockIndex)
    (h : I.config_.num_threads ≤ 0) : I.takenIndices indices = [] := by
  unfold takenIndices
  rw [if_neg (by omega)]

theorem takenIndices_perm (I : EverFreeIntegrator) (indices indices' : List BlockIndex)
    (h : indices.Perm indices') : (I.takenIndices indices).Perm (I.takenIndices indices') := by
  unfold takenIndices
  split_ifs
  · exact h
  · exact List.Perm.refl _

/-- With `num_threads ≤ 0` the update leaves the grid as it is. -/
theorem updateEverFreeVoxels_of_no_workers (I : EverFreeIntegrator) (layer : TsdfLayer)
    (f : Int) (h : I.config_.num_threads ≤ 0) : I.updateEverFreeVoxels layer f = layer := by
  unfold updateEverFreeVoxels updateEverFreeVoxelsOn
  rw [takenIndices_of_no_workers I _ h]
  rfl

theorem labelFree_absent_neighbor (I : EverFreeIntegrator) (f : Int) (block_index : BlockIndex)
    (index : Nat) (key : VoxelKey) (indices : List BlockIndex)
    (hkey : key ∈ I.search block_index (I.computeVoxelIndexFromLinearIndex index)
      I.voxels_per_side_) (layer : TsdfLayer)
    (h : (∃ b, layer.block_map block_index = some b ∧ (b.voxels index).ever_free = false) ∧
      layer.block_map key.1 = none) :
    (∃ b, (I.labelFree f layer indices).block_map block_index = some b ∧
        (b.voxels index).ever_free = false) ∧
      (I.labelFree f layer indices).block_map key.1 = none := by
  unfold labelFree
  induction indices generalizing layer with
  | nil => exact h
  | cons x rest ih =>
    exact ih _ (blockWiseMakeEverFree_absent_neighbor I layer block_index f index key x hkey h)

/-- C5. Conservative labeling: a voxel that is not ever-free before the labeling pass and
has at least one neighbor key naming a block absent from the grid is not ever-free after
`blockWiseMakeEverFree` on its block, nor after a labeling pass over any list of blocks,
nor after `updateEverFreeVoxels`. -/
theorem C5_conservative_labeling (I : EverFreeIntegrator) (layer : TsdfLayer)
    (block_index : BlockIndex) (frame_counter : Int) (block : TsdfBlock) (index : Nat)
    (key : VoxelKey) (indices : List BlockIndex)
    (hb : layer.getBlockPtrByIndex block_index = some block)
    (hnot : (block.getVoxelByLinearIndex index).ever_free = false)
    (hkey : key ∈ I.search block_index (I.computeVoxelIndexFromLinearIndex index)
      I.voxels_per_side_)
    (habs : layer.getBlockPtrByIndex key.1 = none) :
    (∃ block', (I.blockWiseMakeEverFree layer block_index frame_counter).getBlockPtrByIndex
        block_index = some block' ∧ (block'.getVoxelByLinearIndex index).ever_free = false) ∧
    (∃ block', (I.labelFree frame_counter layer indices).getBlockPtrByIndex
        block_index = some block' ∧ (block'.getVoxelByLinearIndex index).ever_free = false) ∧
    (∃ block', (I.updateEverFreeVoxels layer frame_counter).getBlockPtrByIndex
        block_index = some block' ∧ (block'.getVoxelByLinearIndex index).ever_free = false) := by
  simp only [TsdfLayer.getBlockPtrByIndex_eq, TsdfBlock.getVoxelByLinearIndex_eq] at *
  have h0 : (∃ b, layer.block_map block_index = some b ∧ (b.voxels index).ever_free = false) ∧
      layer.block_map key.1 = none := ⟨⟨block, hb, hnot⟩, habs⟩
  refine ⟨(blockWiseMakeEverFree_absent_neighbor I layer block_index frame_counter index key
      block_index hkey h0).1,
    (labelFree_absent_neighbor I frame_counter block_index index key indices hkey layer h0).1, ?_⟩
  unfold updateEverFreeVoxels updateEverFreeVoxelsOn
  refine (labelFree_absent_neighbor I frame_counter block_index index key _ hkey _ ?_).1
  have hr := removeOccupiedAndMerge_removalUpdate I layer frame_counter
    (I.takenIndices layer.getAllUpdatedBlocks)
  obtain ⟨b', hb', hrel⟩ := (hr.2 block_index).2 block hb
  refine ⟨⟨b', hb', ?_⟩, (hr.2 key.1).1 habs⟩
  have := (hrel.2 index).2.2.2.1
  cases hv : (b'.voxels index).ever_free with
  | false => rfl
  | true => rw [this hv] at hnot; exact absurd hnot (by simp)

/-- Witness of C5 on the scene: the corner voxel (linear index 0) of the single block has
the neighbor key in the absent block (-1, 0, 0). -/
theorem C5_conservative_labeling_witness :
    sceneLayer.getBlockPtrByIndex (0, 0, 0) = some freeBlock ∧
    (freeBlock.getVoxelByLinearIndex 0).ever_free = false ∧
    (((-1, 0, 0), (2, 0, 0)) : VoxelKey) ∈ sceneIntegrator.search (0, 0, 0)
      (sceneIntegrator.computeVoxelIndexFromLinearIndex 0) sceneIntegrator.voxels_per_side_ ∧
    sceneLayer.getBlockPtrByIndex (-1, 0, 0) = none ∧
    (∃ block', (sceneIntegrator.blockWiseMakeEverFree sceneLayer (0, 0, 0) 5).getBlockPtrByIndex
        (0, 0, 0) = some block' ∧ (block'.getVoxelByLinearIndex 0).ever_free = false) ∧
    (∃ block', (sceneIntegrator.labelFree 5 sceneLayer [(0, 0, 0)]).getBlockPtrByIndex
        (0, 0, 0) = some block' ∧ (block'.getVoxelByLinearIndex 0).ever_free = false) ∧
    (∃ block', (sceneIntegrator.updateEverFreeVoxels sceneLayer 5).getBlockPtrByIndex
        (0, 0, 0) = some block' ∧ (block'.getVoxelByLinearIndex 0).ever_free = false) :=
  ⟨rfl, rfl, by decide, by simp [sceneLayer, singleBlockLayer],
    C5_conservative_labeling sceneIntegrator sceneLayer (0, 0, 0) 5 freeBlock 0
      ((-1, 0, 0), (2, 0, 0)) [(0, 0, 0)] rfl rfl (by decide)
      (by simp [sceneLayer, singleBlockLayer])⟩



/-! ## Removal: what a firing trigger clears and what it hands over -/

theorem TsdfVoxel.cleared_clearEverFree (v : TsdfVoxel) : (clearEverFree v).Cleared :=
  ⟨rfl, rfl⟩

theorem TsdfVoxel.voxel_cleared_of_removalUpdate {cfg : EverFreeCfg} {f : Int} {v v' : TsdfVoxel}
    (h : TsdfVoxel.RemovalUpdate cfg f v v') (hc : v.Cleared) : v'.Cleared := by
  obtain ⟨_, _, _, h4, h5, _, _⟩ := h
  constructor
  · cases hv : v'.ever_free with
    | false => rfl
    | true => exact absurd (h4 hv) (by simp [hc.1])
  · cases hv : v'.dynamic with
    | false => rfl
    | true => exact absurd (h5 hv) (by simp [hc.2])

/-- A cleared voxel of a layer is cleared in every later state of phase 1 and the merge. -/
theorem TsdfLayer.layer_cleared_of_removalUpdate {cfg : EverFreeCfg} {f : Int} {l l' : TsdfLayer}
    (h : TsdfLayer.Blockwise (TsdfBlock.RemovalUpdate cfg f) l l') {k : BlockIndex}
    {b b' : TsdfBlock} (hb : l.block_map k = some b) (hb' : l'.block_map k = some b') (j : Nat)
    (hc : (b.voxels j).Cleared) : (b'.voxels j).Cleared := by
  obtain ⟨c, hc', hr⟩ := (h.2 k).2 b hb
  rw [hb'] at hc'
  cases hc'
  exact TsdfVoxel.voxel_cleared_of_removalUpdate (hr.2 j) hc

/-- Neighbor loop of `removeEverFree`: the keys of other blocks are appended in order, and
the voxel of every key of the own block is cleared. -/
theorem foldl_removeEverFreeStep_spec (I : EverFreeIntegrator) (block_index : BlockIndex)
    (keys : List VoxelKey) (st : TsdfBlock × List VoxelKey) :
    (keys.foldl (I.removeEverFreeStep block_index) st).2 =
        st.2 ++ keys.filter (fun key => decide (key.1 ≠ block_index)) ∧
      ∀ key ∈ keys, key.1 = block_index →
        ((keys.foldl (I.removeEverFreeStep block_index) st).1.voxels
          (I.computeLinearIndexFromVoxelIndex key.2)).Cleared := by
  induction keys generalizing st with
  | nil => simp
  | cons x rest ih =>
    simp only [List.foldl_cons]
    obtain ⟨ih1, ih2⟩ := ih (I.removeEverFreeStep block_index st x)
    constructor
    · rw [ih1]
      unfold removeEverFreeStep
      by_cases hx : x.1 = block_index
      · simp [hx]
      · simp [hx]
    · intro key hkey hk
      rcases List.mem_cons.mp hkey with rfl | hmem
      · have hstep : ((I.removeEverFreeStep block_index st key).1.voxels
            (I.computeLinearIndexFromVoxelIndex key.2)).Cleared := by
          unfold removeEverFreeStep
          simp only [hk, if_true, TsdfBlock.voxels_setVoxelByLinearIndex]
          exact TsdfVoxel.cleared_clearEverFree _
        exact TsdfVoxel.voxel_cleared_of_removalUpdate
          ((foldl_removeEverFreeStep_removalUpdate I 0 block_index rest _).2 _) hstep
      · exact ih2 key hmem hk

/-- Effect of `removeEverFree`: the voxel itself and its neighbors in the own block are
cleared, and the returned vector holds exactly the neighbor keys of other blocks. -/
theorem removeEverFree_spec (I : EverFreeIntegrator) (b : TsdfBlock) (index : Nat)
    (block_index : BlockIndex) (voxel_index : VoxelIndex) :
    (I.removeEverFree b index block_index voxel_index).2 =
        (I.search block_index voxel_index I.voxels_per_side_).filter
          (fun key => decide (key.1 ≠ block_index)) ∧
      ((I.removeEverFree b index block_index voxel_index).1.voxels index).Cleared ∧
      ∀ key ∈ I.search block_index voxel_index I.voxels_per_side_, key.1 = block_index →
        ((I.removeEverFree b index block_index voxel_index).1.voxels
          (I.computeLinearIndexFromVoxelIndex key.2)).Cleared := by
  unfold removeEverFree
  dsimp only
  obtain ⟨h1, h2⟩ := foldl_removeEverFreeStep_spec I block_index
    (I.search block_index voxel_index I.voxels_per_side_)
    (b.setVoxelByLinearIndex index (clearEverFree (b.getVoxelByLinearIndex index)), [])
  refine ⟨by simpa using h1, ?_, h2⟩
  refine TsdfVoxel.voxel_cleared_of_removalUpdate
    ((foldl_removeEverFreeStep_removalUpdate I 0 block_index _ _).2 _) ?_
  simp only [TsdfBlock.voxels_setVoxelByLinearIndex, if_true]
  exact TsdfVoxel.cleared_clearEverFree _

/-- The output vector of a voxel-loop iteration is the input vector with the keys of this
iteration appended; the block part does not depend on the input vector. -/
theorem updateEverFreeStep_acc (I : EverFreeIntegrator) (block_index : BlockIndex) (f : Int)
    (b : TsdfBlock) (acc : List VoxelKey) (index : Nat) :
    I.updateEverFreeStep block_index f (b, acc) index =
      ((I.updateEverFreeStep block_index f (b, []) index).1,
        acc ++ (I.updateEverFreeStep block_index f (b, []) index).2) := by
  unfold updateEverFreeStep
  dsimp only
  split <;> simp

theorem foldl_updateEverFreeStep_acc (I : EverFreeIntegrator) (block_index : BlockIndex) (f : Int)
    (indices : List Nat) (b : TsdfBlock) (acc : List VoxelKey) :
    indices.foldl (I.updateEverFreeStep block_index f) (b, acc) =
      ((indices.foldl (I.updateEverFreeStep block_index f) (b, [])).1,
        acc ++ (indices.foldl (I.updateEverFreeStep block_index f) (b, [])).2) := by
  induction indices generalizing b acc with
  | nil => simp
  | cons n rest ih =>
    simp only [List.foldl_cons]
    rw [updateEverFreeStep_acc I block_index f b acc n,
      ih (I.updateEverFreeStep block_index f (b, []) n).1
        (acc ++ (I.updateEverFreeStep block_index f (b, []) n).2)]
    have h0 : I.updateEverFreeStep block_index f (b, []) n =
        ((I.updateEverFreeStep block_index f (b, []) n).1,
          (I.updateEverFreeStep block_index f (b, []) n).2) := rfl
    rw [h0, ih (I.updateEverFreeStep block_index f (b, []) n).1
      (I.updateEverFreeStep block_index f (b, []) n).2]
    simp [List.append_assoc]

theorem updateEverFreeLoop_succ (I : EverFreeIntegrator) (block_index : BlockIndex) (f : Int)
    (b : TsdfBlock) (n : Nat) :
    I.updateEverFreeLoop block_index f b (n + 1) =
      I.updateEverFreeStep block_index f (I.updateEverFreeLoop block_index f b n) n := by
  unfold updateEverFreeLoop
  rw [List.range_succ, List.foldl_append]
  rfl

/-- Function `blockWiseUpdateEverFree` on an existing block, in terms of the voxel loop. -/
theorem blockWiseUpdateEverFree_of_some (I : EverFreeIntegrator) (layer : TsdfLayer)
    (block_index : BlockIndex) (f : Int) (acc : List VoxelKey) (b : TsdfBlock)
    (hb : layer.block_map block_index = some b) :
    I.blockWiseUpdateEverFree layer block_index f acc =
      (layer.setBlock block_index (I.updateEverFreeLoop block_index f b I.voxels_per_block_).1,
        acc ++ (I.updateEverFreeLoop block_index f b I.voxels_per_block_).2,
        !(acc ++ (I.updateEverFreeLoop block_index f b I.voxels_per_block_).2).isEmpty) := by
  unfold blockWiseUpdateEverFree updateEverFreeLoop
  simp only [TsdfLayer.getBlockPtrByIndex_eq, hb]
  rw [foldl_updateEverFreeStep_acc I block_index f _ b acc]

theorem blockWiseUpdateEverFree_of_none (I : EverFreeIntegrator) (layer : TsdfLayer)
    (block_index : BlockIndex) (f : Int) (acc : List VoxelKey)
    (hb : layer.block_map block_index = none) :
    I.blockWiseUpdateEverFree layer block_index f acc = (layer, acc, false) := by
  unfold blockWiseUpdateEverFree
  simp only [TsdfLayer.getBlockPtrByIndex_eq, hb]

/-- One iteration of the voxel loop, by cases on the removal trigger. -/
theorem updateEverFreeStep_loop (I : EverFreeIntegrator) (block_index : BlockIndex) (f : Int)
    (b : TsdfBlock) (n : Nat) :
    I.updateEverFreeStep block_index f (I.updateEverFreeLoop block_index f b n) n =
      if I.removalTriggerFires block_index f b n then
        ((I.removeEverFree
            (I.updateCounterStep f (I.updateEverFreeLoop block_index f b n).1 n) n block_index
            (I.computeVoxelIndexFromLinearIndex n)).1,
          (I.updateEverFreeLoop block_index f b n).2 ++
            (I.search block_index (I.computeVoxelIndexFromLinearIndex n)
              I.voxels_per_side_).filter (fun key => decide (key.1 ≠ block_index)))
      else
        (I.updateCounterStep f (I.updateEverFreeLoop block_index f b n).1 n,
          (I.updateEverFreeLoop block_index f b n).2) := by
  unfold updateEverFreeStep removalTriggerFires
  dsimp only
  split
  · rw [(removeEverFree_spec I _ n block_index _).1]
  · rfl

/-- When the trigger fires for a voxel visited among the first `n`, then after `n`
iterations the voxel and its neighbors of the own block are cleared and its neighbor keys
of other blocks are in the output vector. -/
theorem updateEverFreeLoop_fired (I : EverFreeIntegrator) (block_index : BlockIndex) (f : Int)
    (b : TsdfBlock) (n index : Nat) (hi : index < n)
    (hfire : I.removalTriggerFires block_index f b index) :
    ((I.updateEverFreeLoop block_index f b n).1.voxels index).Cleared ∧
      ∀ key ∈ I.search block_index (I.computeVoxelIndexFromLinearIndex index)
          I.voxels_per_side_,
        (key.1 = block_index →
          ((I.updateEverFreeLoop block_index f b n).1.voxels
            (I.computeLinearIndexFromVoxelIndex key.2)).Cleared) ∧
        (key.1 ≠ block_index → key ∈ (I.updateEverFreeLoop block_index f b n).2) := by
  induction n with
  | zero => omega
  | succ n ih =>
    rw [updateEverFreeLoop_succ]
    by_cases hlt : index < n
    · obtain ⟨h1, h2⟩ := ih hlt
      have hru := updateEverFreeStep_removalUpdate I f block_index
        (I.updateEverFreeLoop block_index f b n) n
      refine ⟨TsdfVoxel.voxel_cleared_of_removalUpdate (hru.2 _) h1, fun key hkey => ⟨fun hk => ?_,
        fun hk => ?_⟩⟩
      · exact TsdfVoxel.voxel_cleared_of_removalUpdate (hru.2 _) ((h2 key hkey).1 hk)
      · have hmem := (h2 key hkey).2 hk
        have hacc := updateEverFreeStep_acc I block_index f
          (I.updateEverFreeLoop block_index f b n).1 (I.updateEverFreeLoop block_index f b n).2 n
        have hpair : I.updateEverFreeLoop block_index f b n =
            ((I.updateEverFreeLoop block_index f b n).1,
              (I.updateEverFreeLoop block_index f b n).2) := rfl
        rw [hpair, hacc]
        exact List.mem_append_left _ hmem
    · have hEq : index = n := by omega
      subst hEq
      rw [updateEverFreeStep_loop, if_pos hfire]
      obtain ⟨_, s2, s3⟩ := removeEverFree_spec I
        (I.updateCounterStep f (I.updateEverFreeLoop block_index f b index).1 index) index
        block_index (I.computeVoxelIndexFromLinearIndex index)
      refine ⟨s2, fun key hkey => ⟨fun hk => s3 key hkey hk, fun hk => ?_⟩⟩
      exact List.mem_append_right _ (List.mem_filter.mpr ⟨hkey, by simpa using hk⟩)

/-- Every key in the output vector of the voxel loop names another block and is a neighbor
key of a visited voxel whose trigger fired. -/
theorem updateEverFreeLoop_keys (I : EverFreeIntegrator) (block_index : BlockIndex) (f : Int)
    (b : TsdfBlock) (n : Nat) :
    ∀ key ∈ (I.updateEverFreeLoop block_index f b n).2,
      key.1 ≠ block_index ∧ ∃ index, index < n ∧ I.removalTriggerFires block_index f b index ∧
        key ∈ I.search block_index (I.computeVoxelIndexFromLinearIndex index)
          I.voxels_per_side_ := by
  induction n with
  | zero => intro key hkey; simp [updateEverFreeLoop] at hkey
  | succ n ih =>
    intro key hkey
    rw [updateEverFreeLoop_succ, updateEverFreeStep_loop] at hkey
    have hold : key ∈ (I.updateEverFreeLoop block_index f b n).2 →
        key.1 ≠ block_index ∧ ∃ index, index < n + 1 ∧
          I.removalTriggerFires block_index f b index ∧
          key ∈ I.search block_index (I.computeVoxelIndexFromLinearIndex index)
            I.voxels_per_side_ := by
      intro h
      obtain ⟨h1, i, hi, h2, h3⟩ := ih key h
      exact ⟨h1, i, by omega, h2, h3⟩
    by_cases hfire : I.removalTriggerFires block_index f b n
    · rw [if_pos hfire] at hkey
      rcases List.mem_append.mp hkey with h | h
      · exact hold h
      · obtain ⟨hs, hne⟩ := List.mem_filter.mp h
        exact ⟨by simpa using hne, n, by omega, hfire, hs⟩
    · rw [if_neg hfire] at hkey
      exact hold hkey



/-- C10. Phase 1 workers never write foreign blocks: `blockWiseUpdateEverFree` on an
existing block leaves every other block unchanged, and every key it returns names a block
different from the processed one and is a neighbor key of a voxel of the processed block
whose removal trigger fired. -/
theorem C10_phase1_writes_own_block_only (I : EverFreeIntegrator) (layer : TsdfLayer)
    (block_index : BlockIndex) (frame_counter : Int) (block : TsdfBlock)
    (hb : layer.getBlockPtrByIndex block_index = some block) :
    (∀ k, k ≠ block_index →
      (I.blockWiseUpdateEverFree layer block_index frame_counter []).1.getBlockPtrByIndex k =
        layer.getBlockPtrByIndex k) ∧
    ∀ key ∈ (I.blockWiseUpdateEverFree layer block_index frame_counter []).2.1,
      key.1 ≠ block_index ∧
      ∃ index, index < I.voxels_per_block_ ∧
        I.removalTriggerFires block_index frame_counter block index ∧
        key ∈ I.search block_index (I.computeVoxelIndexFromLinearIndex index)
          I.voxels_per_side_ := by
  simp only [TsdfLayer.getBlockPtrByIndex_eq] at hb
  rw [blockWiseUpdateEverFree_of_some I layer block_index frame_counter [] block hb]
  refine ⟨fun k hk => by simp [hk], fun key hkey => ?_⟩
  simp only [List.nil_append] at hkey
  exact updateEverFreeLoop_keys I block_index frame_counter block I.voxels_per_block_ key hkey

/-- Witness of C10: block (0, 0, 0) of a two-block layer at frame 8, whose voxel at linear
index 14 fires and hands its neighbor in block (1, 0, 0) over. -/
theorem C10_phase1_writes_own_block_only_witness :
    (twoBlockLayer (occupiedBlock [14]) (occupiedBlock [])).getBlockPtrByIndex (0, 0, 0) =
      some (occupiedBlock [14]) ∧
    (sceneIntegrator.blockWiseUpdateEverFree
      (twoBlockLayer (occupiedBlock [14]) (occupiedBlock [])) (0, 0, 0) 8 []).2.1 =
        [((1, 0, 0), (0, 1, 1))] ∧
    ((∀ k, k ≠ (0, 0, 0) →
      (sceneIntegrator.blockWiseUpdateEverFree
        (twoBlockLayer (occupiedBlock [14]) (occupiedBlock [])) (0, 0, 0) 8
          []).1.getBlockPtrByIndex k =
        (twoBlockLayer (occupiedBlock [14]) (occupiedBlock [])).getBlockPtrByIndex k) ∧
    ∀ key ∈ (sceneIntegrator.blockWiseUpdateEverFree
        (twoBlockLayer (occupiedBlock [14]) (occupiedBlock [])) (0, 0, 0) 8 []).2.1,
      key.1 ≠ (0, 0, 0) ∧
      ∃ index, index < sceneIntegrator.voxels_per_block_ ∧
        sceneIntegrator.removalTriggerFires (0, 0, 0) 8 (occupiedBlock [14]) index ∧
        key ∈ sceneIntegrator.search (0, 0, 0)
          (sceneIntegrator.computeVoxelIndexFromLinearIndex index)
          sceneIntegrator.voxels_per_side_) :=
  ⟨rfl, by decide!,
    C10_phase1_writes_own_block_only sceneIntegrator
      (twoBlockLayer (occupiedBlock [14]) (occupiedBlock [])) (0, 0, 0) 8 (occupiedBlock [14]) rfl⟩

/-! ## Phase 1 over the block list, and the merge -/

/-- The collected keys are never dropped by the rest of phase 1. -/
theorem removeOccupied_mem_of_mem (I : EverFreeIntegrator) (f : Int) (indices : List BlockIndex)
    (st : TsdfLayer × List VoxelKey) (key : VoxelKey) (hkey : key ∈ st.2) :
    key ∈ (I.removeOccupied f st indices).2 := by
  unfold removeOccupied
  induction indices generalizing st with
  | nil => exact hkey
  | cons x rest ih =>
    simp only [List.foldl_cons]
    apply ih
    dsimp only
    split
    · exact List.mem_append_left _ hkey
    · exact hkey

theorem removeOccupied_append (I : EverFreeIntegrator) (f : Int) (pre post : List BlockIndex)
    (st : TsdfLayer × List VoxelKey) :
    I.removeOccupied f st (pre ++ post) = I.removeOccupied f (I.removeOccupied f st pre) post := by
  unfold removeOccupied
  rw [List.foldl_append]

theorem removeOccupied_cons (I : EverFreeIntegrator) (f : Int) (x : BlockIndex)
    (rest : List BlockIndex) (st : TsdfLayer × List VoxelKey) :
    I.removeOccupied f st (x :: rest) =
      I.removeOccupied f
        ((I.blockWiseUpdateEverFree st.1 x f []).1,
          if (I.blockWiseUpdateEverFree st.1 x f []).2.2 = true then
            st.2 ++ (I.blockWiseUpdateEverFree st.1 x f []).2.1 else st.2) rest := by
  unfold removeOccupied
  rfl

/-- After the merge step the voxel of every collected key that lies in an existing block
is cleared. -/
theorem removeRemaining_cleared (I : EverFreeIntegrator) (keys : List VoxelKey)
    (layer : TsdfLayer) (key : VoxelKey) (hkey : key ∈ keys) (nb : TsdfBlock)
    (hnb : (I.removeRemaining layer keys).block_map key.1 = some nb) :
    (nb.voxels (I.computeLinearIndexFromVoxelIndex key.2)).Cleared := by
  induction keys generalizing layer with
  | nil => simp at hkey
  | cons x rest ih =>
    have hfold : I.removeRemaining layer (x :: rest) =
        I.removeRemaining (I.removeRemainingStep layer x) rest := rfl
    rw [hfold] at hnb
    rcases List.mem_cons.mp hkey with rfl | hmem
    · have hlater := removeRemaining_removalUpdate I 0 (I.removeRemainingStep layer key) rest
      cases hb : layer.block_map key.1 with
      | none =>
        have h1 : (I.removeRemainingStep layer key).block_map key.1 = none := by
          unfold removeRemainingStep
          simp only [TsdfLayer.getBlockPtrByIndex_eq, hb]
        rw [(hlater.2 key.1).1 h1] at hnb
        exact absurd hnb (by simp)
      | some b =>
        have h1 : (I.removeRemainingStep layer key).block_map key.1 =
            some (b.setVoxelByLinearIndex (I.computeLinearIndexFromVoxelIndex key.2)
              (clearEverFree (I.getVoxelByVoxelIndex b key.2))) := by
          unfold removeRemainingStep
          simp only [TsdfLayer.getBlockPtrByIndex_eq, hb, TsdfLayer.block_map_setBlock, if_true]
        refine TsdfLayer.layer_cleared_of_removalUpdate hlater h1 hnb _ ?_
        simp only [TsdfBlock.voxels_setVoxelByLinearIndex, if_true]
        exact TsdfVoxel.cleared_clearEverFree _
    · exact ih _ hmem hnb

/-- Effect of a firing trigger on the state after phase 1 and the merge step: the voxel and
every neighbor of it in an existing block are cleared. -/
theorem removeOccupiedAndMerge_fired (I : EverFreeIntegrator) (layer : TsdfLayer) (frame_counter : Int)
    (pre post : List BlockIndex) (block_index : BlockIndex) (block : TsdfBlock) (index : Nat)
    (hb : (I.removeOccupied frame_counter (layer, []) pre).1.getBlockPtrByIndex block_index =
      some block)
    (hi : index < I.voxels_per_block_)
    (hfire : I.removalTriggerFires block_index frame_counter block index) :
    (∃ block', (I.removeOccupiedAndMerge layer frame_counter
          (pre ++ block_index :: post)).getBlockPtrByIndex block_index = some block' ∧
        (block'.getVoxelByLinearIndex index).ever_free = false ∧
        (block'.getVoxelByLinearIndex index).dynamic = false) ∧
    ∀ key ∈ I.search block_index (I.computeVoxelIndexFromLinearIndex index) I.voxels_per_side_,
      ∀ nb, (I.removeOccupiedAndMerge layer frame_counter
          (pre ++ block_index :: post)).getBlockPtrByIndex key.1 = some nb →
        (I.getVoxelByVoxelIndex nb key.2).ever_free = false ∧
        (I.getVoxelByVoxelIndex nb key.2).dynamic = false := by
  simp only [TsdfLayer.getBlockPtrByIndex_eq, TsdfBlock.getVoxelByLinearIndex_eq,
    getVoxelByVoxelIndex] at *
  unfold removeOccupiedAndMerge
  dsimp only
  rw [removeOccupied_append, removeOccupied_cons]
  generalize I.removeOccupied frame_counter (layer, []) pre = st1 at hb ⊢
  rw [blockWiseUpdateEverFree_of_some I st1.1 block_index frame_counter [] block hb]
  simp only [List.nil_append]
  obtain ⟨hself, hnbrs⟩ := updateEverFreeLoop_fired I block_index frame_counter block
    I.voxels_per_block_ index hi hfire
  generalize hloop : I.updateEverFreeLoop block_index frame_counter block I.voxels_per_block_ = r
    at hself hnbrs ⊢
  -- the state after the block pass
  generalize hst2 : ((st1.1.setBlock block_index r.1,
      if (!r.2.isEmpty) = true then st1.2 ++ r.2 else st1.2) : TsdfLayer × List VoxelKey) = st2
  have hst2_block : st2.1.block_map block_index = some r.1 := by
    rw [← hst2]; simp
  have hst2_keys : ∀ key ∈ r.2, key ∈ st2.2 := by
    intro key hkey
    rw [← hst2]
    dsimp only
    have hne : r.2.isEmpty = false := by
      cases hr : r.2 with
      | nil => rw [hr] at hkey; simp at hkey
      | cons _ _ => rfl
    simp only [hne, Bool.not_false, if_true]
    exact List.mem_append_right _ hkey
  have hlater1 := removeOccupied_removalUpdate I frame_counter post st2
  have hlater2 := removeRemaining_removalUpdate I frame_counter
    (I.removeOccupied frame_counter st2 post).1 (I.removeOccupied frame_counter st2 post).2
  have hlater := TsdfLayer.layer_removalUpdate_trans _ _ hlater1 hlater2
  constructor
  · obtain ⟨b', hb', _⟩ := (hlater.2 block_index).2 r.1 hst2_block
    have hc := TsdfLayer.layer_cleared_of_removalUpdate hlater hst2_block hb' index hself
    exact ⟨b', hb', hc.1, hc.2⟩
  · intro key hkey nb hnb
    by_cases hk : key.1 = block_index
    · rw [hk] at hnb
      exact TsdfLayer.layer_cleared_of_removalUpdate hlater hst2_block hnb _ ((hnbrs key hkey).1 hk)
    · have hmem := removeOccupied_mem_of_mem I frame_counter post st2 key
        (hst2_keys key ((hnbrs key hkey).2 hk))
      exact removeRemaining_cleared I _ _ key hmem nb hnb



/-- C2. Removal cascade: when the removal trigger fires for the voxel at linear index
`index` of block `block_index` during phase 1 (the block list is `pre`, then the block,
then `post`; `block` is the block as the pass finds it), then after phase 1 and the merge
step the voxel and every neighbor of it that lies in an existing block, of the own block
or of another one, has `ever_free = false` and `dynamic = false`. -/
theorem C2_removal_cascade (I : EverFreeIntegrator) (layer : TsdfLayer) (frame_counter : Int)
    (pre post : List BlockIndex) (block_index : BlockIndex) (block : TsdfBlock) (index : Nat)
    (hb : (I.removeOccupied frame_counter (layer, []) pre).1.getBlockPtrByIndex block_index =
      some block)
    (hi : index < I.voxels_per_block_)
    (hfire : I.removalTriggerFires block_index frame_counter block index) :
    (∃ block', (I.removeOccupiedAndMerge layer frame_counter
          (pre ++ block_index :: post)).getBlockPtrByIndex block_index = some block' ∧
        (block'.getVoxelByLinearIndex index).ever_free = false ∧
        (block'.getVoxelByLinearIndex index).dynamic = false) ∧
    ∀ key ∈ I.search block_index (I.computeVoxelIndexFromLinearIndex index) I.voxels_per_side_,
      ∀ nb, (I.removeOccupiedAndMerge layer frame_counter
          (pre ++ block_index :: post)).getBlockPtrByIndex key.1 = some nb →
        (I.getVoxelByVoxelIndex nb key.2).ever_free = false ∧
        (I.getVoxelByVoxelIndex nb key.2).dynamic = false :=
  removeOccupiedAndMerge_fired I layer frame_counter pre post block_index block index hb hi hfire

/-- Witness of C2: in a two-block layer at frame 8 the trigger fires for the voxel at
linear index 14 of block (0, 0, 0), which has a neighbor in block (1, 0, 0). -/
theorem C2_removal_cascade_witness :
    (sceneIntegrator.removeOccupied 8
      (twoBlockLayer (occupiedBlock [14]) (occupiedBlock []), []) []).1.getBlockPtrByIndex
        (0, 0, 0) = some (occupiedBlock [14]) ∧
    14 < sceneIntegrator.voxels_per_block_ ∧
    sceneIntegrator.removalTriggerFires (0, 0, 0) 8 (occupiedBlock [14]) 14 ∧
    ((∃ block', (sceneIntegrator.removeOccupiedAndMerge
          (twoBlockLayer (occupiedBlock [14]) (occupiedBlock [])) 8
          ([] ++ (0, 0, 0) :: [(1, 0, 0)])).getBlockPtrByIndex (0, 0, 0) = some block' ∧
        (block'.getVoxelByLinearIndex 14).ever_free = false ∧
        (block'.getVoxelByLinearIndex 14).dynamic = false) ∧
    ∀ key ∈ sceneIntegrator.search (0, 0, 0)
        (sceneIntegrator.computeVoxelIndexFromLinearIndex 14) sceneIntegrator.voxels_per_side_,
      ∀ nb, (sceneIntegrator.removeOccupiedAndMerge
          (twoBlockLayer (occupiedBlock [14]) (occupiedBlock [])) 8
          ([] ++ (0, 0, 0) :: [(1, 0, 0)])).getBlockPtrByIndex key.1 = some nb →
        (sceneIntegrator.getVoxelByVoxelIndex nb key.2).ever_free = false ∧
        (sceneIntegrator.getVoxelByVoxelIndex nb key.2).dynamic = false) :=
  ⟨rfl, by decide, by decide!,
    C2_removal_cascade sceneIntegrator (twoBlockLayer (occupiedBlock [14]) (occupiedBlock [])) 8
      [] [(1, 0, 0)] (0, 0, 0) (occupiedBlock [14]) 14 rfl (by decide) (by decide!)⟩

/-- Counterexample to C3 as stated, in two scenes with a single block, 6-connectivity,
burn-in 5, counter to reset 3 and frame 8.  First, with one worker: the voxels at linear
indices 12 and 13 are both ever-free, hit at frame 8 and reach the counter 3; the loop
visits 12 first and its removal clears 13, so the trigger does not fire for 13, and the
neighbor 14 of 13 is still ever-free after `updateEverFreeVoxels`.  Second, with a worker
count of zero: the loops of lines 107 and 146 start no worker, and the voxel 13, alone in
meeting the conditions of the claim, is itself still ever-free after
`updateEverFreeVoxels`. -/
theorem C3_removal_visible_counterexample :
    (sceneIntegrator.config_.burn_in_period ≥ 1 ∧
    (∀ key ∈ sceneIntegrator.search (0, 0, 0)
        (sceneIntegrator.computeVoxelIndexFromLinearIndex 13) sceneIntegrator.voxels_per_side_,
      ∃ key' ∈ sceneIntegrator.search key.1
          (sceneIntegrator.computeVoxelIndexFromLinearIndex
            (sceneIntegrator.computeLinearIndexFromVoxelIndex key.2))
          sceneIntegrator.voxels_per_side_,
        key'.1 = (0, 0, 0) ∧ sceneIntegrator.computeLinearIndexFromVoxelIndex key'.2 = 13) ∧
    (singleBlockLayer (occupiedBlock [12, 13])).getBlockPtrByIndex (0, 0, 0) =
      some (occupiedBlock [12, 13]) ∧
    ((occupiedBlock [12, 13]).getVoxelByLinearIndex 13).ever_free = true ∧
    (0, 0, 0) ∈ (singleBlockLayer (occupiedBlock [12, 13])).getAllUpdatedBlocks ∧
    ((occupiedBlock [12, 13]).getVoxelByLinearIndex 13).last_lidar_occupied = 8 ∧
    (sceneIntegrator.updateOccupancyCounter
      ((occupiedBlock [12, 13]).getVoxelByLinearIndex 13) 8).occ_counter ≥
        sceneIntegrator.config_.counter_to_reset ∧
    ∃ key ∈ sceneIntegrator.search (0, 0, 0)
        (sceneIntegrator.computeVoxelIndexFromLinearIndex 13) sceneIntegrator.voxels_per_side_,
      ∃ nb, (sceneIntegrator.updateEverFreeVoxels (singleBlockLayer (occupiedBlock [12, 13]))
          8).getBlockPtrByIndex key.1 = some nb ∧
        (sceneIntegrator.getVoxelByVoxelIndex nb key.2).ever_free = true) ∧
    (idleIntegrator.config_.num_threads = 0 ∧
    idleIntegrator.config_.burn_in_period ≥ 1 ∧
    (∀ key ∈ idleIntegrator.search (0, 0, 0)
        (idleIntegrator.computeVoxelIndexFromLinearIndex 13) idleIntegrator.voxels_per_side_,
      ∃ key' ∈ idleIntegrator.search key.1
          (idleIntegrator.computeVoxelIndexFromLinearIndex
            (idleIntegrator.computeLinearIndexFromVoxelIndex key.2))
          idleIntegrator.voxels_per_side_,
        key'.1 = (0, 0, 0) ∧ idleIntegrator.computeLinearIndexFromVoxelIndex key'.2 = 13) ∧
    (singleBlockLayer (occupiedBlock [13])).getBlockPtrByIndex (0, 0, 0) =
      some (occupiedBlock [13]) ∧
    ((occupiedBlock [13]).getVoxelByLinearIndex 13).ever_free = true ∧
    (0, 0, 0) ∈ (singleBlockLayer (occupiedBlock [13])).getAllUpdatedBlocks ∧
    ((occupiedBlock [13]).getVoxelByLinearIndex 13).last_lidar_occupied = 8 ∧
    (idleIntegrator.updateOccupancyCounter
      ((occupiedBlock [13]).getVoxelByLinearIndex 13) 8).occ_counter ≥
        idleIntegrator.config_.counter_to_reset ∧
    ∃ block', (idleIntegrator.updateEverFreeVoxels (singleBlockLayer (occupiedBlock [13]))
        8).getBlockPtrByIndex (0, 0, 0) = some block' ∧
      (block'.getVoxelByLinearIndex 13).ever_free = true) := by
  refine ⟨⟨by decide, by decide, rfl, rfl, by decide, rfl, by decide,
    ((0, 0, 0), (2, 1, 1)), by decide, ?_⟩,
    rfl, by decide, by decide, rfl, rfl, by decide, rfl, by decide, ?_⟩
  · have h : ((sceneIntegrator.updateEverFreeVoxels (singleBlockLayer (occupiedBlock [12, 13]))
        8).getBlockPtrByIndex (0, 0, 0)).map
          (fun b => (sceneIntegrator.getVoxelByVoxelIndex b (2, 1, 1)).ever_free) = some true := by
      decide!
    obtain ⟨b, hb, hv⟩ := Option.map_eq_some'.mp h
    exact ⟨b, hb, hv⟩
  · have h : ((idleIntegrator.updateEverFreeVoxels (singleBlockLayer (occupiedBlock [13]))
        8).getBlockPtrByIndex (0, 0, 0)).map
          (fun b => (b.getVoxelByLinearIndex 13).ever_free) = some true := by
      decide!
    obtain ⟨b, hb, hv⟩ := Option.map_eq_some'.mp h
    exact ⟨b, hb, hv⟩



/-! ## Removal stays visible through the labeling pass -/

/-- The counter branch applies to a voxel hit at the current frame and records the frame. -/
theorem updateCounterStep_last_occupied (I : EverFreeIntegrator) (f : Int) (b : TsdfBlock)
    (index : Nat) (hlidar : (b.voxels index).last_lidar_occupied = f) :
    ((I.updateCounterStep f b index).voxels index).last_occupied = f := by
  unfold updateCounterStep
  simp only [TsdfBlock.getVoxelByLinearIndex_eq, hlidar, or_true, if_true,
    TsdfBlock.voxels_setVoxelByLinearIndex]
  split
  · simp [updateOccupancyCounter]
  · simp [updateOccupancyCounter]

/-- The block after an iteration of the voxel loop is a later state of the block after the
counter update of that iteration. -/
theorem updateEverFreeStep_later_than_counter (I : EverFreeIntegrator) (f : Int)
    (block_index : BlockIndex) (st : TsdfBlock × List VoxelKey) (index : Nat) :
    TsdfBlock.RemovalUpdate I.config_ f (I.updateCounterStep f st.1 index)
      (I.updateEverFreeStep block_index f st index).1 := by
  unfold updateEverFreeStep
  dsimp only
  split
  · exact removeEverFree_removalUpdate I f _ _ _ _
  · exact TsdfBlock.block_removalUpdate_refl _ _ _

theorem updateEverFreeLoop_removalUpdate (I : EverFreeIntegrator) (f : Int)
    (block_index : BlockIndex) (b : TsdfBlock) (n : Nat) :
    TsdfBlock.RemovalUpdate I.config_ f b (I.updateEverFreeLoop block_index f b n).1 :=
  foldl_updateEverFreeStep_removalUpdate I f block_index (List.range n) (b, [])

/-- A visited voxel that was hit at the current frame has `last_occupied` equal to the
frame after the voxel loop. -/
theorem updateEverFreeLoop_last_occupied (I : EverFreeIntegrator) (block_index : BlockIndex)
    (f : Int) (b : TsdfBlock) (n index : Nat) (hi : index < n)
    (hlidar : (b.voxels index).last_lidar_occupied = f) :
    ((I.updateEverFreeLoop block_index f b n).1.voxels index).last_occupied = f := by
  induction n with
  | zero => omega
  | succ n ih =>
    rw [updateEverFreeLoop_succ]
    by_cases hlt : index < n
    · have hru := updateEverFreeStep_removalUpdate I f block_index
        (I.updateEverFreeLoop block_index f b n) n
      rcases (hru.2 index).2.2.2.2.2.1 with h | h
      · rw [h]; exact ih hlt
      · exact h
    · have hEq : index = n := by omega
      subst hEq
      have hl : ((I.updateEverFreeLoop block_index f b index).1.voxels index).last_lidar_occupied
          = f := by
        rw [((updateEverFreeLoop_removalUpdate I f block_index b index).2 index).2.2.1]
        exact hlidar
      have hc := updateCounterStep_last_occupied I f _ index hl
      have hru := updateEverFreeStep_later_than_counter I f block_index
        (I.updateEverFreeLoop block_index f b index) index
      rcases (hru.2 index).2.2.2.2.2.1 with h | h
      · rw [h]; exact hc
      · exact h

/-- The block reached by phase 1 and the merge is a later state of the block as its own
pass leaves it. -/
theorem removeOccupiedAndMerge_later_than_pass (I : EverFreeIntegrator) (layer : TsdfLayer)
    (f : Int) (pre post : List BlockIndex) (block_index : BlockIndex) (block : TsdfBlock)
    (hb : (I.removeOccupied f (layer, []) pre).1.block_map block_index = some block) :
    ∃ b', (I.removeOccupiedAndMerge layer f (pre ++ block_index :: post)).block_map block_index
        = some b' ∧
      TsdfBlock.RemovalUpdate I.config_ f
        (I.updateEverFreeLoop block_index f block I.voxels_per_block_).1 b' := by
  unfold removeOccupiedAndMerge
  dsimp only
  rw [removeOccupied_append, removeOccupied_cons]
  generalize I.removeOccupied f (layer, []) pre = st1 at hb ⊢
  rw [blockWiseUpdateEverFree_of_some I st1.1 block_index f [] block hb]
  simp only [List.nil_append]
  generalize I.updateEverFreeLoop block_index f block I.voxels_per_block_ = r
  generalize hst2 : ((st1.1.setBlock block_index r.1,
      if (!r.2.isEmpty) = true then st1.2 ++ r.2 else st1.2) : TsdfLayer × List VoxelKey) = st2
  have hst2_block : st2.1.block_map block_index = some r.1 := by
    rw [← hst2]; simp
  have hlater := TsdfLayer.layer_removalUpdate_trans _ _
    (removeOccupied_removalUpdate I f post st2)
    (removeRemaining_removalUpdate I f (I.removeOccupied f st2 post).1
      (I.removeOccupied f st2 post).2)
  exact (hlater.2 block_index).2 r.1 hst2_block

/-- A voxel with a neighbor key whose voxel was occupied within the burn-in window is not
labeled. -/
theorem labelCondition_false_of_recent_neighbor (I : EverFreeIntegrator) (layer : TsdfLayer)
    (b : TsdfBlock) (block_index : BlockIndex) (f : Int) (index : Nat)
    (hb : layer.block_map block_index = some b) (key : VoxelKey)
    (hkey : key ∈ I.search block_index (I.computeVoxelIndexFromLinearIndex index)
      I.voxels_per_side_)
    (nb : TsdfBlock) (hnb : layer.block_map key.1 = some nb)
    (hrecent : (nb.voxels (I.computeLinearIndexFromVoxelIndex key.2)).last_occupied >
      f - I.config_.burn_in_period) :
    ¬ labelCondition I layer b block_index f index = true := by
  rw [labelCondition_iff I layer b block_index f index hb]
  rintro ⟨_, _, _, hall⟩
  obtain ⟨nb', hnb', _, hle⟩ := hall key hkey
  rw [hnb] at hnb'
  cases hnb'
  simp only [getVoxelByVoxelIndex, TsdfBlock.getVoxelByLinearIndex_eq] at hle
  omega

/-- Invariant of the labeling pass used for C3: the voxel `index` of `block_index` is
cleared with `last_occupied = f`, and all its neighbors in existing blocks are cleared. -/
theorem blockWiseMakeEverFree_keeps_removed (I : EverFreeIntegrator) (f : Int)
    (block_index : BlockIndex) (index : Nat) (x : BlockIndex)
    (hburn : I.config_.burn_in_period ≥ 1)
    (hsym : ∀ key ∈ I.search block_index (I.computeVoxelIndexFromLinearIndex index)
        I.voxels_per_side_,
      ∃ key' ∈ I.search key.1
          (I.computeVoxelIndexFromLinearIndex (I.computeLinearIndexFromVoxelIndex key.2))
          I.voxels_per_side_,
        key'.1 = block_index ∧ I.computeLinearIndexFromVoxelIndex key'.2 = index)
    (layer : TsdfLayer)
    (h : (∃ b, layer.block_map block_index = some b ∧ (b.voxels index).Cleared ∧
        (b.voxels index).last_occupied = f) ∧
      ∀ key ∈ I.search block_index (I.computeVoxelIndexFromLinearIndex index)
          I.voxels_per_side_,
        ∀ nb, layer.block_map key.1 = some nb →
          (nb.voxels (I.computeLinearIndexFromVoxelIndex key.2)).Cleared) :
    (∃ b, (I.blockWiseMakeEverFree layer x f).block_map block_index = some b ∧
        (b.voxels index).Cleared ∧ (b.voxels index).last_occupied = f) ∧
      ∀ key ∈ I.search block_index (I.computeVoxelIndexFromLinearIndex index)
          I.voxels_per_side_,
        ∀ nb, (I.blockWiseMakeEverFree layer x f).block_map key.1 = some nb →
          (nb.voxels (I.computeLinearIndexFromVoxelIndex key.2)).Cleared := by
  obtain ⟨⟨b, hb, hclr, hlo⟩, hnbrs⟩ := h
  cases hx : layer.block_map x with
  | none =>
    rw [blockWiseMakeEverFree_of_none I layer x f hx]
    exact ⟨⟨b, hb, hclr, hlo⟩, hnbrs⟩
  | some bx =>
    rw [blockWiseMakeEverFree_of_some I layer x f bx hx]
    constructor
    · by_cases hk : block_index = x
      · subst hk
        rw [hb] at hx
        cases hx
        simp only [TsdfLayer.block_map_setBlock, if_true, Option.some.injEq, exists_eq_left']
        have hc : ¬ labelCondition I layer b block_index f index = true := by
          rw [labelCondition_iff I layer b block_index f index hb]
          rintro ⟨_, _, hle, _⟩
          omega
        rw [if_neg (fun h => hc h.2)]
        exact ⟨hclr, hlo⟩
      · exact ⟨b, by simpa [hk] using hb, hclr, hlo⟩
    · intro key hkey nb hnb
      by_cases hk : key.1 = x
      · simp only [TsdfLayer.block_map_setBlock, hk, if_true, Option.some.injEq] at hnb
        subst hnb
        dsimp only
        obtain ⟨key', hkey', hk1, hk2⟩ := hsym key hkey
        rw [hk] at hkey'
        have hc : ¬ labelCondition I layer bx x f (I.computeLinearIndexFromVoxelIndex key.2)
            = true := by
          refine labelCondition_false_of_recent_neighbor I layer bx x f _ hx key' hkey' b
            (by rw [hk1]; exact hb) ?_
          rw [hk2, hlo]
          omega
        rw [if_neg (fun h => hc h.2)]
        exact hnbrs key hkey bx (by rw [hk]; exact hx)
      · exact hnbrs key hkey nb (by simpa [hk] using hnb)

/-- A removal whose trigger fires stays visible through the labeling pass: with a worker,
`burn_in_period ≥ 1` and a neighborhood in which the voxel V is a neighbor of each of its
neighbors, if V was hit at the current frame and the removal trigger fires for V when
the voxel loop of phase 1 reaches it, then after `updateEverFreeVoxels` V and every
neighbor of V lying in an existing block have `ever_free = false` and
`dynamic = false`. -/
theorem updateEverFreeVoxels_fired_visible (I : EverFreeIntegrator) (layer : TsdfLayer)
    (frame_counter : Int) (pre post : List BlockIndex) (block_index : BlockIndex)
    (block : TsdfBlock) (index : Nat)
    (hworkers : I.config_.num_threads ≥ 1)
    (hburn : I.config_.burn_in_period ≥ 1)
    (hsym : ∀ key ∈ I.search block_index (I.computeVoxelIndexFromLinearIndex index)
        I.voxels_per_side_,
      ∃ key' ∈ I.search key.1
          (I.computeVoxelIndexFromLinearIndex (I.computeLinearIndexFromVoxelIndex key.2))
          I.voxels_per_side_,
        key'.1 = block_index ∧ I.computeLinearIndexFromVoxelIndex key'.2 = index)
    (hupd : layer.getAllUpdatedBlocks = pre ++ block_index :: post)
    (hb : (I.removeOccupied frame_counter (layer, []) pre).1.getBlockPtrByIndex block_index =
      some block)
    (hi : index < I.voxels_per_block_)
    (hlidar : (block.getVoxelByLinearIndex index).last_lidar_occupied = frame_counter)
    (hfire : I.removalTriggerFires block_index frame_counter block index) :
    (∃ block', (I.updateEverFreeVoxels layer frame_counter).getBlockPtrByIndex block_index =
        some block' ∧
        (block'.getVoxelByLinearIndex index).ever_free = false ∧
        (block'.getVoxelByLinearIndex index).dynamic = false) ∧
    ∀ key ∈ I.search block_index (I.computeVoxelIndexFromLinearIndex index) I.voxels_per_side_,
      ∀ nb, (I.updateEverFreeVoxels layer frame_counter).getBlockPtrByIndex key.1 = some nb →
        (I.getVoxelByVoxelIndex nb key.2).ever_free = false ∧
        (I.getVoxelByVoxelIndex nb key.2).dynamic = false := by
  have hC2 := removeOccupiedAndMerge_fired I layer frame_counter pre post block_index block index hb hi
    hfire
  simp only [TsdfLayer.getBlockPtrByIndex_eq, TsdfBlock.getVoxelByLinearIndex_eq,
    getVoxelByVoxelIndex] at *
  obtain ⟨b', hb', hlater⟩ := removeOccupiedAndMerge_later_than_pass I layer frame_counter pre
    post block_index block hb
  have hlo : (b'.voxels index).last_occupied = frame_counter := by
    have h0 := updateEverFreeLoop_last_occupied I block_index frame_counter block
      I.voxels_per_block_ index hi hlidar
    rcases (hlater.2 index).2.2.2.2.2.1 with h | h
    · rw [h]; exact h0
    · exact h
  have hinv0 : (∃ b, (I.removeOccupiedAndMerge layer frame_counter
        (pre ++ block_index :: post)).block_map block_index = some b ∧
        (b.voxels index).Cleared ∧ (b.voxels index).last_occupied = frame_counter) ∧
      ∀ key ∈ I.search block_index (I.computeVoxelIndexFromLinearIndex index)
          I.voxels_per_side_,
        ∀ nb, (I.removeOccupiedAndMerge layer frame_counter
            (pre ++ block_index :: post)).block_map key.1 = some nb →
          (nb.voxels (I.computeLinearIndexFromVoxelIndex key.2)).Cleared := by
    obtain ⟨⟨c, hc, hc1, hc2⟩, hn⟩ := hC2
    rw [hb'] at hc
    cases hc
    exact ⟨⟨b', hb', ⟨hc1, hc2⟩, hlo⟩, fun key hkey nb hnb => hn key hkey nb hnb⟩
  have hfinal : ∀ (indices : List BlockIndex) (l : TsdfLayer),
      ((∃ b, l.block_map block_index = some b ∧
        (b.voxels index).Cleared ∧ (b.voxels index).last_occupied = frame_counter) ∧
      ∀ key ∈ I.search block_index (I.computeVoxelIndexFromLinearIndex index)
          I.voxels_per_side_,
        ∀ nb, l.block_map key.1 = some nb →
          (nb.voxels (I.computeLinearIndexFromVoxelIndex key.2)).Cleared) →
      ((∃ b, (I.labelFree frame_counter l indices).block_map block_index = some b ∧
        (b.voxels index).Cleared ∧ (b.voxels index).last_occupied = frame_counter) ∧
      ∀ key ∈ I.search block_index (I.computeVoxelIndexFromLinearIndex index)
          I.voxels_per_side_,
        ∀ nb, (I.labelFree frame_counter l indices).block_map key.1 = some nb →
          (nb.voxels (I.computeLinearIndexFromVoxelIndex key.2)).Cleared) := by
    intro indices
    unfold labelFree
    induction indices with
    | nil => intro l h; exact h
    | cons x rest ih =>
      intro l h
      exact ih _ (blockWiseMakeEverFree_keeps_removed I frame_counter block_index index x hburn
        hsym l h)
  unfold updateEverFreeVoxels updateEverFreeVoxelsOn
  rw [takenIndices_of_workers I _ hworkers, hupd]
  obtain ⟨⟨c, hc, hclr, _⟩, hn⟩ := hfinal (pre ++ block_index :: post) _ hinv0
  exact ⟨⟨c, hc, hclr.1, hclr.2⟩, fun key hkey nb hnb => hn key hkey nb hnb⟩



/-! ## Labeling as soon as the burn-in has elapsed -/

theorem TsdfVoxel.labelUpdate_fields {v v' : TsdfVoxel} (h : TsdfVoxel.LabelUpdate v v') :
    v'.weight = v.weight ∧ v'.last_occupied = v.last_occupied ∧
      (v.ever_free = true → v'.ever_free = true) := by
  rcases h with rfl | ⟨_, rfl⟩
  · exact ⟨rfl, rfl, fun h => h⟩
  · exact ⟨rfl, rfl, fun _ => rfl⟩

/-- The readiness of a voxel and of its neighbors for labeling (observed, outside the
burn-in window, every neighbor key in an existing block) is kept by
`blockWiseMakeEverFree` on any block, and so is a label already given. -/
theorem blockWiseMakeEverFree_keeps_ready (I : EverFreeIntegrator) (f : Int)
    (block_index : BlockIndex) (index : Nat) (x : BlockIndex) (layer : TsdfLayer)
    (h : (∃ b, layer.block_map block_index = some b ∧ (b.voxels index).weight > 1e-6 ∧
        (b.voxels index).last_occupied ≤ f - I.config_.burn_in_period) ∧
      ∀ key ∈ I.search block_index (I.computeVoxelIndexFromLinearIndex index)
          I.voxels_per_side_,
        ∃ nb, layer.block_map key.1 = some nb ∧
          (I.getVoxelByVoxelIndex nb key.2).weight ≥ 1e-6 ∧
          (I.getVoxelByVoxelIndex nb key.2).last_occupied ≤ f - I.config_.burn_in_period) :
    ((∃ b, (I.blockWiseMakeEverFree layer x f).block_map block_index = some b ∧
        (b.voxels index).weight > 1e-6 ∧
        (b.voxels index).last_occupied ≤ f - I.config_.burn_in_period) ∧
      ∀ key ∈ I.search block_index (I.computeVoxelIndexFromLinearIndex index)
          I.voxels_per_side_,
        ∃ nb, (I.blockWiseMakeEverFree layer x f).block_map key.1 = some nb ∧
          (I.getVoxelByVoxelIndex nb key.2).weight ≥ 1e-6 ∧
          (I.getVoxelByVoxelIndex nb key.2).last_occupied ≤ f - I.config_.burn_in_period) ∧
    ((∃ b, layer.block_map block_index = some b ∧ (b.voxels index).ever_free = true) →
      ∃ b, (I.blockWiseMakeEverFree layer x f).block_map block_index = some b ∧
        (b.voxels index).ever_free = true) := by
  have hlu := blockWiseMakeEverFree_labelUpdate I layer x f
  obtain ⟨⟨b, hb, hw, hl⟩, hn⟩ := h
  refine ⟨⟨?_, fun key hkey => ?_⟩, ?_⟩
  · obtain ⟨b', hb', hr⟩ := (hlu.2 block_index).2 b hb
    obtain ⟨e1, e2, _⟩ := TsdfVoxel.labelUpdate_fields (hr.2 index)
    exact ⟨b', hb', by rw [e1]; exact hw, by rw [e2]; exact hl⟩
  · obtain ⟨nb, hnb, hw', hl'⟩ := hn key hkey
    obtain ⟨nb', hnb', hr⟩ := (hlu.2 key.1).2 nb hnb
    obtain ⟨e1, e2, _⟩ := TsdfVoxel.labelUpdate_fields
      (hr.2 (I.computeLinearIndexFromVoxelIndex key.2))
    refine ⟨nb', hnb', ?_, ?_⟩
    · simp only [getVoxelByVoxelIndex, TsdfBlock.getVoxelByLinearIndex_eq] at hw' ⊢
      rw [e1]; exact hw'
    · simp only [getVoxelByVoxelIndex, TsdfBlock.getVoxelByLinearIndex_eq] at hl' ⊢
      rw [e2]; exact hl'
  · rintro ⟨c, hc, hef⟩
    obtain ⟨c', hc', hr⟩ := (hlu.2 block_index).2 c hc
    exact ⟨c', hc', (TsdfVoxel.labelUpdate_fields (hr.2 index)).2.2 hef⟩

/-- A ready voxel is ever-free after `blockWiseMakeEverFree` on its own block. -/
theorem blockWiseMakeEverFree_labels_ready (I : EverFreeIntegrator) (f : Int)
    (block_index : BlockIndex) (index : Nat) (layer : TsdfLayer)
    (hi : index < I.voxels_per_block_)
    (h : (∃ b, layer.block_map block_index = some b ∧ (b.voxels index).weight > 1e-6 ∧
        (b.voxels index).last_occupied ≤ f - I.config_.burn_in_period) ∧
      ∀ key ∈ I.search block_index (I.computeVoxelIndexFromLinearIndex index)
          I.voxels_per_side_,
        ∃ nb, layer.block_map key.1 = some nb ∧
          (I.getVoxelByVoxelIndex nb key.2).weight ≥ 1e-6 ∧
          (I.getVoxelByVoxelIndex nb key.2).last_occupied ≤ f - I.config_.burn_in_period) :
    ∃ b, (I.blockWiseMakeEverFree layer block_index f).block_map block_index = some b ∧
      (b.voxels index).ever_free = true := by
  obtain ⟨⟨b, hb, hw, hl⟩, hn⟩ := h
  rw [blockWiseMakeEverFree_of_some I layer block_index f b hb]
  simp only [TsdfLayer.block_map_setBlock, if_true, Option.some.injEq, exists_eq_left']
  by_cases hc : labelCondition I layer b block_index f index = true
  · rw [if_pos ⟨hi, hc⟩]
  · rw [if_neg (fun h => hc h.2)]
    rw [labelCondition_iff I layer b block_index f index hb] at hc
    by_contra hne
    exact hc ⟨by simpa using hne, hw, hl, hn⟩

theorem labelFree_labels_ready (I : EverFreeIntegrator) (f : Int)
    (block_index : BlockIndex) (index : Nat) (hi : index < I.voxels_per_block_)
    (indices : List BlockIndex) (layer : TsdfLayer)
    (h : (∃ b, layer.block_map block_index = some b ∧ (b.voxels index).weight > 1e-6 ∧
        (b.voxels index).last_occupied ≤ f - I.config_.burn_in_period) ∧
      ∀ key ∈ I.search block_index (I.computeVoxelIndexFromLinearIndex index)
          I.voxels_per_side_,
        ∃ nb, layer.block_map key.1 = some nb ∧
          (I.getVoxelByVoxelIndex nb key.2).weight ≥ 1e-6 ∧
          (I.getVoxelByVoxelIndex nb key.2).last_occupied ≤ f - I.config_.burn_in_period)
    (hor : block_index ∈ indices ∨
      ∃ b, layer.block_map block_index = some b ∧ (b.voxels index).ever_free = true) :
    ∃ b, (I.labelFree f layer indices).block_map block_index = some b ∧
      (b.voxels index).ever_free = true := by
  unfold labelFree
  induction indices generalizing layer with
  | nil =>
    rcases hor with hmem | hdone
    · simp at hmem
    · exact hdone
  | cons x rest ih =>
    simp only [List.foldl_cons]
    obtain ⟨hready, hkeep⟩ := blockWiseMakeEverFree_keeps_ready I f block_index index x layer h
    refine ih _ hready ?_
    rcases hor with hmem | hdone
    · rcases List.mem_cons.mp hmem with rfl | hrest
      · exact Or.inr (blockWiseMakeEverFree_labels_ready I f block_index index layer hi h)
      · exact Or.inl hrest
    · exact Or.inr (hkeep hdone)

/-- Counterexample to C7 as stated: with a worker count of zero the loops of lines 107 and
146 start no worker, so no block is labeled: the interior voxel (linear index 13) of the
scene meets every condition of the claim at frame 5 (its block is in the updated set, it
and its neighbors are free and observed, the burn-in has elapsed) and is not ever-free
after `updateEverFreeVoxels`. -/
theorem C7_labeled_counterexample :
    idleIntegrator.config_.num_threads = 0 ∧
    (0, 0, 0) ∈ sceneLayer.getAllUpdatedBlocks ∧
    sceneLayer.getBlockPtrByIndex (0, 0, 0) = some freeBlock ∧
    13 < idleIntegrator.voxels_per_block_ ∧
    ((freeBlock.getVoxelByLinearIndex 13).distance ≥
        idleIntegrator.config_.tsdf_occupancy_threshold ∧
      (freeBlock.getVoxelByLinearIndex 13).last_lidar_occupied ≠ 5 ∧
      (freeBlock.getVoxelByLinearIndex 13).weight > 1e-6 ∧
      (freeBlock.getVoxelByLinearIndex 13).last_occupied ≤
        5 - idleIntegrator.config_.burn_in_period) ∧
    (∀ key ∈ idleIntegrator.search (0, 0, 0)
        (idleIntegrator.computeVoxelIndexFromLinearIndex 13) idleIntegrator.voxels_per_side_,
      ∃ nb, sceneLayer.getBlockPtrByIndex key.1 = some nb ∧
        (idleIntegrator.getVoxelByVoxelIndex nb key.2).distance ≥
          idleIntegrator.config_.tsdf_occupancy_threshold ∧
        (idleIntegrator.getVoxelByVoxelIndex nb key.2).last_lidar_occupied ≠ 5 ∧
        (idleIntegrator.getVoxelByVoxelIndex nb key.2).weight > 1e-6 ∧
        (idleIntegrator.getVoxelByVoxelIndex nb key.2).last_occupied ≤
          5 - idleIntegrator.config_.burn_in_period) ∧
    ∃ block', (idleIntegrator.updateEverFreeVoxels sceneLayer 5).getBlockPtrByIndex (0, 0, 0) =
        some block' ∧ (block'.getVoxelByLinearIndex 13).ever_free = false := by
  have hfree : freeVoxel.distance ≥ idleIntegrator.config_.tsdf_occupancy_threshold ∧
      freeVoxel.last_lidar_occupied ≠ 5 ∧ freeVoxel.weight > 1e-6 ∧
      freeVoxel.last_occupied ≤ 5 - idleIntegrator.config_.burn_in_period := by decide!
  have hkeys : ∀ key ∈ idleIntegrator.search (0, 0, 0)
      (idleIntegrator.computeVoxelIndexFromLinearIndex 13) idleIntegrator.voxels_per_side_,
      key.1 = (0, 0, 0) := by decide
  have hlast : ((idleIntegrator.updateEverFreeVoxels sceneLayer 5).getBlockPtrByIndex
      (0, 0, 0)).map (fun b => (b.getVoxelByLinearIndex 13).ever_free) = some false := by
    decide!
  obtain ⟨b, hb, hv⟩ := Option.map_eq_some'.mp hlast
  exact ⟨rfl, by decide, rfl, by decide, hfree,
    fun key hkey => ⟨freeBlock, by rw [hkeys key hkey]; rfl, hfree⟩, b, hb, hv⟩

/-- C7 (amended). Labeling happens as soon as the burn-in has elapsed, when the passes have
a worker: with `num_threads ≥ 1`, if the block of voxel V is in the updated set and V and
all its neighbors are free and observed at the frame (each lies in an existing block, has
distance at least `tsdf_occupancy_threshold`, `last_lidar_occupied` different from the
frame, weight above 1e-6 and `last_occupied` at most `frame_counter - burn_in_period`),
then V is ever-free after `updateEverFreeVoxels`. -/
theorem C7_labeled_when_burn_in_elapsed (I : EverFreeIntegrator) (layer : TsdfLayer)
    (frame_counter : Int) (block_index : BlockIndex) (block : TsdfBlock) (index : Nat)
    (hworkers : I.config_.num_threads ≥ 1)
    (hupd : block_index ∈ layer.getAllUpdatedBlocks)
    (hb : layer.getBlockPtrByIndex block_index = some block)
    (hi : index < I.voxels_per_block_)
    (hV : (block.getVoxelByLinearIndex index).distance ≥ I.config_.tsdf_occupancy_threshold ∧
      (block.getVoxelByLinearIndex index).last_lidar_occupied ≠ frame_counter ∧
      (block.getVoxelByLinearIndex index).weight > 1e-6 ∧
      (block.getVoxelByLinearIndex index).last_occupied ≤
        frame_counter - I.config_.burn_in_period)
    (hN : ∀ key ∈ I.search block_index (I.computeVoxelIndexFromLinearIndex index)
        I.voxels_per_side_,
      ∃ nb, layer.getBlockPtrByIndex key.1 = some nb ∧
        (I.getVoxelByVoxelIndex nb key.2).distance ≥ I.config_.tsdf_occupancy_threshold ∧
        (I.getVoxelByVoxelIndex nb key.2).last_lidar_occupied ≠ frame_counter ∧
        (I.getVoxelByVoxelIndex nb key.2).weight > 1e-6 ∧
        (I.getVoxelByVoxelIndex nb key.2).last_occupied ≤
          frame_counter - I.config_.burn_in_period) :
    ∃ block', (I.updateEverFreeVoxels layer frame_counter).getBlockPtrByIndex block_index =
        some block' ∧ (block'.getVoxelByLinearIndex index).ever_free = true := by
  simp only [TsdfLayer.getBlockPtrByIndex_eq, TsdfBlock.getVoxelByLinearIndex_eq,
    getVoxelByVoxelIndex] at *
  unfold updateEverFreeVoxels updateEverFreeVoxelsOn
  rw [takenIndices_of_workers I _ hworkers]
  refine labelFree_labels_ready I frame_counter block_index index hi _ _ ?_ (Or.inl hupd)
  have hr := removeOccupiedAndMerge_removalUpdate I layer frame_counter layer.getAllUpdatedBlocks
  have hkeep : ∀ (k : BlockIndex) (b : TsdfBlock) (j : Nat), layer.block_map k = some b →
      (b.voxels j).distance ≥ I.config_.tsdf_occupancy_threshold →
      (b.voxels j).last_lidar_occupied ≠ frame_counter →
      ∃ b', (I.removeOccupiedAndMerge layer frame_counter layer.getAllUpdatedBlocks).block_map k
          = some b' ∧ (b'.voxels j).weight = (b.voxels j).weight ∧
        (b'.voxels j).last_occupied = (b.voxels j).last_occupied := by
    intro k b j hk hd hl
    obtain ⟨b', hb', hrel⟩ := (hr.2 k).2 b hk
    obtain ⟨_, e2, _, _, _, _, e7⟩ := hrel.2 j
    have hno : ¬ ((b.voxels j).distance < I.config_.tsdf_occupancy_threshold ∨
        (b.voxels j).last_lidar_occupied = frame_counter) := by
      rintro (h | h)
      · exact absurd h (not_lt.mpr hd)
      · exact hl h
    exact ⟨b', hb', e2, (e7 hno).2⟩
  constructor
  · obtain ⟨b', hb', e1, e2⟩ := hkeep block_index block index hb hV.1 hV.2.1
    exact ⟨b', hb', by rw [e1]; exact hV.2.2.1, by rw [e2]; exact hV.2.2.2⟩
  · intro key hkey
    obtain ⟨nb, hnb, hd, hl, hw, hlo⟩ := hN key hkey
    obtain ⟨nb', hnb', e1, e2⟩ := hkeep key.1 nb _ hnb hd hl
    refine ⟨nb', hnb', ?_, ?_⟩
    · show (nb'.voxels (I.computeLinearIndexFromVoxelIndex key.2)).weight ≥ 1e-6
      rw [e1]; exact le_of_lt hw
    · show (nb'.voxels (I.computeLinearIndexFromVoxelIndex key.2)).last_occupied ≤ _
      rw [e2]; exact hlo



/-- Witness of C7 (amended): one worker, single block, 6-connectivity, burn-in 5, interior
voxel (linear index 13) and its neighbors with `last_occupied = 0`, frame 5. -/
theorem C7_labeled_when_burn_in_elapsed_witness :
    sceneIntegrator.config_.num_threads ≥ 1 ∧
    (0, 0, 0) ∈ sceneLayer.getAllUpdatedBlocks ∧
    sceneLayer.getBlockPtrByIndex (0, 0, 0) = some freeBlock ∧
    13 < sceneIntegrator.voxels_per_block_ ∧
    ((freeBlock.getVoxelByLinearIndex 13).distance ≥
        sceneIntegrator.config_.tsdf_occupancy_threshold ∧
      (freeBlock.getVoxelByLinearIndex 13).last_lidar_occupied ≠ 5 ∧
      (freeBlock.getVoxelByLinearIndex 13).weight > 1e-6 ∧
      (freeBlock.getVoxelByLinearIndex 13).last_occupied ≤
        5 - sceneIntegrator.config_.burn_in_period) ∧
    (∀ key ∈ sceneIntegrator.search (0, 0, 0)
        (sceneIntegrator.computeVoxelIndexFromLinearIndex 13) sceneIntegrator.voxels_per_side_,
      ∃ nb, sceneLayer.getBlockPtrByIndex key.1 = some nb ∧
        (sceneIntegrator.getVoxelByVoxelIndex nb key.2).distance ≥
          sceneIntegrator.config_.tsdf_occupancy_threshold ∧
        (sceneIntegrator.getVoxelByVoxelIndex nb key.2).last_lidar_occupied ≠ 5 ∧
        (sceneIntegrator.getVoxelByVoxelIndex nb key.2).weight > 1e-6 ∧
        (sceneIntegrator.getVoxelByVoxelIndex nb key.2).last_occupied ≤
          5 - sceneIntegrator.config_.burn_in_period) ∧
    ∃ block', (sceneIntegrator.updateEverFreeVoxels sceneLayer 5).getBlockPtrByIndex (0, 0, 0) =
        some block' ∧ (block'.getVoxelByLinearIndex 13).ever_free = true := by
  have hfree : freeVoxel.distance ≥ sceneIntegrator.config_.tsdf_occupancy_threshold ∧
      freeVoxel.last_lidar_occupied ≠ 5 ∧ freeVoxel.weight > 1e-6 ∧
      freeVoxel.last_occupied ≤ 5 - sceneIntegrator.config_.burn_in_period := by decide!
  have hkeys : ∀ key ∈ sceneIntegrator.search (0, 0, 0)
      (sceneIntegrator.computeVoxelIndexFromLinearIndex 13) sceneIntegrator.voxels_per_side_,
      key.1 = (0, 0, 0) := by decide
  have hN : ∀ key ∈ sceneIntegrator.search (0, 0, 0)
      (sceneIntegrator.computeVoxelIndexFromLinearIndex 13) sceneIntegrator.voxels_per_side_,
      ∃ nb, sceneLayer.getBlockPtrByIndex key.1 = some nb ∧
        (sceneIntegrator.getVoxelByVoxelIndex nb key.2).distance ≥
          sceneIntegrator.config_.tsdf_occupancy_threshold ∧
        (sceneIntegrator.getVoxelByVoxelIndex nb key.2).last_lidar_occupied ≠ 5 ∧
        (sceneIntegrator.getVoxelByVoxelIndex nb key.2).weight > 1e-6 ∧
        (sceneIntegrator.getVoxelByVoxelIndex nb key.2).last_occupied ≤
          5 - sceneIntegrator.config_.burn_in_period :=
    fun key hkey => ⟨freeBlock, by rw [hkeys key hkey]; rfl, hfree⟩
  exact ⟨by decide, by decide, rfl, by decide, hfree, hN,
    C7_labeled_when_burn_in_elapsed sceneIntegrator sceneLayer 5 (0, 0, 0) freeBlock 13
      (by decide) (by decide) rfl (by decide) hfree hN⟩

/-! ## The updated flag -/

/-- The updated flag of a block is kept by phase 1 and the merge, and kept or cleared by
the labeling pass. -/
theorem updateEverFreeVoxelsOn_flag (I : EverFreeIntegrator) (layer : TsdfLayer) (f : Int)
    (indices : List BlockIndex) :
    TsdfLayer.Blockwise (fun b b' => b'.updated_kEsdf = false ∨ b'.updated_kEsdf = b.updated_kEsdf)
      layer (I.updateEverFreeVoxelsOn layer f indices) := by
  have h1 := removeOccupiedAndMerge_removalUpdate I layer f (I.takenIndices indices)
  have h2 := labelFree_labelUpdate I f
    (I.removeOccupiedAndMerge layer f (I.takenIndices indices)) (I.takenIndices indices)
  unfold updateEverFreeVoxelsOn
  refine ⟨h2.1.trans h1.1, fun k => ⟨fun h => (h2.2 k).1 ((h1.2 k).1 h), fun b hb => ?_⟩⟩
  obtain ⟨b', hb', hr⟩ := (h1.2 k).2 b hb
  obtain ⟨b'', hb'', hr'⟩ := (h2.2 k).2 b' hb'
  refine ⟨b'', hb'', ?_⟩
  rcases hr'.1 with h | h
  · exact Or.inl h
  · exact Or.inr (h.trans hr.1)

/-- The labeling pass clears the updated flag of every existing block of its list. -/
theorem labelFree_clears_flag (I : EverFreeIntegrator) (f : Int) (block_index : BlockIndex)
    (indices : List BlockIndex) (layer : TsdfLayer)
    (hex : ∃ b, layer.block_map block_index = some b)
    (hor : block_index ∈ indices ∨
      ∃ b, layer.block_map block_index = some b ∧ b.updated_kEsdf = false) :
    ∃ b, (I.labelFree f layer indices).block_map block_index = some b ∧
      b.updated_kEsdf = false := by
  unfold labelFree
  induction indices generalizing layer with
  | nil =>
    rcases hor with hmem | hdone
    · simp at hmem
    · exact hdone
  | cons x rest ih =>
    simp only [List.foldl_cons]
    have hlu := blockWiseMakeEverFree_labelUpdate I layer x f
    obtain ⟨b, hb⟩ := hex
    obtain ⟨b', hb', hr⟩ := (hlu.2 block_index).2 b hb
    refine ih _ ⟨b', hb'⟩ ?_
    rcases hor with hmem | ⟨c, hc, hflag⟩
    · rcases List.mem_cons.mp hmem with rfl | hrest
      · right
        rw [blockWiseMakeEverFree_of_some I layer block_index f b hb]
        simp only [TsdfLayer.block_map_setBlock, if_true, Option.some.injEq, exists_eq_left']
      · exact Or.inl hrest
    · right
      rw [hb] at hc
      cases hc
      refine ⟨b', hb', ?_⟩
      rcases hr.1 with h | h
      · exact h
      · exact h.trans hflag

/-- Counterexample to C8 as stated: with a worker count of zero the loop of line 146 starts
no worker and line 244 is never reached, so after `updateEverFreeVoxels` the block of the
scene, which was in the updated set, still has its `kEsdf` updated flag set and the
updated set is not empty. -/
theorem C8_idempotence_counterexample :
    idleIntegrator.config_.num_threads = 0 ∧
    (0, 0, 0) ∈ sceneLayer.getAllUpdatedBlocks ∧
    (∃ block', (idleIntegrator.updateEverFreeVoxels sceneLayer 5).getBlockPtrByIndex (0, 0, 0) =
        some block' ∧ block'.updated_kEsdf = true) ∧
    (idleIntegrator.updateEverFreeVoxels sceneLayer 5).getAllUpdatedBlocks = [(0, 0, 0)] := by
  have hflag : ((idleIntegrator.updateEverFreeVoxels sceneLayer 5).getBlockPtrByIndex
      (0, 0, 0)).map (fun b => b.updated_kEsdf) = some true := by decide!
  obtain ⟨b, hb, hv⟩ := Option.map_eq_some'.mp hflag
  exact ⟨rfl, by decide, ⟨b, hb, hv⟩, by decide!⟩

/-- C8 (amended). Idempotence through the updated flag: when the passes have a worker
(`num_threads ≥ 1`), after `updateEverFreeVoxels` every block that was in the updated set
has its `kEsdf` updated flag cleared, so that the updated set is empty; and for every
worker count a second call (at any frame, with no integrator update in between) leaves
the whole grid unchanged. -/
theorem C8_idempotence_through_updated_flag (I : EverFreeIntegrator) (layer : TsdfLayer)
    (frame_counter frame_counter' : Int) :
    (I.config_.num_threads ≥ 1 →
      (∀ k ∈ layer.getAllUpdatedBlocks,
        ∃ block', (I.updateEverFreeVoxels layer frame_counter).getBlockPtrByIndex k =
            some block' ∧ block'.updated_kEsdf = false) ∧
      (I.updateEverFreeVoxels layer frame_counter).getAllUpdatedBlocks = []) ∧
    I.updateEverFreeVoxels (I.updateEverFreeVoxels layer frame_counter) frame_counter' =
      I.updateEverFreeVoxels layer frame_counter := by
  by_cases hworkers : I.config_.num_threads ≥ 1
  swap
  · have hno : I.config_.num_threads ≤ 0 := by omega
    refine ⟨fun h => absurd h hworkers, ?_⟩
    rw [updateEverFreeVoxels_of_no_workers I _ _ hno, updateEverFreeVoxels_of_no_workers I _ _ hno]
  have hcleared : ∀ k ∈ layer.getAllUpdatedBlocks,
      ∃ block', (I.updateEverFreeVoxels layer frame_counter).block_map k = some block' ∧
        block'.updated_kEsdf = false := by
    intro k hk
    unfold updateEverFreeVoxels updateEverFreeVoxelsOn
    rw [takenIndices_of_workers I _ hworkers]
    refine labelFree_clears_flag I frame_counter k _ _ ?_ (Or.inl hk)
    have hin := (List.mem_filter.mp hk).2
    cases hb : layer.block_map k with
    | none => simp [hb] at hin
    | some b =>
      obtain ⟨b', hb', _⟩ :=
        ((removeOccupiedAndMerge_removalUpdate I layer frame_counter
          layer.getAllUpdatedBlocks).2 k).2 b hb
      exact ⟨b', hb'⟩
  have hempty : (I.updateEverFreeVoxels layer frame_counter).getAllUpdatedBlocks = [] := by
    have hflag := updateEverFreeVoxelsOn_flag I layer frame_counter layer.getAllUpdatedBlocks
    unfold TsdfLayer.getAllUpdatedBlocks
    rw [List.filter_eq_nil_iff]
    intro k hk
    have hk' : k ∈ layer.allocated := by
      have : (I.updateEverFreeVoxels layer frame_counter).allocated = layer.allocated := hflag.1
      rw [this] at hk; exact hk
    cases hb' : (I.updateEverFreeVoxels layer frame_counter).block_map k with
    | none => simp
    | some b' =>
      simp only [Bool.not_eq_true]
      by_cases hupd : k ∈ layer.getAllUpdatedBlocks
      · obtain ⟨c, hc, hc'⟩ := hcleared k hupd
        rw [hb'] at hc
        cases hc
        exact hc'
      · cases hb : layer.block_map k with
        | none =>
          have := (hflag.2 k).1 hb
          unfold updateEverFreeVoxels at hb'
          rw [hb'] at this
          exact absurd this (by simp)
        | some b =>
          obtain ⟨c, hc, hr⟩ := (hflag.2 k).2 b hb
          unfold updateEverFreeVoxels at hb'
          rw [hb'] at hc
          cases hc
          rcases hr with h | h
          · exact h
          · rw [h]
            by_contra hne
            apply hupd
            unfold TsdfLayer.getAllUpdatedBlocks
            exact List.mem_filter.mpr ⟨hk', by simpa [hb] using hne⟩
  refine ⟨fun _ => ⟨fun k hk => hcleared k hk, hempty⟩, ?_⟩
  generalize I.updateEverFreeVoxels layer frame_counter = m at hempty
  unfold updateEverFreeVoxels updateEverFreeVoxelsOn
  rw [hempty]
  have hnil : I.takenIndices [] = [] := by unfold takenIndices; split_ifs <;> rfl
  rw [hnil]
  rfl



/-! ## Independence of the block order -/

theorem blockWiseUpdateEverFree_block_map_of_ne (I : EverFreeIntegrator) (layer : TsdfLayer)
    (x y : BlockIndex) (f : Int) (acc : List VoxelKey) (hxy : y ≠ x) :
    (I.blockWiseUpdateEverFree layer x f acc).1.block_map y = layer.block_map y := by
  cases hb : layer.block_map x with
  | none => rw [blockWiseUpdateEverFree_of_none I layer x f acc hb]
  | some b =>
    rw [blockWiseUpdateEverFree_of_some I layer x f acc b hb]
    simp [hxy]

/-- The result of `blockWiseUpdateEverFree` on a block depends on the layer only through
that block. -/
theorem blockWiseUpdateEverFree_keys_congr (I : EverFreeIntegrator) (l l' : TsdfLayer)
    (x : BlockIndex) (f : Int) (h : l'.block_map x = l.block_map x) :
    (I.blockWiseUpdateEverFree l' x f []).2.1 = (I.blockWiseUpdateEverFree l x f []).2.1 := by
  cases hb : l.block_map x with
  | none =>
    rw [blockWiseUpdateEverFree_of_none I l x f [] hb,
      blockWiseUpdateEverFree_of_none I l' x f [] (h.trans hb)]
  | some b =>
    rw [blockWiseUpdateEverFree_of_some I l x f [] b hb,
      blockWiseUpdateEverFree_of_some I l' x f [] b (h.trans hb)]

/-- Passes of `blockWiseUpdateEverFree` on two different blocks commute. -/
theorem blockWiseUpdateEverFree_comm (I : EverFreeIntegrator) (layer : TsdfLayer)
    (x y : BlockIndex) (f : Int) (hxy : x ≠ y) :
    (I.blockWiseUpdateEverFree (I.blockWiseUpdateEverFree layer x f []).1 y f []).1 =
      (I.blockWiseUpdateEverFree (I.blockWiseUpdateEverFree layer y f []).1 x f []).1 := by
  have hyx : y ≠ x := fun h => hxy h.symm
  have e1 := blockWiseUpdateEverFree_block_map_of_ne I layer x y f [] hyx
  have e2 := blockWiseUpdateEverFree_block_map_of_ne I layer y x f [] hxy
  cases hx : layer.block_map x with
  | none =>
    rw [hx] at e2
    rw [blockWiseUpdateEverFree_of_none I layer x f [] hx,
      blockWiseUpdateEverFree_of_none I _ x f [] e2]
  | some bx =>
    rw [hx] at e2
    cases hy : layer.block_map y with
    | none =>
      rw [hy] at e1
      rw [blockWiseUpdateEverFree_of_none I layer y f [] hy,
        blockWiseUpdateEverFree_of_none I _ y f [] e1]
    | some b =>
      rw [hy] at e1
      rw [blockWiseUpdateEverFree_of_some I _ y f [] b e1,
        blockWiseUpdateEverFree_of_some I _ x f [] bx e2,
        blockWiseUpdateEverFree_of_some I layer x f [] bx hx,
        blockWiseUpdateEverFree_of_some I layer y f [] b hy]
      rw [TsdfLayer.layer_ext_iff]
      refine ⟨fun k => ?_, rfl⟩
      by_cases hkx : k = x
      · subst hkx; simp [hxy]
      · by_cases hky : k = y
        · subst hky; simp [hkx]
        · simp [hkx, hky]

/-- The flag returned by `blockWiseUpdateEverFree` only saves an append of an empty vector. -/
theorem removeOccupied_cons_append (I : EverFreeIntegrator) (f : Int) (x : BlockIndex)
    (rest : List BlockIndex) (st : TsdfLayer × List VoxelKey) :
    I.removeOccupied f st (x :: rest) =
      I.removeOccupied f
        ((I.blockWiseUpdateEverFree st.1 x f []).1,
          st.2 ++ (I.blockWiseUpdateEverFree st.1 x f []).2.1) rest := by
  rw [removeOccupied_cons]
  congr 2
  cases hb : st.1.block_map x with
  | none =>
    rw [blockWiseUpdateEverFree_of_none I st.1 x f [] hb]
    simp
  | some b =>
    rw [blockWiseUpdateEverFree_of_some I st.1 x f [] b hb]
    cases hr : (I.updateEverFreeLoop x f b I.voxels_per_block_).2 with
    | nil => simp
    | cons _ _ => simp

/-- Phase 1 over the same block list from the same layer and permuted key vectors. -/
theorem removeOccupied_congr (I : EverFreeIntegrator) (f : Int) (indices : List BlockIndex)
    (st st' : TsdfLayer × List VoxelKey) (h1 : st.1 = st'.1) (h2 : st.2.Perm st'.2) :
    (I.removeOccupied f st indices).1 = (I.removeOccupied f st' indices).1 ∧
      (I.removeOccupied f st indices).2.Perm (I.removeOccupied f st' indices).2 := by
  induction indices generalizing st st' with
  | nil => exact ⟨h1, h2⟩
  | cons x rest ih =>
    rw [removeOccupied_cons_append, removeOccupied_cons_append]
    apply ih
    · dsimp only; rw [h1]
    · dsimp only; rw [h1]; exact h2.append_right _

/-- Phase 1 over two orderings of the block list gives the same layer and the same
collected keys up to order. -/
theorem removeOccupied_perm (I : EverFreeIntegrator) (f : Int) (l l' : List BlockIndex)
    (hperm : l.Perm l') (st st' : TsdfLayer × List VoxelKey) (h1 : st.1 = st'.1)
    (h2 : st.2.Perm st'.2) :
    (I.removeOccupied f st l).1 = (I.removeOccupied f st' l').1 ∧
      (I.removeOccupied f st l).2.Perm (I.removeOccupied f st' l').2 := by
  induction hperm generalizing st st' with
  | nil => exact ⟨h1, h2⟩
  | cons x _ ih =>
    rw [removeOccupied_cons_append, removeOccupied_cons_append]
    apply ih
    · dsimp only; rw [h1]
    · dsimp only; rw [h1]; exact h2.append_right _
  | swap x y l =>
    rw [removeOccupied_cons_append, removeOccupied_cons_append, removeOccupied_cons_append,
      removeOccupied_cons_append]
    apply removeOccupied_congr
    · dsimp only
      rw [h1]
      by_cases hxy : x = y
      · rw [hxy]
      · exact (blockWiseUpdateEverFree_comm I st'.1 x y f hxy).symm
    · dsimp only
      rw [h1]
      by_cases hxy : x = y
      · rw [hxy]
        exact (h2.append_right _).append_right _
      · have hyx : y ≠ x := fun h => hxy h.symm
        rw [blockWiseUpdateEverFree_keys_congr I st'.1 _ x f
            (blockWiseUpdateEverFree_block_map_of_ne I st'.1 y x f [] hxy),
          blockWiseUpdateEverFree_keys_congr I st'.1 _ y f
            (blockWiseUpdateEverFree_block_map_of_ne I st'.1 x y f [] hyx),
          List.append_assoc, List.append_assoc]
        exact h2.append List.perm_append_comm
  | trans _ _ ih1 ih2 =>
    obtain ⟨a1, a2⟩ := ih1 st st' h1 h2
    obtain ⟨b1, b2⟩ := ih2 st' st' rfl (List.Perm.refl _)
    exact ⟨a1.trans b1, a2.trans b2⟩

/-- Two iterations of the merge loop commute. -/
theorem removeRemainingStep_comm (I : EverFreeIntegrator) (layer : TsdfLayer) (a b : VoxelKey) :
    I.removeRemainingStep (I.removeRemainingStep layer a) b =
      I.removeRemainingStep (I.removeRemainingStep layer b) a := by
  rw [TsdfLayer.layer_ext_iff]
  unfold removeRemainingStep
  simp only [TsdfLayer.getBlockPtrByIndex_eq, getVoxelByVoxelIndex,
    TsdfBlock.getVoxelByLinearIndex_eq]
  cases ha : layer.block_map a.1 with
  | none =>
    cases hb : layer.block_map b.1 with
    | none => simp [ha, hb]
    | some bb =>
      have hne : a.1 ≠ b.1 := by
        intro h; rw [h] at ha; rw [ha] at hb; exact absurd hb (by simp)
      simp [ha, hb, hne]
  | some ba =>
    cases hb : layer.block_map b.1 with
    | none =>
      have hne : b.1 ≠ a.1 := by
        intro h; rw [h] at hb; rw [ha] at hb; exact absurd hb (by simp)
      simp [ha, hb, hne]
    | some bb =>
      by_cases hab : a.1 = b.1
      · have hbb : bb = ba := by
          rw [hab] at ha; rw [ha] at hb; exact (Option.some.inj hb).symm
        subst hbb
        simp only [hab, TsdfLayer.block_map_setBlock, if_true, TsdfLayer.allocated_setBlock,
          and_true]
        intro k
        by_cases hk : k = b.1
        · simp only [hk, if_true, Option.some.injEq]
          rw [TsdfBlock.block_ext_iff]
          refine ⟨fun j => ?_, rfl⟩
          simp only [TsdfBlock.voxels_setVoxelByLinearIndex, if_true]
          by_cases h1 : j = I.computeLinearIndexFromVoxelIndex b.2 <;>
            by_cases h2 : j = I.computeLinearIndexFromVoxelIndex a.2 <;>
            by_cases h3 : I.computeLinearIndexFromVoxelIndex b.2 =
              I.computeLinearIndexFromVoxelIndex a.2 <;>
            simp_all [clearEverFree]
        · simp [hk]
      · have hba : b.1 ≠ a.1 := fun h => hab h.symm
        simp only [TsdfLayer.block_map_setBlock, hab, hba, if_false, ha, hb,
          TsdfLayer.allocated_setBlock, and_true]
        intro k
        by_cases hka : k = a.1
        · simp [hka, hab]
        · simp [hka]

theorem removeRemaining_perm (I : EverFreeIntegrator) (layer : TsdfLayer)
    (keys keys' : List VoxelKey) (hperm : keys.Perm keys') :
    I.removeRemaining layer keys = I.removeRemaining layer keys' := by
  unfold removeRemaining
  exact hperm.foldl_eq' (fun x _ y _ z => removeRemainingStep_comm I z x y) layer



/-- The neighbor loop reads of the layer only the existence of blocks and the fields
`weight` and `last_occupied`, which the labeling pass leaves as they are. -/
theorem neighborOccupiedOrUnobserved_congr_layer (I : EverFreeIntegrator) (l l' : TsdfLayer)
    (h : TsdfLayer.Blockwise TsdfBlock.LabelUpdate l l') (tsdf_block : TsdfBlock)
    (block_index : BlockIndex) (f : Int) (neighbors : List VoxelKey) :
    I.neighborOccupiedOrUnobserved l' tsdf_block block_index f neighbors =
      I.neighborOccupiedOrUnobserved l tsdf_block block_index f neighbors := by
  induction neighbors with
  | nil => rfl
  | cons key rest ih =>
    simp only [neighborOccupiedOrUnobserved, TsdfLayer.getBlockPtrByIndex_eq]
    by_cases hk : key.1 = block_index
    · simp only [hk, if_true, ih]
    · simp only [hk, if_false]
      cases hb : l.block_map key.1 with
      | none => rw [(h.2 key.1).1 hb]
      | some b =>
        obtain ⟨b', hb', hr⟩ := (h.2 key.1).2 b hb
        obtain ⟨e1, e2, _⟩ := TsdfVoxel.labelUpdate_fields
          (hr.2 (I.computeLinearIndexFromVoxelIndex key.2))
        rw [hb']
        simp only [getVoxelByVoxelIndex, TsdfBlock.getVoxelByLinearIndex_eq, e1, e2, ih]

theorem labelCondition_congr_layer (I : EverFreeIntegrator) (l l' : TsdfLayer)
    (h : TsdfLayer.Blockwise TsdfBlock.LabelUpdate l l') (block : TsdfBlock)
    (block_index : BlockIndex) (f : Int) (index : Nat) :
    labelCondition I l' block block_index f index = labelCondition I l block block_index f index := by
  unfold labelCondition
  rw [neighborOccupiedOrUnobserved_congr_layer I l l' h]

/-- Passes of `blockWiseMakeEverFree` on two different blocks commute. -/
theorem blockWiseMakeEverFree_comm (I : EverFreeIntegrator) (layer : TsdfLayer)
    (x y : BlockIndex) (f : Int) (hxy : x ≠ y) :
    I.blockWiseMakeEverFree (I.blockWiseMakeEverFree layer x f) y f =
      I.blockWiseMakeEverFree (I.blockWiseMakeEverFree layer y f) x f := by
  have hyx : y ≠ x := fun h => hxy h.symm
  have hlx := blockWiseMakeEverFree_labelUpdate I layer x f
  have hly := blockWiseMakeEverFree_labelUpdate I layer y f
  cases hx : layer.block_map x with
  | none =>
    rw [blockWiseMakeEverFree_of_none I layer x f hx,
      blockWiseMakeEverFree_of_none I _ x f ((hly.2 x).1 hx)]
  | some bx =>
    cases hy : layer.block_map y with
    | none =>
      rw [blockWiseMakeEverFree_of_none I layer y f hy,
        blockWiseMakeEverFree_of_none I _ y f ((hlx.2 y).1 hy)]
    | some b =>
      have e1 : (I.blockWiseMakeEverFree layer x f).block_map y = some b := by
        rw [blockWiseMakeEverFree_of_some I layer x f bx hx]
        simp [hyx, hy]
      have e2 : (I.blockWiseMakeEverFree layer y f).block_map x = some bx := by
        rw [blockWiseMakeEverFree_of_some I layer y f b hy]
        simp [hxy, hx]
      rw [blockWiseMakeEverFree_of_some I _ y f b e1,
        blockWiseMakeEverFree_of_some I _ x f bx e2]
      simp only [labelCondition_congr_layer I layer _ hlx, labelCondition_congr_layer I layer _ hly]
      rw [blockWiseMakeEverFree_of_some I layer x f bx hx,
        blockWiseMakeEverFree_of_some I layer y f b hy]
      rw [TsdfLayer.layer_ext_iff]
      refine ⟨fun k => ?_, rfl⟩
      by_cases hkx : k = x
      · subst hkx; simp [hxy]
      · by_cases hky : k = y
        · subst hky; simp [hkx]
        · simp [hkx, hky]

theorem labelFree_perm (I : EverFreeIntegrator) (f : Int) (layer : TsdfLayer)
    (l l' : List BlockIndex) (hperm : l.Perm l') :
    I.labelFree f layer l = I.labelFree f layer l' := by
  unfold labelFree
  refine hperm.foldl_eq' (fun x _ y _ z => ?_) layer
  by_cases hxy : x = y
  · rw [hxy]
  · exact blockWiseMakeEverFree_comm I z x y f hxy

/-- C9. Block-order independence: for two orderings (permutations of one another) of the
list of updated blocks, the update run with the blocks visited in either order (phase 1
over the blocks, merge of the collected keys, phase 2 over the blocks) yields the same
grid, hence the same `ever_free`, `dynamic`, `occ_counter` and `last_occupied` for every
voxel. -/
theorem C9_block_order_independence (I : EverFreeIntegrator) (layer : TsdfLayer)
    (frame_counter : Int) (indices indices' : List BlockIndex)
    (hperm : indices.Perm indices') :
    I.updateEverFreeVoxelsOn layer frame_counter indices =
      I.updateEverFreeVoxelsOn layer frame_counter indices' := by
  have hperm' := takenIndices_perm I indices indices' hperm
  unfold updateEverFreeVoxelsOn removeOccupiedAndMerge
  dsimp only
  obtain ⟨h1, h2⟩ := removeOccupied_perm I frame_counter _ _ hperm'
    (layer, []) (layer, []) rfl (List.Perm.refl _)
  rw [h1, removeRemaining_perm I _ _ _ h2, labelFree_perm I frame_counter _ _ _ hperm']

/-- Witness of C9: the two orders of the two blocks of a layer in which the voxel at
linear index 14 of block (0, 0, 0) fires at frame 8. -/
theorem C9_block_order_independence_witness :
    [((0 : Int), (0 : Int), (0 : Int)), (1, 0, 0)].Perm [(1, 0, 0), (0, 0, 0)] ∧
    sceneIntegrator.updateEverFreeVoxelsOn
        (twoBlockLayer (occupiedBlock [14]) (occupiedBlock [])) 8 [(0, 0, 0), (1, 0, 0)] =
      sceneIntegrator.updateEverFreeVoxelsOn
        (twoBlockLayer (occupiedBlock [14]) (occupiedBlock [])) 8 [(1, 0, 0), (0, 0, 0)] :=
  ⟨List.Perm.swap _ _ _,
    C9_block_order_independence sceneIntegrator
      (twoBlockLayer (occupiedBlock [14]) (occupiedBlock [])) 8 _ _ (List.Perm.swap _ _ _)⟩

/-- Witness of C8 (amended) on the scene with one worker: the single block is in the
updated set before the update of frame 5, the updated set is empty after it, and a second
update at frame 6 changes nothing. -/
theorem C8_idempotence_through_updated_flag_witness :
    sceneIntegrator.config_.num_threads ≥ 1 ∧
    sceneLayer.getAllUpdatedBlocks = [(0, 0, 0)] ∧
    (sceneIntegrator.updateEverFreeVoxels sceneLayer 5).getAllUpdatedBlocks = [] ∧
    sceneIntegrator.updateEverFreeVoxels (sceneIntegrator.updateEverFreeVoxels sceneLayer 5) 6 =
      sceneIntegrator.updateEverFreeVoxels sceneLayer 5 :=
  ⟨by decide, by decide,
    ((C8_idempotence_through_updated_flag sceneIntegrator sceneLayer 5 6).1 (by decide)).2,
    (C8_idempotence_through_updated_flag sceneIntegrator sceneLayer 5 6).2⟩



/-! ## Frame conditions of the labeling pass and of the whole update -/

/-- The labeling pass changes of a voxel at most `ever_free`, from false to true. -/
theorem TsdfVoxel.labelUpdate_frame {v v' : TsdfVoxel} (h : TsdfVoxel.LabelUpdate v v') :
    v'.distance = v.distance ∧ v'.weight = v.weight ∧ v'.dynamic = v.dynamic ∧
      v'.occ_counter = v.occ_counter ∧ v'.last_occupied = v.last_occupied ∧
      v'.last_lidar_occupied = v.last_lidar_occupied ∧
      (v.ever_free = true → v'.ever_free = true) := by
  rcases h with rfl | ⟨_, rfl⟩
  · exact ⟨rfl, rfl, rfl, rfl, rfl, rfl, fun h => h⟩
  · exact ⟨rfl, rfl, rfl, rfl, rfl, rfl, fun _ => rfl⟩

/-- C11. Phase 2 writes only its own block's `ever_free` flags: `blockWiseMakeEverFree` on
a block changes no other block (and nothing when the block is absent); within the block
it clears the updated flag and changes no voxel field other than `ever_free`, which can
only go from false to true. -/
theorem C11_phase2_writes_own_ever_free_only (I : EverFreeIntegrator) (layer : TsdfLayer)
    (block_index : BlockIndex) (frame_counter : Int) :
    (∀ k, k ≠ block_index →
      (I.blockWiseMakeEverFree layer block_index frame_counter).getBlockPtrByIndex k =
        layer.getBlockPtrByIndex k) ∧
    (I.blockWiseMakeEverFree layer block_index frame_counter).allocated = layer.allocated ∧
    (layer.getBlockPtrByIndex block_index = none →
      I.blockWiseMakeEverFree layer block_index frame_counter = layer) ∧
    ∀ block, layer.getBlockPtrByIndex block_index = some block →
      ∃ block', (I.blockWiseMakeEverFree layer block_index frame_counter).getBlockPtrByIndex
          block_index = some block' ∧
        block'.updated_kEsdf = false ∧
        ∀ j, (block'.getVoxelByLinearIndex j).distance =
              (block.getVoxelByLinearIndex j).distance ∧
          (block'.getVoxelByLinearIndex j).weight = (block.getVoxelByLinearIndex j).weight ∧
          (block'.getVoxelByLinearIndex j).dynamic = (block.getVoxelByLinearIndex j).dynamic ∧
          (block'.getVoxelByLinearIndex j).occ_counter =
              (block.getVoxelByLinearIndex j).occ_counter ∧
          (block'.getVoxelByLinearIndex j).last_occupied =
              (block.getVoxelByLinearIndex j).last_occupied ∧
          (block'.getVoxelByLinearIndex j).last_lidar_occupied =
              (block.getVoxelByLinearIndex j).last_lidar_occupied ∧
          ((block.getVoxelByLinearIndex j).ever_free = true →
            (block'.getVoxelByLinearIndex j).ever_free = true) := by
  simp only [TsdfLayer.getBlockPtrByIndex_eq, TsdfBlock.getVoxelByLinearIndex_eq]
  have hlu := blockWiseMakeEverFree_labelUpdate I layer block_index frame_counter
  refine ⟨fun k hk => ?_, hlu.1, fun hnone =>
    blockWiseMakeEverFree_of_none I layer block_index frame_counter hnone, fun block hb => ?_⟩
  · cases hb : layer.block_map block_index with
    | none => rw [blockWiseMakeEverFree_of_none I layer block_index frame_counter hb]
    | some b =>
      rw [blockWiseMakeEverFree_of_some I layer block_index frame_counter b hb]
      simp [hk]
  · obtain ⟨b', hb', hr⟩ := (hlu.2 block_index).2 block hb
    refine ⟨b', hb', ?_, fun j => TsdfVoxel.labelUpdate_frame (hr.2 j)⟩
    rw [blockWiseMakeEverFree_of_some I layer block_index frame_counter block hb] at hb'
    simp only [TsdfLayer.block_map_setBlock, if_true, Option.some.injEq] at hb'
    rw [← hb']

/-- Witness of C11 on the scene at frame 5: the single block is processed, its flag is
cleared and no field but `ever_free` changes. -/
theorem C11_phase2_writes_own_ever_free_only_witness :
    sceneLayer.getBlockPtrByIndex (0, 0, 0) = some freeBlock ∧
    ∃ block', (sceneIntegrator.blockWiseMakeEverFree sceneLayer (0, 0, 0)
          5).getBlockPtrByIndex (0, 0, 0) = some block' ∧
        block'.updated_kEsdf = false ∧
        ∀ j, (block'.getVoxelByLinearIndex j).distance =
              (freeBlock.getVoxelByLinearIndex j).distance ∧
          (block'.getVoxelByLinearIndex j).weight = (freeBlock.getVoxelByLinearIndex j).weight ∧
          (block'.getVoxelByLinearIndex j).dynamic =
              (freeBlock.getVoxelByLinearIndex j).dynamic ∧
          (block'.getVoxelByLinearIndex j).occ_counter =
              (freeBlock.getVoxelByLinearIndex j).occ_counter ∧
          (block'.getVoxelByLinearIndex j).last_occupied =
              (freeBlock.getVoxelByLinearIndex j).last_occupied ∧
          (block'.getVoxelByLinearIndex j).last_lidar_occupied =
              (freeBlock.getVoxelByLinearIndex j).last_lidar_occupied ∧
          ((freeBlock.getVoxelByLinearIndex j).ever_free = true →
            (block'.getVoxelByLinearIndex j).ever_free = true) :=
  ⟨rfl, (C11_phase2_writes_own_ever_free_only sceneIntegrator sceneLayer (0, 0, 0) 5).2.2.2
    freeBlock rfl⟩

/-- The whole update keeps the key order, creates and removes no block, and keeps the
sensor fields of every voxel. -/
theorem updateEverFreeVoxelsOn_sensor_fields (I : EverFreeIntegrator) (layer : TsdfLayer)
    (f : Int) (indices : List BlockIndex) :
    TsdfLayer.Blockwise
      (fun b b' => ∀ j, (b'.voxels j).distance = (b.voxels j).distance ∧
        (b'.voxels j).weight = (b.voxels j).weight ∧
        (b'.voxels j).last_lidar_occupied = (b.voxels j).last_lidar_occupied)
      layer (I.updateEverFreeVoxelsOn layer f indices) := by
  have h1 := removeOccupiedAndMerge_removalUpdate I layer f (I.takenIndices indices)
  have h2 := labelFree_labelUpdate I f
    (I.removeOccupiedAndMerge layer f (I.takenIndices indices)) (I.takenIndices indices)
  unfold updateEverFreeVoxelsOn
  refine ⟨h2.1.trans h1.1, fun k => ⟨fun h => (h2.2 k).1 ((h1.2 k).1 h), fun b hb => ?_⟩⟩
  obtain ⟨b', hb', hr⟩ := (h1.2 k).2 b hb
  obtain ⟨b'', hb'', hr'⟩ := (h2.2 k).2 b' hb'
  refine ⟨b'', hb'', fun j => ?_⟩
  obtain ⟨a1, a2, a3, _⟩ := hr.2 j
  obtain ⟨c1, c2, _, _, _, c6, _⟩ := TsdfVoxel.labelUpdate_frame (hr'.2 j)
  exact ⟨c1.trans a1, c2.trans a2, c6.trans a3⟩

/-- C12. The engine does not touch the grid structure or the sensor fields:
`updateEverFreeVoxels` keeps the allocated block coordinates (a block is present after
the update exactly when it was before, whatever blocks are absent), and leaves
`distance`, `weight` and `last_lidar_occupied` of every voxel unchanged. -/
theorem C12_grid_structure_and_sensor_fields (I : EverFreeIntegrator) (layer : TsdfLayer)
    (frame_counter : Int) :
    (I.updateEverFreeVoxels layer frame_counter).allocated = layer.allocated ∧
    (∀ k, (I.updateEverFreeVoxels layer frame_counter).getBlockPtrByIndex k = none ↔
      layer.getBlockPtrByIndex k = none) ∧
    ∀ k block, layer.getBlockPtrByIndex k = some block →
      ∃ block', (I.updateEverFreeVoxels layer frame_counter).getBlockPtrByIndex k =
          some block' ∧
        ∀ j, (block'.getVoxelByLinearIndex j).distance =
              (block.getVoxelByLinearIndex j).distance ∧
          (block'.getVoxelByLinearIndex j).weight = (block.getVoxelByLinearIndex j).weight ∧
          (block'.getVoxelByLinearIndex j).last_lidar_occupied =
              (block.getVoxelByLinearIndex j).last_lidar_occupied := by
  simp only [TsdfLayer.getBlockPtrByIndex_eq, TsdfBlock.getVoxelByLinearIndex_eq]
  have h := updateEverFreeVoxelsOn_sensor_fields I layer frame_counter layer.getAllUpdatedBlocks
  refine ⟨h.1, fun k => ⟨fun hnone => ?_, fun hnone => (h.2 k).1 hnone⟩,
    fun k block hb => (h.2 k).2 block hb⟩
  cases hb : layer.block_map k with
  | none => rfl
  | some b =>
    obtain ⟨b', hb', _⟩ := (h.2 k).2 b hb
    unfold updateEverFreeVoxels at hnone
    rw [hnone] at hb'
    exact absurd hb' (by simp)

/-- Witness of C12 on a two-block layer at frame 8 in which a removal crosses the block
boundary and neighbor blocks are absent. -/
theorem C12_grid_structure_and_sensor_fields_witness :
    (twoBlockLayer (occupiedBlock [14]) (occupiedBlock [])).getBlockPtrByIndex (1, 0, 0) =
      some (occupiedBlock []) ∧
    (sceneIntegrator.updateEverFreeVoxels
      (twoBlockLayer (occupiedBlock [14]) (occupiedBlock [])) 8).allocated =
        [(0, 0, 0), (1, 0, 0)] ∧
    ∃ block', (sceneIntegrator.updateEverFreeVoxels
        (twoBlockLayer (occupiedBlock [14]) (occupiedBlock [])) 8).getBlockPtrByIndex (1, 0, 0) =
          some block' ∧
        ∀ j, (block'.getVoxelByLinearIndex j).distance =
              ((occupiedBlock []).getVoxelByLinearIndex j).distance ∧
          (block'.getVoxelByLinearIndex j).weight =
              ((occupiedBlock []).getVoxelByLinearIndex j).weight ∧
          (block'.getVoxelByLinearIndex j).last_lidar_occupied =
              ((occupiedBlock []).getVoxelByLinearIndex j).last_lidar_occupied :=
  ⟨rfl,
    (C12_grid_structure_and_sensor_fields sceneIntegrator
      (twoBlockLayer (occupiedBlock [14]) (occupiedBlock [])) 8).1,
    (C12_grid_structure_and_sensor_fields sceneIntegrator
      (twoBlockLayer (occupiedBlock [14]) (occupiedBlock [])) 8).2.2 (1, 0, 0)
        (occupiedBlock []) rfl⟩

/-- C19. The labeling pass is idempotent at a fixed frame: applying
`blockWiseMakeEverFree` to a block twice in a row gives the same grid (every voxel field
of every block, and the flags) as applying it once. -/
theorem C19_labeling_pass_idempotent (I : EverFreeIntegrator) (layer : TsdfLayer)
    (block_index : BlockIndex) (frame_counter : Int) :
    I.blockWiseMakeEverFree (I.blockWiseMakeEverFree layer block_index frame_counter)
        block_index frame_counter =
      I.blockWiseMakeEverFree layer block_index frame_counter := by
  have hlu := blockWiseMakeEverFree_labelUpdate I layer block_index frame_counter
  cases hb : layer.block_map block_index with
  | none =>
    rw [blockWiseMakeEverFree_of_none I layer block_index frame_counter hb,
      blockWiseMakeEverFree_of_none I layer block_index frame_counter hb]
  | some b =>
    obtain ⟨b1, hb1, hr⟩ := (hlu.2 block_index).2 b hb
    rw [blockWiseMakeEverFree_of_some I _ block_index frame_counter b1 hb1]
    simp only [labelCondition_congr_layer I layer _ hlu]
    have hb1' := hb1
    rw [blockWiseMakeEverFree_of_some I layer block_index frame_counter b hb] at hb1' ⊢
    simp only [TsdfLayer.block_map_setBlock, if_true, Option.some.injEq] at hb1'
    rw [TsdfLayer.layer_ext_iff]
    refine ⟨fun k => ?_, rfl⟩
    by_cases hk : k = block_index
    · subst hk
      simp only [TsdfLayer.block_map_setBlock, if_true, Option.some.injEq]
      rw [TsdfBlock.block_ext_iff]
      refine ⟨fun j => ?_, rfl⟩
      dsimp only
      by_cases hc : j < I.voxels_per_block_ ∧ labelCondition I layer b1 k frame_counter j = true
      · exfalso
        obtain ⟨hj, hc1⟩ := hc
        have hw : ∀ i, (b1.voxels i).weight = (b.voxels i).weight :=
          fun i => (TsdfVoxel.labelUpdate_frame (hr.2 i)).2.1
        have hl : ∀ i, (b1.voxels i).last_occupied = (b.voxels i).last_occupied :=
          fun i => (TsdfVoxel.labelUpdate_frame (hr.2 i)).2.2.2.2.1
        have hcong := neighborOccupiedOrUnobserved_congr I layer b b1 k frame_counter hw hl
        unfold labelCondition at hc1
        rw [hcong] at hc1
        simp only [Bool.and_eq_true, decide_eq_true_eq, Bool.not_eq_true', not_or] at hc1
        obtain ⟨⟨hef, hwj, hlj⟩, hnb⟩ := hc1
        have hvox : b1.voxels j = if j < I.voxels_per_block_ ∧
            labelCondition I layer b k frame_counter j = true then
              { b.voxels j with ever_free := true } else b.voxels j := by
          rw [← hb1']
        by_cases hc0 : labelCondition I layer b k frame_counter j = true
        · rw [hvox, if_pos ⟨hj, hc0⟩] at hef
          exact hef rfl
        · rw [hvox, if_neg (fun h => hc0 h.2)] at hef hwj hlj
          apply hc0
          unfold labelCondition
          simp only [Bool.and_eq_true, decide_eq_true_eq, Bool.not_eq_true', not_or]
          exact ⟨⟨hef, hwj, hlj⟩, hnb⟩
      · rw [if_neg hc, ← hb1']
    · simp [hk]



/-! ## The voxel loop of phase 1, field by field -/

theorem clearEverFree_idem (v : TsdfVoxel) : clearEverFree (clearEverFree v) = clearEverFree v :=
  rfl

theorem TsdfVoxel.sameButFlags_refl (v : TsdfVoxel) : TsdfVoxel.SameButFlags v v :=
  ⟨rfl, rfl, rfl, rfl, rfl⟩

theorem TsdfVoxel.sameButFlags_trans {u v w : TsdfVoxel} (h1 : TsdfVoxel.SameButFlags u v)
    (h2 : TsdfVoxel.SameButFlags v w) : TsdfVoxel.SameButFlags u w :=
  ⟨h2.1.trans h1.1, h2.2.1.trans h1.2.1, h2.2.2.1.trans h1.2.2.1,
    h2.2.2.2.1.trans h1.2.2.2.1, h2.2.2.2.2.trans h1.2.2.2.2⟩

theorem TsdfVoxel.sameButFlags_symm {u v : TsdfVoxel} (h : TsdfVoxel.SameButFlags u v) :
    TsdfVoxel.SameButFlags v u :=
  ⟨h.1.symm, h.2.1.symm, h.2.2.1.symm, h.2.2.2.1.symm, h.2.2.2.2.symm⟩

theorem TsdfVoxel.sameButFlags_clearEverFree (v : TsdfVoxel) :
    TsdfVoxel.SameButFlags v (clearEverFree v) :=
  ⟨rfl, rfl, rfl, rfl, rfl⟩

/-- The counter update and the reset of `dynamic` leave `ever_free` and the sensor fields. -/
theorem updateCounterVoxel_kept (I : EverFreeIntegrator) (f : Int) (v : TsdfVoxel) :
    (I.updateCounterVoxel f v).ever_free = v.ever_free ∧
      (I.updateCounterVoxel f v).distance = v.distance ∧
      (I.updateCounterVoxel f v).weight = v.weight ∧
      (I.updateCounterVoxel f v).last_lidar_occupied = v.last_lidar_occupied := by
  unfold updateCounterVoxel updateOccupancyCounter
  dsimp only
  refine ⟨?_, ?_, ?_, ?_⟩ <;> split_ifs <;> rfl

/-- The counter fields after the counter update, by cases on the branch of line 171. -/
theorem updateCounterVoxel_counters (I : EverFreeIntegrator) (f : Int) (v : TsdfVoxel) :
    (I.updateCounterVoxel f v).occ_counter =
        (if v.distance < I.config_.tsdf_occupancy_threshold ∨ v.last_lidar_occupied = f then
          (I.updateOccupancyCounter v f).occ_counter else v.occ_counter) ∧
      (I.updateCounterVoxel f v).last_occupied =
        (if v.distance < I.config_.tsdf_occupancy_threshold ∨ v.last_lidar_occupied = f then
          f else v.last_occupied) := by
  unfold updateCounterVoxel updateOccupancyCounter
  dsimp only
  constructor <;> split_ifs <;> rfl

/-- The reset of `dynamic` on a voxel whose last lidar hit is stale. -/
theorem updateCounterVoxel_dynamic (I : EverFreeIntegrator) (f : Int) (v : TsdfVoxel)
    (hstale : v.last_lidar_occupied < f - I.config_.temporal_buffer) :
    (I.updateCounterVoxel f v).dynamic = false := by
  unfold updateCounterVoxel updateOccupancyCounter
  dsimp only
  split_ifs <;> rfl

/-- The counter update reads no flag. -/
theorem updateCounterVoxel_sameButFlags (I : EverFreeIntegrator) (f : Int) {v v' : TsdfVoxel}
    (h : TsdfVoxel.SameButFlags v v') :
    TsdfVoxel.SameButFlags (I.updateCounterVoxel f v) (I.updateCounterVoxel f v') := by
  obtain ⟨h1, h2, h3, h4, h5⟩ := h
  unfold updateCounterVoxel updateOccupancyCounter TsdfVoxel.SameButFlags
  simp only [h1, h3, h4, h5]
  split_ifs <;> simp [h1, h2, h3, h4, h5]

/-- The counter update commutes with clearing the flags. -/
theorem updateCounterVoxel_clearEverFree (I : EverFreeIntegrator) (f : Int) (v : TsdfVoxel) :
    I.updateCounterVoxel f (clearEverFree v) = clearEverFree (I.updateCounterVoxel f v) := by
  unfold updateCounterVoxel updateOccupancyCounter clearEverFree
  dsimp only
  split_ifs <;> rfl

/-- Lines 170-176 write the visited voxel only. -/
theorem updateCounterStep_eq (I : EverFreeIntegrator) (f : Int) (b : TsdfBlock) (index : Nat) :
    I.updateCounterStep f b index =
      b.setVoxelByLinearIndex index (I.updateCounterVoxel f (b.voxels index)) := by
  rw [TsdfBlock.block_ext_iff]
  unfold updateCounterStep updateCounterVoxel
  simp only [TsdfBlock.getVoxelByLinearIndex_eq]
  constructor
  · intro j
    by_cases hj : j = index
    · subst hj
      split_ifs <;> simp_all
    · split_ifs <;> simp [hj]
  · split_ifs <;> rfl



/-- Exact effect of the neighbor loop of `removeEverFree` on the block: the voxels named by
a key of the own block are cleared, the others are kept. -/
theorem foldl_removeEverFreeStep_voxels (I : EverFreeIntegrator) (block_index : BlockIndex)
    (keys : List VoxelKey) (st : TsdfBlock × List VoxelKey) (j : Nat) :
    ((∃ key ∈ keys, key.1 = block_index ∧ I.computeLinearIndexFromVoxelIndex key.2 = j) →
      (keys.foldl (I.removeEverFreeStep block_index) st).1.voxels j =
        clearEverFree (st.1.voxels j)) ∧
    ((¬ ∃ key ∈ keys, key.1 = block_index ∧ I.computeLinearIndexFromVoxelIndex key.2 = j) →
      (keys.foldl (I.removeEverFreeStep block_index) st).1.voxels j = st.1.voxels j) := by
  induction keys generalizing st with
  | nil => simp
  | cons x rest ih =>
    simp only [List.foldl_cons]
    obtain ⟨ih1, ih2⟩ := ih (I.removeEverFreeStep block_index st x)
    have hx : (I.removeEverFreeStep block_index st x).1.voxels j =
        if x.1 = block_index ∧ I.computeLinearIndexFromVoxelIndex x.2 = j then
          clearEverFree (st.1.voxels j) else st.1.voxels j := by
      unfold removeEverFreeStep
      by_cases h1 : x.1 = block_index
      · by_cases h2 : I.computeLinearIndexFromVoxelIndex x.2 = j
        · subst h2
          simp [h1, getVoxelByVoxelIndex]
        · have h2' : ¬ j = I.computeLinearIndexFromVoxelIndex x.2 := fun h => h2 h.symm
          simp [h1, h2, h2']
      · simp [h1]
    by_cases hrest : ∃ key ∈ rest, key.1 = block_index ∧
        I.computeLinearIndexFromVoxelIndex key.2 = j
    · have hall : ∃ key ∈ x :: rest, key.1 = block_index ∧
          I.computeLinearIndexFromVoxelIndex key.2 = j := by
        obtain ⟨key, hk, hp⟩ := hrest
        exact ⟨key, List.mem_cons_of_mem _ hk, hp⟩
      refine ⟨fun _ => ?_, fun hn => absurd hall hn⟩
      rw [ih1 hrest, hx]
      split <;> rfl
    · by_cases hxc : x.1 = block_index ∧ I.computeLinearIndexFromVoxelIndex x.2 = j
      · have hall : ∃ key ∈ x :: rest, key.1 = block_index ∧
            I.computeLinearIndexFromVoxelIndex key.2 = j :=
          ⟨x, List.mem_cons_self _ _, hxc⟩
        refine ⟨fun _ => ?_, fun hn => absurd hall hn⟩
        rw [ih2 hrest, hx, if_pos hxc]
      · refine ⟨fun hall => ?_, fun _ => ?_⟩
        · exfalso
          obtain ⟨key, hk, hp⟩ := hall
          rcases List.mem_cons.mp hk with rfl | hk'
          · exact hxc hp
          · exact hrest ⟨key, hk', hp⟩
        · rw [ih2 hrest, hx, if_neg hxc]

/-- Exact effect of `removeEverFree` on the block: the voxel itself and its neighbors of
the own block are cleared, every other voxel is kept; the returned keys are the neighbor
keys of other blocks. -/
theorem removeEverFree_voxels (I : EverFreeIntegrator) (b : TsdfBlock) (index : Nat)
    (block_index : BlockIndex) (j : Nat) :
    ((j = index ∨ I.ownBlockNeighbor block_index index j) →
      (I.removeEverFree b index block_index (I.computeVoxelIndexFromLinearIndex index)).1.voxels j
        = clearEverFree (b.voxels j)) ∧
    (¬ (j = index ∨ I.ownBlockNeighbor block_index index j) →
      (I.removeEverFree b index block_index (I.computeVoxelIndexFromLinearIndex index)).1.voxels j
        = b.voxels j) := by
  unfold removeEverFree ownBlockNeighbor
  dsimp only
  obtain ⟨h1, h2⟩ := foldl_removeEverFreeStep_voxels I block_index
    (I.search block_index (I.computeVoxelIndexFromLinearIndex index) I.voxels_per_side_)
    (b.setVoxelByLinearIndex index (clearEverFree (b.getVoxelByLinearIndex index)), []) j
  by_cases hn : ∃ key ∈ I.search block_index (I.computeVoxelIndexFromLinearIndex index)
      I.voxels_per_side_, key.1 = block_index ∧ I.computeLinearIndexFromVoxelIndex key.2 = j
  · refine ⟨fun _ => ?_, fun h => absurd (Or.inr hn) h⟩
    rw [h1 hn]
    by_cases hj : j = index
    · subst hj; simp [clearEverFree]
    · simp [hj]
  · by_cases hj : j = index
    · refine ⟨fun _ => ?_, fun h => absurd (Or.inl hj) h⟩
      rw [h2 hn]
      subst hj; simp
    · refine ⟨fun h => ?_, fun _ => ?_⟩
      · rcases h with h | h
        · exact absurd h hj
        · exact absurd h hn
      · rw [h2 hn]
        simp [hj]

theorem removeEverFree_keys (I : EverFreeIntegrator) (b : TsdfBlock) (index : Nat)
    (block_index : BlockIndex) :
    (I.removeEverFree b index block_index (I.computeVoxelIndexFromLinearIndex index)).2 =
      I.foreignNeighborKeys block_index index :=
  (removeEverFree_spec I b index block_index _).1

/-- A removal changes no field but the two flags. -/
theorem removeEverFree_sameButFlags (I : EverFreeIntegrator) (b : TsdfBlock) (index : Nat)
    (block_index : BlockIndex) (j : Nat) :
    TsdfVoxel.SameButFlags (b.voxels j)
      ((I.removeEverFree b index block_index
        (I.computeVoxelIndexFromLinearIndex index)).1.voxels j) := by
  obtain ⟨h1, h2⟩ := removeEverFree_voxels I b index block_index j
  by_cases h : j = index ∨ I.ownBlockNeighbor block_index index j
  · rw [h1 h]; exact TsdfVoxel.sameButFlags_clearEverFree _
  · rw [h2 h]; exact TsdfVoxel.sameButFlags_refl _

/-- One iteration of the voxel loop, written with the counter update on the voxel value. -/
theorem updateEverFreeStep_eq (I : EverFreeIntegrator) (block_index : BlockIndex) (f : Int)
    (st : TsdfBlock × List VoxelKey) (index : Nat) :
    I.updateEverFreeStep block_index f st index =
      if (I.updateCounterVoxel f (st.1.voxels index)).occ_counter ≥ I.config_.counter_to_reset ∧
          (st.1.voxels index).ever_free = true then
        ((I.removeEverFree
            (st.1.setVoxelByLinearIndex index (I.updateCounterVoxel f (st.1.voxels index)))
            index block_index (I.computeVoxelIndexFromLinearIndex index)).1,
          st.2 ++ I.foreignNeighborKeys block_index index)
      else
        (st.1.setVoxelByLinearIndex index (I.updateCounterVoxel f (st.1.voxels index)), st.2) := by
  unfold updateEverFreeStep removalWarranted
  simp only [updateCounterStep_eq, TsdfBlock.getVoxelByLinearIndex_eq,
    TsdfBlock.voxels_setVoxelByLinearIndex, if_true, (updateCounterVoxel_kept I f _).1,
    removeEverFree_keys]

/-- An iteration of the voxel loop changes of a voxel other than the visited one at most
the flags, and gives the visited voxel the fields of its counter update. -/
theorem updateEverFreeStep_sameButFlags (I : EverFreeIntegrator) (block_index : BlockIndex)
    (f : Int) (st : TsdfBlock × List VoxelKey) (index j : Nat) :
    TsdfVoxel.SameButFlags
      (if j = index then I.updateCounterVoxel f (st.1.voxels index) else st.1.voxels j)
      ((I.updateEverFreeStep block_index f st index).1.voxels j) := by
  rw [updateEverFreeStep_eq]
  have hset : (st.1.setVoxelByLinearIndex index
      (I.updateCounterVoxel f (st.1.voxels index))).voxels j =
      if j = index then I.updateCounterVoxel f (st.1.voxels index) else st.1.voxels j := by
    simp
  rw [← hset]
  by_cases hw : (I.updateCounterVoxel f (st.1.voxels index)).occ_counter ≥
      I.config_.counter_to_reset ∧ (st.1.voxels index).ever_free = true
  · rw [if_pos hw]
    exact removeEverFree_sameButFlags I _ index block_index j
  · rw [if_neg hw]
    exact TsdfVoxel.sameButFlags_refl _

theorem updateEverFreeLoopOn_snoc (I : EverFreeIntegrator) (block_index : BlockIndex) (f : Int)
    (b : TsdfBlock) (l : List Nat) (n : Nat) :
    I.updateEverFreeLoopOn block_index f b (l ++ [n]) =
      I.updateEverFreeStep block_index f (I.updateEverFreeLoopOn block_index f b l) n := by
  unfold updateEverFreeLoopOn
  rw [List.foldl_append]
  rfl

theorem updateEverFreeLoop_eq_loopOn (I : EverFreeIntegrator) (block_index : BlockIndex)
    (f : Int) (b : TsdfBlock) (n : Nat) :
    I.updateEverFreeLoop block_index f b n =
      I.updateEverFreeLoopOn block_index f b (List.range n) := rfl

/-- After the voxel loop over a duplicate-free order, every visited voxel has the
non-flag fields of its counter update, every other voxel its old ones. -/
theorem updateEverFreeLoopOn_fields (I : EverFreeIntegrator) (block_index : BlockIndex)
    (f : Int) (b : TsdfBlock) (l : List Nat) (hl : l.Nodup) (j : Nat) :
    TsdfVoxel.SameButFlags
      (if j ∈ l then I.updateCounterVoxel f (b.voxels j) else b.voxels j)
      ((I.updateEverFreeLoopOn block_index f b l).1.voxels j) := by
  induction l using List.reverseRecOn with
  | nil => simpa [updateEverFreeLoopOn] using TsdfVoxel.sameButFlags_refl _
  | append_singleton l n ih =>
    have hnd := List.nodup_append.mp hl
    have hn : n ∉ l := fun h => hnd.2.2 h (List.mem_singleton_self n)
    have ih' := ih hnd.1
    rw [updateEverFreeLoopOn_snoc]
    have hstep := updateEverFreeStep_sameButFlags I block_index f
      (I.updateEverFreeLoopOn block_index f b l) n j
    refine TsdfVoxel.sameButFlags_trans ?_ hstep
    by_cases hj : j = n
    · subst hj
      simp only [List.mem_append, List.mem_singleton, or_true, if_true]
      have hprev : TsdfVoxel.SameButFlags (b.voxels j)
          ((I.updateEverFreeLoopOn block_index f b l).1.voxels j) := by
        simpa [hn] using ih'
      exact updateCounterVoxel_sameButFlags I f hprev
    · simp only [List.mem_append, List.mem_singleton, hj, or_false, if_false]
      exact ih'



/-- C14. Counter update trigger: after `blockWiseUpdateEverFree` on an existing block, a
voxel of the block with `distance < tsdf_occupancy_threshold` or
`last_lidar_occupied = frame_counter` has the counter fields of exactly one application
of `updateOccupancyCounter` to its old value, and every other voxel of the block has its
old `occ_counter` and `last_occupied`. -/
theorem C14_counter_update_trigger (I : EverFreeIntegrator) (layer : TsdfLayer)
    (block_index : BlockIndex) (frame_counter : Int) (block : TsdfBlock) (index : Nat)
    (hb : layer.getBlockPtrByIndex block_index = some block)
    (hi : index < I.voxels_per_block_) :
    ∃ block', (I.blockWiseUpdateEverFree layer block_index frame_counter []).1.getBlockPtrByIndex
        block_index = some block' ∧
      (((block.getVoxelByLinearIndex index).distance < I.config_.tsdf_occupancy_threshold ∨
          (block.getVoxelByLinearIndex index).last_lidar_occupied = frame_counter) →
        (block'.getVoxelByLinearIndex index).occ_counter =
          (I.updateOccupancyCounter (block.getVoxelByLinearIndex index) frame_counter).occ_counter ∧
        (block'.getVoxelByLinearIndex index).last_occupied =
          (I.updateOccupancyCounter (block.getVoxelByLinearIndex index)
            frame_counter).last_occupied) ∧
      (¬ ((block.getVoxelByLinearIndex index).distance < I.config_.tsdf_occupancy_threshold ∨
          (block.getVoxelByLinearIndex index).last_lidar_occupied = frame_counter) →
        (block'.getVoxelByLinearIndex index).occ_counter =
          (block.getVoxelByLinearIndex index).occ_counter ∧
        (block'.getVoxelByLinearIndex index).last_occupied =
          (block.getVoxelByLinearIndex index).last_occupied) := by
  simp only [TsdfLayer.getBlockPtrByIndex_eq, TsdfBlock.getVoxelByLinearIndex_eq] at *
  rw [blockWiseUpdateEverFree_of_some I layer block_index frame_counter [] block hb]
  simp only [TsdfLayer.block_map_setBlock, if_true, Option.some.injEq, exists_eq_left']
  have h := updateEverFreeLoopOn_fields I block_index frame_counter block
    (List.range I.voxels_per_block_) (List.nodup_range _) index
  rw [if_pos (List.mem_range.mpr hi)] at h
  obtain ⟨_, _, h3, h4, _⟩ := h
  obtain ⟨c1, c2⟩ := updateCounterVoxel_counters I frame_counter (block.voxels index)
  rw [updateEverFreeLoop_eq_loopOn, h3, h4, c1, c2]
  constructor
  · intro hc
    rw [if_pos hc, if_pos hc]
    exact ⟨rfl, rfl⟩
  · intro hc
    rw [if_neg hc, if_neg hc]
    exact ⟨rfl, rfl⟩

/-- Witness of C14 on a block at frame 8 whose voxel 13 was counted occupied at frames 6
and 7 (counter 2) and is hit again: its counter becomes 3 and `last_occupied` 8. -/
theorem C14_counter_update_trigger_witness :
    (singleBlockLayer (occupiedBlock [13])).getBlockPtrByIndex (0, 0, 0) =
      some (occupiedBlock [13]) ∧
    13 < sceneIntegrator.voxels_per_block_ ∧
    (((occupiedBlock [13]).getVoxelByLinearIndex 13).distance <
        sceneIntegrator.config_.tsdf_occupancy_threshold ∨
      ((occupiedBlock [13]).getVoxelByLinearIndex 13).last_lidar_occupied = 8) ∧
    ∃ block', (sceneIntegrator.blockWiseUpdateEverFree (singleBlockLayer (occupiedBlock [13]))
        (0, 0, 0) 8 []).1.getBlockPtrByIndex (0, 0, 0) = some block' ∧
      (block'.getVoxelByLinearIndex 13).occ_counter = 3 ∧
      (block'.getVoxelByLinearIndex 13).last_occupied = 8 := by
  obtain ⟨block', h1, h2, _⟩ := C14_counter_update_trigger sceneIntegrator
    (singleBlockLayer (occupiedBlock [13])) (0, 0, 0) 8 (occupiedBlock [13]) 13 rfl (by decide)
  exact ⟨rfl, by decide, Or.inr rfl, block', h1, h2 (Or.inr rfl)⟩

/-- A visited voxel whose last lidar hit is stale has `dynamic = false` after the loop. -/
theorem updateEverFreeLoopOn_dynamic (I : EverFreeIntegrator) (block_index : BlockIndex)
    (f : Int) (b : TsdfBlock) (l : List Nat) (j : Nat) (hj : j ∈ l)
    (hstale : (b.voxels j).last_lidar_occupied < f - I.config_.temporal_buffer) :
    ((I.updateEverFreeLoopOn block_index f b l).1.voxels j).dynamic = false := by
  induction l using List.reverseRecOn with
  | nil => simp at hj
  | append_singleton l n ih =>
    rw [updateEverFreeLoopOn_snoc]
    have hkeep : ∀ {v v' : TsdfVoxel}, TsdfVoxel.RemovalUpdate I.config_ f v v' →
        v.dynamic = false → v'.dynamic = false := by
      intro v v' hr hv
      cases hd : v'.dynamic with
      | false => rfl
      | true => exact absurd (hr.2.2.2.2.1 hd) (by simp [hv])
    by_cases hjl : j ∈ l
    · exact hkeep ((updateEverFreeStep_removalUpdate I f block_index _ n).2 j) (ih hjl)
    · have hjn : j = n := by
        rcases List.mem_append.mp hj with h | h
        · exact absurd h hjl
        · exact List.mem_singleton.mp h
      subst hjn
      have hru : TsdfBlock.RemovalUpdate I.config_ f b
          (I.updateEverFreeLoopOn block_index f b l).1 :=
        foldl_updateEverFreeStep_removalUpdate I f block_index l (b, [])
      have hl : ((I.updateEverFreeLoopOn block_index f b l).1.voxels j).last_lidar_occupied <
          f - I.config_.temporal_buffer := by
        rw [(hru.2 j).2.2.1]; exact hstale
      have hc := updateEverFreeStep_later_than_counter I f block_index
        (I.updateEverFreeLoopOn block_index f b l) j
      refine hkeep (hc.2 j) ?_
      rw [updateCounterStep_eq]
      simp only [TsdfBlock.voxels_setVoxelByLinearIndex, if_true]
      exact updateCounterVoxel_dynamic I f _ hl

/-- C15. Stale dynamic flags are cleared: a voxel of an existing block with
`last_lidar_occupied < frame_counter - temporal_buffer` has `dynamic = false` after
`blockWiseUpdateEverFree` on the block, whatever the counter branch and the removal
trigger did. -/
theorem C15_stale_dynamic_cleared (I : EverFreeIntegrator) (layer : TsdfLayer)
    (block_index : BlockIndex) (frame_counter : Int) (block : TsdfBlock) (index : Nat)
    (hb : layer.getBlockPtrByIndex block_index = some block)
    (hi : index < I.voxels_per_block_)
    (hstale : (block.getVoxelByLinearIndex index).last_lidar_occupied <
      frame_counter - I.config_.temporal_buffer) :
    ∃ block', (I.blockWiseUpdateEverFree layer block_index frame_counter []).1.getBlockPtrByIndex
        block_index = some block' ∧
      (block'.getVoxelByLinearIndex index).dynamic = false := by
  simp only [TsdfLayer.getBlockPtrByIndex_eq, TsdfBlock.getVoxelByLinearIndex_eq] at *
  rw [blockWiseUpdateEverFree_of_some I layer block_index frame_counter [] block hb]
  simp only [TsdfLayer.block_map_setBlock, if_true, Option.some.injEq, exists_eq_left']
  exact updateEverFreeLoopOn_dynamic I block_index frame_counter block _ index
    (List.mem_range.mpr hi) hstale

/-- Witness of C15: a block at frame 8 whose voxel 13 is flagged dynamic and was last hit
by the lidar at frame 0 (temporal buffer 2). -/
theorem C15_stale_dynamic_cleared_witness :
    (singleBlockLayer (dynamicBlock 0)).getBlockPtrByIndex (0, 0, 0) = some (dynamicBlock 0) ∧
    13 < sceneIntegrator.voxels_per_block_ ∧
    ((dynamicBlock 0).getVoxelByLinearIndex 13).dynamic = true ∧
    ((dynamicBlock 0).getVoxelByLinearIndex 13).last_lidar_occupied <
      8 - sceneIntegrator.config_.temporal_buffer ∧
    ∃ block', (sceneIntegrator.blockWiseUpdateEverFree (singleBlockLayer (dynamicBlock 0))
        (0, 0, 0) 8 []).1.getBlockPtrByIndex (0, 0, 0) = some block' ∧
      (block'.getVoxelByLinearIndex 13).dynamic = false :=
  ⟨rfl, by decide, rfl, by decide,
    C15_stale_dynamic_cleared sceneIntegrator (singleBlockLayer (dynamicBlock 0)) (0, 0, 0) 8
      (dynamicBlock 0) 13 rfl (by decide) (by decide)⟩

/-- Counterexample to C17 as stated: single block at frame 8, temporal buffer 2, counter to
reset 3.  The interior voxel is ever-free with `occ_counter = 3` left from observations
that ended at frame 0; it is free and not hit at frame 8, so the counter branch does not
apply, yet the trigger fires, with `last_occupied = 0 < 8 - 2`, and the voxel loses its
label. -/
theorem C17_removal_recent_counterexample :
    (singleBlockLayer staleCounterBlock).getBlockPtrByIndex (0, 0, 0) = some staleCounterBlock ∧
    sceneIntegrator.removalTriggerFires (0, 0, 0) 8 staleCounterBlock 13 ∧
    ¬ (((sceneIntegrator.updateCounterStep 8
        (sceneIntegrator.updateEverFreeLoop (0, 0, 0) 8 staleCounterBlock 13).1
          13).getVoxelByLinearIndex 13).last_occupied ≥
      8 - sceneIntegrator.config_.temporal_buffer) ∧
    ((sceneIntegrator.blockWiseUpdateEverFree (singleBlockLayer staleCounterBlock) (0, 0, 0) 8
        []).1.getBlockPtrByIndex (0, 0, 0)).map
      (fun b => (b.getVoxelByLinearIndex 13).ever_free) = some false := by
  refine ⟨rfl, by decide!, by decide!, by decide!⟩

/-- C17 (amended). What a firing removal trigger says about recency: if the removal trigger
fires for a voxel during `blockWiseUpdateEverFree`, then either the counter branch of line
171 applied to the voxel in this pass (`distance < tsdf_occupancy_threshold` or
`last_lidar_occupied = frame_counter`) and at that moment the voxel has
`last_occupied = frame_counter`, which is at least `frame_counter - temporal_buffer` when
`temporal_buffer` is not negative; or the branch did not apply, the counter had reached
`counter_to_reset` already on the block as the pass found it, and `last_occupied` is the
one the pass found.  In particular, when the counter was below `counter_to_reset` before
the pass, the firing trigger has `last_occupied = frame_counter`, and for
`counter_to_reset ≥ 2` the observation counted before it was recent as well: the
`last_occupied` that the pass found is at least `frame_counter - temporal_buffer`. -/
theorem C17_removal_recent_unless_stale (I : EverFreeIntegrator) (block_index : BlockIndex)
    (frame_counter : Int) (block : TsdfBlock) (index : Nat)
    (hfire : I.removalTriggerFires block_index frame_counter block index) :
    ((((block.getVoxelByLinearIndex index).distance < I.config_.tsdf_occupancy_threshold ∨
          (block.getVoxelByLinearIndex index).last_lidar_occupied = frame_counter) ∧
        ((I.updateCounterStep frame_counter
          (I.updateEverFreeLoop block_index frame_counter block index).1
            index).getVoxelByLinearIndex index).last_occupied = frame_counter ∧
        (0 ≤ I.config_.temporal_buffer →
          ((I.updateCounterStep frame_counter
            (I.updateEverFreeLoop block_index frame_counter block index).1
              index).getVoxelByLinearIndex index).last_occupied ≥
            frame_counter - I.config_.temporal_buffer)) ∨
      (¬ ((block.getVoxelByLinearIndex index).distance < I.config_.tsdf_occupancy_threshold ∨
          (block.getVoxelByLinearIndex index).last_lidar_occupied = frame_counter) ∧
        (block.getVoxelByLinearIndex index).occ_counter ≥ I.config_.counter_to_reset ∧
        ((I.updateCounterStep frame_counter
          (I.updateEverFreeLoop block_index frame_counter block index).1
            index).getVoxelByLinearIndex index).last_occupied =
          (block.getVoxelByLinearIndex index).last_occupied)) ∧
    ((block.getVoxelByLinearIndex index).occ_counter < I.config_.counter_to_reset →
      ((I.updateCounterStep frame_counter
        (I.updateEverFreeLoop block_index frame_counter block index).1
          index).getVoxelByLinearIndex index).last_occupied = frame_counter ∧
      (2 ≤ I.config_.counter_to_reset →
        (block.getVoxelByLinearIndex index).last_occupied ≥
          frame_counter - I.config_.temporal_buffer)) := by
  have hf := updateEverFreeLoopOn_fields I block_index frame_counter block (List.range index)
    (List.nodup_range index) index
  rw [if_neg (by simp), ← updateEverFreeLoop_eq_loopOn] at hf
  obtain ⟨e1, _, e3, e4, e5⟩ := hf
  unfold removalTriggerFires removalWarranted at hfire
  rw [updateCounterStep_eq] at hfire ⊢
  simp only [TsdfBlock.getVoxelByLinearIndex_eq, TsdfBlock.voxels_setVoxelByLinearIndex,
    if_true] at hfire ⊢
  obtain ⟨hc1, hc2⟩ := updateCounterVoxel_counters I frame_counter
    ((I.updateEverFreeLoop block_index frame_counter block index).1.voxels index)
  rw [e1, e5] at hc1 hc2
  by_cases hbr : (block.voxels index).distance < I.config_.tsdf_occupancy_threshold ∨
      (block.voxels index).last_lidar_occupied = frame_counter
  · rw [if_pos hbr] at hc1 hc2
    refine ⟨Or.inl ⟨hbr, hc2, fun htb => ?_⟩, fun _ => ⟨hc2, fun hreset => ?_⟩⟩
    · rw [hc2]
      omega
    · by_contra hold
      have hone : (I.updateOccupancyCounter
          ((I.updateEverFreeLoop block_index frame_counter block index).1.voxels index)
          frame_counter).occ_counter = 1 := by
        unfold updateOccupancyCounter
        rw [e4, if_neg hold]
      have := hfire.1
      rw [hc1, hone] at this
      omega
  · rw [if_neg hbr] at hc1 hc2
    have hold : (block.voxels index).occ_counter ≥ I.config_.counter_to_reset := by
      rw [← e3, ← hc1]
      exact hfire.1
    refine ⟨Or.inr ⟨hbr, hold, by rw [hc2, e4]⟩, fun hlt => ?_⟩
    omega

/-- Witness of C17 (amended): the interior voxel of a block, counted occupied at frames 6
and 7 (counter 2, below the threshold 3) and hit again at frame 8, fires with
`last_occupied = 8`. -/
theorem C17_removal_recent_unless_stale_witness :
    sceneIntegrator.removalTriggerFires (0, 0, 0) 8 (occupiedBlock [13]) 13 ∧
    ((occupiedBlock [13]).getVoxelByLinearIndex 13).occ_counter <
      sceneIntegrator.config_.counter_to_reset ∧
    2 ≤ sceneIntegrator.config_.counter_to_reset ∧
    ((sceneIntegrator.updateCounterStep 8
      (sceneIntegrator.updateEverFreeLoop (0, 0, 0) 8 (occupiedBlock [13]) 13).1
        13).getVoxelByLinearIndex 13).last_occupied = 8 ∧
    ((occupiedBlock [13]).getVoxelByLinearIndex 13).last_occupied ≥
      8 - sceneIntegrator.config_.temporal_buffer :=
  ⟨by decide!, by decide, by decide,
    ((C17_removal_recent_unless_stale sceneIntegrator (0, 0, 0) 8 (occupiedBlock [13]) 13
      (by decide!)).2 (by decide)).1,
    ((C17_removal_recent_unless_stale sceneIntegrator (0, 0, 0) 8 (occupiedBlock [13]) 13
      (by decide!)).2 (by decide)).2 (by decide)⟩



/-! ## The dynamic flag is only ever cleared -/

theorem TsdfVoxel.keptOrCleared_refl (v : TsdfVoxel) : TsdfVoxel.KeptOrCleared v v :=
  Or.inl ⟨rfl, fun h => h⟩

theorem TsdfVoxel.keptOrCleared_trans {u v w : TsdfVoxel} (h1 : TsdfVoxel.KeptOrCleared u v)
    (h2 : TsdfVoxel.KeptOrCleared v w) : TsdfVoxel.KeptOrCleared u w := by
  rcases h2 with ⟨e2, d2⟩ | c2
  · rcases h1 with ⟨e1, d1⟩ | c1
    · exact Or.inl ⟨e2.trans e1, fun h => d1 (d2 h)⟩
    · right
      refine ⟨e2.trans c1.1, ?_⟩
      cases hd : w.dynamic with
      | false => rfl
      | true => exact absurd (d2 hd) (by simp [c1.2])
  · exact Or.inr c2

theorem TsdfVoxel.keptOrCleared_clearEverFree (v : TsdfVoxel) :
    TsdfVoxel.KeptOrCleared v (clearEverFree v) :=
  Or.inr ⟨rfl, rfl⟩

theorem updateCounterVoxel_keptOrCleared (I : EverFreeIntegrator) (f : Int) (v : TsdfVoxel) :
    TsdfVoxel.KeptOrCleared v (I.updateCounterVoxel f v) := by
  refine Or.inl ⟨(updateCounterVoxel_kept I f v).1, ?_⟩
  unfold updateCounterVoxel updateOccupancyCounter
  dsimp only
  split_ifs <;> simp

theorem TsdfBlock.block_keptOrCleared_refl (b : TsdfBlock) : TsdfBlock.KeptOrCleared b b :=
  fun _ => TsdfVoxel.keptOrCleared_refl _

theorem TsdfBlock.block_keptOrCleared_trans {a b c : TsdfBlock}
    (h1 : TsdfBlock.KeptOrCleared a b) (h2 : TsdfBlock.KeptOrCleared b c) :
    TsdfBlock.KeptOrCleared a c :=
  fun j => TsdfVoxel.keptOrCleared_trans (h1 j) (h2 j)

theorem updateEverFreeStep_keptOrCleared (I : EverFreeIntegrator) (block_index : BlockIndex)
    (f : Int) (st : TsdfBlock × List VoxelKey) (index : Nat) :
    TsdfBlock.KeptOrCleared st.1 (I.updateEverFreeStep block_index f st index).1 := by
  intro j
  have hset : TsdfVoxel.KeptOrCleared (st.1.voxels j)
      ((st.1.setVoxelByLinearIndex index (I.updateCounterVoxel f (st.1.voxels index))).voxels j)
      := by
    by_cases hj : j = index
    · subst hj
      simpa using updateCounterVoxel_keptOrCleared I f (st.1.voxels j)
    · simpa [hj] using TsdfVoxel.keptOrCleared_refl (st.1.voxels j)
  rw [updateEverFreeStep_eq]
  by_cases hw : (I.updateCounterVoxel f (st.1.voxels index)).occ_counter ≥
      I.config_.counter_to_reset ∧ (st.1.voxels index).ever_free = true
  · rw [if_pos hw]
    obtain ⟨h1, h2⟩ := removeEverFree_voxels I
      (st.1.setVoxelByLinearIndex index (I.updateCounterVoxel f (st.1.voxels index))) index
      block_index j
    by_cases hc : j = index ∨ I.ownBlockNeighbor block_index index j
    · rw [h1 hc]
      exact Or.inr (TsdfVoxel.cleared_clearEverFree _)
    · rw [h2 hc]
      exact hset
  · rw [if_neg hw]
    exact hset

theorem updateEverFreeLoopOn_keptOrCleared (I : EverFreeIntegrator) (block_index : BlockIndex)
    (f : Int) (b : TsdfBlock) (l : List Nat) :
    TsdfBlock.KeptOrCleared b (I.updateEverFreeLoopOn block_index f b l).1 := by
  induction l using List.reverseRecOn with
  | nil => exact TsdfBlock.block_keptOrCleared_refl b
  | append_singleton l n ih =>
    rw [updateEverFreeLoopOn_snoc]
    exact TsdfBlock.block_keptOrCleared_trans ih
      (updateEverFreeStep_keptOrCleared I block_index f _ n)

theorem TsdfLayer.layer_keptOrCleared_refl (layer : TsdfLayer) :
    TsdfLayer.Blockwise TsdfBlock.KeptOrCleared layer layer :=
  TsdfLayer.blockwise_refl TsdfBlock.KeptOrCleared TsdfBlock.block_keptOrCleared_refl layer

theorem TsdfLayer.layer_keptOrCleared_trans {l1 l2 l3 : TsdfLayer}
    (h1 : TsdfLayer.Blockwise TsdfBlock.KeptOrCleared l1 l2)
    (h2 : TsdfLayer.Blockwise TsdfBlock.KeptOrCleared l2 l3) :
    TsdfLayer.Blockwise TsdfBlock.KeptOrCleared l1 l3 :=
  TsdfLayer.blockwise_trans TsdfBlock.KeptOrCleared
    (fun _ _ _ h h' => TsdfBlock.block_keptOrCleared_trans h h') h1 h2

theorem blockWiseUpdateEverFree_keptOrCleared (I : EverFreeIntegrator) (layer : TsdfLayer)
    (block_index : BlockIndex) (f : Int) :
    TsdfLayer.Blockwise TsdfBlock.KeptOrCleared layer
      (I.blockWiseUpdateEverFree layer block_index f []).1 := by
  cases hb : layer.block_map block_index with
  | none =>
    rw [blockWiseUpdateEverFree_of_none I layer block_index f [] hb]
    exact TsdfLayer.layer_keptOrCleared_refl layer
  | some b =>
    rw [blockWiseUpdateEverFree_of_some I layer block_index f [] b hb]
    exact TsdfLayer.blockwise_setBlock TsdfBlock.KeptOrCleared
      TsdfBlock.block_keptOrCleared_refl layer block_index b _ hb
      (updateEverFreeLoopOn_keptOrCleared I block_index f b _)

theorem removeOccupied_keptOrCleared (I : EverFreeIntegrator) (f : Int)
    (indices : List BlockIndex) (st : TsdfLayer × List VoxelKey) :
    TsdfLayer.Blockwise TsdfBlock.KeptOrCleared st.1 (I.removeOccupied f st indices).1 := by
  induction indices generalizing st with
  | nil => exact TsdfLayer.layer_keptOrCleared_refl _
  | cons x rest ih =>
    rw [removeOccupied_cons_append]
    exact TsdfLayer.layer_keptOrCleared_trans
      (blockWiseUpdateEverFree_keptOrCleared I st.1 x f) (ih _)

theorem removeRemainingStep_keptOrCleared (I : EverFreeIntegrator) (layer : TsdfLayer)
    (key : VoxelKey) :
    TsdfLayer.Blockwise TsdfBlock.KeptOrCleared layer (I.removeRemainingStep layer key) := by
  unfold removeRemainingStep
  simp only [TsdfLayer.getBlockPtrByIndex_eq]
  cases hb : layer.block_map key.1 with
  | none => exact TsdfLayer.layer_keptOrCleared_refl layer
  | some b =>
    refine TsdfLayer.blockwise_setBlock TsdfBlock.KeptOrCleared
      TsdfBlock.block_keptOrCleared_refl layer key.1 b _ hb (fun j => ?_)
    by_cases hj : j = I.computeLinearIndexFromVoxelIndex key.2
    · subst hj
      simpa [getVoxelByVoxelIndex] using TsdfVoxel.keptOrCleared_clearEverFree _
    · simpa [hj] using TsdfVoxel.keptOrCleared_refl _

theorem removeOccupiedAndMerge_keptOrCleared (I : EverFreeIntegrator) (layer : TsdfLayer)
    (f : Int) (indices : List BlockIndex) :
    TsdfLayer.Blockwise TsdfBlock.KeptOrCleared layer
      (I.removeOccupiedAndMerge layer f indices) := by
  unfold removeOccupiedAndMerge
  exact TsdfLayer.layer_keptOrCleared_trans
    (removeOccupied_keptOrCleared I f indices (layer, []))
    (TsdfLayer.blockwise_foldl TsdfBlock.KeptOrCleared TsdfBlock.block_keptOrCleared_refl
      (fun _ _ _ h h' => TsdfBlock.block_keptOrCleared_trans h h') _
      (removeRemainingStep_keptOrCleared I) _ _)

/-- A voxel of a block of the updated list whose last lidar hit is stale has
`dynamic = false` after phase 1 and the merge. -/
theorem removeOccupiedAndMerge_stale_dynamic (I : EverFreeIntegrator) (layer : TsdfLayer)
    (f : Int) (indices : List BlockIndex) (k : BlockIndex) (b bM : TsdfBlock) (j : Nat)
    (hk : k ∈ indices) (hj : j < I.voxels_per_block_)
    (hb : layer.block_map k = some b)
    (hbM : (I.removeOccupiedAndMerge layer f indices).block_map k = some bM)
    (hstale : (b.voxels j).last_lidar_occupied < f - I.config_.temporal_buffer) :
    (bM.voxels j).dynamic = false := by
  obtain ⟨pre, post, rfl⟩ := List.append_of_mem hk
  obtain ⟨b1, hb1, hr1⟩ := ((removeOccupied_removalUpdate I f pre (layer, [])).2 k).2 b hb
  obtain ⟨b', hb', hlater⟩ := removeOccupiedAndMerge_later_than_pass I layer f pre post k b1 hb1
  rw [hbM] at hb'
  cases hb'
  have hl : (b1.voxels j).last_lidar_occupied < f - I.config_.temporal_buffer := by
    rw [(hr1.2 j).2.2.1]; exact hstale
  have hd := updateEverFreeLoopOn_dynamic I k f b1 (List.range I.voxels_per_block_) j
    (List.mem_range.mpr hj) hl
  cases hv : (bM.voxels j).dynamic with
  | false => rfl
  | true =>
    have := (hlater.2 j).2.2.2.2.1 hv
    rw [updateEverFreeLoop_eq_loopOn, hd] at this
    exact absurd this (by simp)

/-- Counterexample to C18 as stated: a voxel that is flagged dynamic, not ever-free and hit
by the lidar at frame 8 is still dynamic after `updateEverFreeVoxels` at frame 8, though
its `ever_free` was false before the update. -/
theorem C18_dynamic_invariant_counterexample :
    (singleBlockLayer (dynamicBlock 8)).getBlockPtrByIndex (0, 0, 0) = some (dynamicBlock 8) ∧
    ((dynamicBlock 8).getVoxelByLinearIndex 13).ever_free = false ∧
    ∃ block', (sceneIntegrator.updateEverFreeVoxels (singleBlockLayer (dynamicBlock 8))
        8).getBlockPtrByIndex (0, 0, 0) = some block' ∧
      (block'.getVoxelByLinearIndex 13).dynamic = true := by
  refine ⟨rfl, rfl, ?_⟩
  have h : ((sceneIntegrator.updateEverFreeVoxels (singleBlockLayer (dynamicBlock 8))
      8).getBlockPtrByIndex (0, 0, 0)).map (fun b => (b.getVoxelByLinearIndex 13).dynamic) =
        some true := by decide!
  obtain ⟨b, hb, hv⟩ := Option.map_eq_some'.mp h
  exact ⟨b, hb, hv⟩

/-- C18 (amended). The engine only clears the dynamic flag: if a voxel has `dynamic = true`
after `updateEverFreeVoxels`, then it had `dynamic = true` before the update, it did not
lose an ever-free label in this update (a removal clears `dynamic` as well), and, when the
passes have a worker (`num_threads ≥ 1`) and it is a voxel of a block of the updated set,
its `last_lidar_occupied` is at least `frame_counter - temporal_buffer`. -/
theorem C18_dynamic_only_cleared (I : EverFreeIntegrator) (layer : TsdfLayer)
    (frame_counter : Int) (block_index : BlockIndex) (block block' : TsdfBlock) (index : Nat)
    (hb : layer.getBlockPtrByIndex block_index = some block)
    (hb' : (I.updateEverFreeVoxels layer frame_counter).getBlockPtrByIndex block_index =
      some block')
    (hdyn : (block'.getVoxelByLinearIndex index).dynamic = true) :
    (block.getVoxelByLinearIndex index).dynamic = true ∧
    ((block.getVoxelByLinearIndex index).ever_free = true →
      (block'.getVoxelByLinearIndex index).ever_free = true) ∧
    (I.config_.num_threads ≥ 1 → block_index ∈ layer.getAllUpdatedBlocks →
      index < I.voxels_per_block_ →
      (block.getVoxelByLinearIndex index).last_lidar_occupied ≥
        frame_counter - I.config_.temporal_buffer) := by
  simp only [TsdfLayer.getBlockPtrByIndex_eq, TsdfBlock.getVoxelByLinearIndex_eq] at *
  unfold updateEverFreeVoxels updateEverFreeVoxelsOn at hb'
  obtain ⟨bM, hbM, hkc⟩ := ((removeOccupiedAndMerge_keptOrCleared I layer frame_counter
    (I.takenIndices layer.getAllUpdatedBlocks)).2 block_index).2 block hb
  obtain ⟨b2, hb2, hlu⟩ := ((labelFree_labelUpdate I frame_counter
    (I.removeOccupiedAndMerge layer frame_counter (I.takenIndices layer.getAllUpdatedBlocks))
    (I.takenIndices layer.getAllUpdatedBlocks)).2 block_index).2 bM hbM
  rw [hb'] at hb2
  cases hb2
  obtain ⟨_, _, e3, _, _, _, e7⟩ := TsdfVoxel.labelUpdate_frame (hlu.2 index)
  have hdM : (bM.voxels index).dynamic = true := by rw [← e3]; exact hdyn
  have hkept : (bM.voxels index).ever_free = (block.voxels index).ever_free ∧
      ((bM.voxels index).dynamic = true → (block.voxels index).dynamic = true) := by
    rcases hkc index with h | h
    · exact h
    · rw [h.2] at hdM
      exact absurd hdM (by simp)
  refine ⟨hkept.2 hdM, fun hef => e7 (by rw [hkept.1]; exact hef), fun hworkers hupd hi => ?_⟩
  by_contra hlt
  have hstale : (block.voxels index).last_lidar_occupied <
      frame_counter - I.config_.temporal_buffer := by omega
  rw [takenIndices_of_workers I _ hworkers] at hbM
  have := removeOccupiedAndMerge_stale_dynamic I layer frame_counter layer.getAllUpdatedBlocks
    block_index block bM index hupd hi hb hbM hstale
  rw [this] at hdM
  exact absurd hdM (by simp)



/-- Witness of C18 (amended): with one worker, the interior voxel of the block, flagged
dynamic and hit by the lidar at frame 8, keeps the flag through the update of frame 8. -/
theorem C18_dynamic_only_cleared_witness :
    sceneIntegrator.config_.num_threads ≥ 1 ∧
    (singleBlockLayer (dynamicBlock 8)).getBlockPtrByIndex (0, 0, 0) = some (dynamicBlock 8) ∧
    ∃ block', (sceneIntegrator.updateEverFreeVoxels (singleBlockLayer (dynamicBlock 8))
        8).getBlockPtrByIndex (0, 0, 0) = some block' ∧
      (block'.getVoxelByLinearIndex 13).dynamic = true ∧
      ((dynamicBlock 8).getVoxelByLinearIndex 13).dynamic = true ∧
      ((dynamicBlock 8).getVoxelByLinearIndex 13).last_lidar_occupied ≥
        8 - sceneIntegrator.config_.temporal_buffer := by
  have h : ((sceneIntegrator.updateEverFreeVoxels (singleBlockLayer (dynamicBlock 8))
      8).getBlockPtrByIndex (0, 0, 0)).map (fun b => (b.getVoxelByLinearIndex 13).dynamic) =
        some true := by decide!
  obtain ⟨b, hb, hv⟩ := Option.map_eq_some'.mp h
  have hC := C18_dynamic_only_cleared sceneIntegrator (singleBlockLayer (dynamicBlock 8)) 8
    (0, 0, 0) (dynamicBlock 8) b 13 rfl hb hv
  exact ⟨by decide, rfl, b, hb, hv, hC.1, hC.2.2 (by decide) (by decide) (by decide)⟩



/-! ## Construction with a null handle -/

/-- C13. Construction with a null layer handle, evaluated on the constructor: the member
initialisers read `voxel_size` through the handle before the body reaches
`CHECK_NOTNULL`, so for every configuration the construction ends in the null
dereference, not in the fatal check. -/
theorem C13_null_handle_dereferenced_before_check (config : EverFreeCfg) :
    EverFreeIntegrator.construct config none =
      Except.error ConstructionFailure.nullDereference ∧
    EverFreeIntegrator.construct config none ≠ Except.error ConstructionFailure.fatalCheck := by
  constructor
  · rfl
  · intro h
    have h' : (Except.error ConstructionFailure.nullDereference :
        Except ConstructionFailure EverFreeIntegrator) =
        Except.error ConstructionFailure.fatalCheck := h
    cases h'

/-! ## Visiting order of the voxels inside a block -/

theorem clearedDuring_snoc (I : EverFreeIntegrator) (k : BlockIndex) (f : Int) (b : TsdfBlock)
    (l : List Nat) (n j : Nat) :
    I.clearedDuring k f b (l ++ [n]) j ↔
      I.clearedDuring k f b l j ∨
        (I.removalCandidate f b n ∧ (j = n ∨ I.ownBlockNeighbor k n j)) := by
  unfold clearedDuring
  constructor
  · rintro ⟨i, hi, hc⟩
    rcases List.mem_append.mp hi with h | h
    · exact Or.inl ⟨i, h, hc⟩
    · rw [List.mem_singleton.mp h] at hc
      exact Or.inr hc
  · rintro (⟨i, hi, hc⟩ | hc)
    · exact ⟨i, List.mem_append_left _ hi, hc⟩
    · exact ⟨n, List.mem_append_right _ (List.mem_singleton_self n), hc⟩

theorem visitedVoxel_snoc_self (I : EverFreeIntegrator) (f : Int) (b : TsdfBlock)
    (l : List Nat) (n : Nat) :
    I.visitedVoxel f b (l ++ [n]) n = I.updateCounterVoxel f (b.voxels n) := by
  simp [visitedVoxel]

theorem visitedVoxel_snoc_of_ne (I : EverFreeIntegrator) (f : Int) (b : TsdfBlock)
    (l : List Nat) (n j : Nat) (hj : j ≠ n) :
    I.visitedVoxel f b (l ++ [n]) j = I.visitedVoxel f b l j := by
  simp [visitedVoxel, hj]

theorem visitedVoxel_of_not_mem (I : EverFreeIntegrator) (f : Int) (b : TsdfBlock)
    (l : List Nat) (n : Nat) (hn : n ∉ l) : I.visitedVoxel f b l n = b.voxels n := by
  simp [visitedVoxel, hn]

/-- State of the block and of the output vector after the per-voxel step has been run over
a duplicate-free order in which no two candidates are neighbors in the own block: exactly
the candidates fire; a voxel is cleared when a candidate clears it, and has its counter
update applied when the order visits it. -/
theorem updateEverFreeLoopOn_spec (I : EverFreeIntegrator) (k : BlockIndex) (f : Int)
    (b : TsdfBlock) (l : List Nat) (hl : l.Nodup)
    (hsep : ∀ i ∈ l, ∀ j ∈ l, i ≠ j → I.removalCandidate f b i → I.removalCandidate f b j →
      ¬ I.ownBlockNeighbor k i j) :
    (∀ j, (I.clearedDuring k f b l j →
        (I.updateEverFreeLoopOn k f b l).1.voxels j = clearEverFree (I.visitedVoxel f b l j)) ∧
      (¬ I.clearedDuring k f b l j →
        (I.updateEverFreeLoopOn k f b l).1.voxels j = I.visitedVoxel f b l j)) ∧
    (I.updateEverFreeLoopOn k f b l).1.updated_kEsdf = b.updated_kEsdf ∧
    (I.updateEverFreeLoopOn k f b l).2 =
      (l.filter (fun i => decide (I.removalCandidate f b i))).flatMap
        (I.foreignNeighborKeys k) := by
  induction l using List.reverseRecOn with
  | nil =>
    refine ⟨fun j => ⟨fun h => ?_, fun _ => ?_⟩, rfl, rfl⟩
    · obtain ⟨i, hi, _⟩ := h
      simp at hi
    · simp [updateEverFreeLoopOn, visitedVoxel]
  | append_singleton l n ih =>
    have hnd := List.nodup_append.mp hl
    have hn : n ∉ l := fun h => hnd.2.2 h (List.mem_singleton_self n)
    obtain ⟨ihv, ihu, ihk⟩ := ih hnd.1 (fun i hi j hj =>
      hsep i (List.mem_append_left _ hi) j (List.mem_append_left _ hj))
    -- the voxel `n` as the loop finds it
    have hfields := updateEverFreeLoopOn_fields I k f b l hnd.1 n
    rw [if_neg hn] at hfields
    have hcnt : (I.updateCounterVoxel f ((I.updateEverFreeLoopOn k f b l).1.voxels n)).occ_counter
        = (I.updateCounterVoxel f (b.voxels n)).occ_counter :=
      (updateCounterVoxel_sameButFlags I f hfields).2.2.1
    have hcand_clean : I.removalCandidate f b n → ¬ I.clearedDuring k f b l n := by
      rintro hc ⟨i, hi, hci, hor⟩
      have hne : i ≠ n := fun h => hn (h ▸ hi)
      rcases hor with h | h
      · exact hne h.symm
      · exact hsep i (List.mem_append_left _ hi) n
          (List.mem_append_right _ (List.mem_singleton_self n)) hne hci hc h
    have hfires : ((I.updateCounterVoxel f
          ((I.updateEverFreeLoopOn k f b l).1.voxels n)).occ_counter ≥
          I.config_.counter_to_reset ∧
        ((I.updateEverFreeLoopOn k f b l).1.voxels n).ever_free = true) ↔
        I.removalCandidate f b n := by
      rw [hcnt]
      unfold removalCandidate
      constructor
      · rintro ⟨h1, h2⟩
        refine ⟨h1, ?_⟩
        by_cases hcl : I.clearedDuring k f b l n
        · rw [(ihv n).1 hcl] at h2
          exact absurd h2 (by simp [clearEverFree])
        · rw [(ihv n).2 hcl, visitedVoxel_of_not_mem I f b l n hn] at h2
          exact h2
      · rintro ⟨h1, h2⟩
        refine ⟨h1, ?_⟩
        rw [(ihv n).2 (hcand_clean ⟨h1, h2⟩), visitedVoxel_of_not_mem I f b l n hn]
        exact h2
    rw [updateEverFreeLoopOn_snoc, updateEverFreeStep_eq]
    by_cases hc : I.removalCandidate f b n
    · -- the trigger fires at `n`
      rw [if_pos (hfires.mpr hc)]
      have hcur : (I.updateEverFreeLoopOn k f b l).1.voxels n = b.voxels n := by
        rw [(ihv n).2 (hcand_clean hc), visitedVoxel_of_not_mem I f b l n hn]
      refine ⟨fun j => ?_, ?_, ?_⟩
      · obtain ⟨r1, r2⟩ := removeEverFree_voxels I
          ((I.updateEverFreeLoopOn k f b l).1.setVoxelByLinearIndex n
            (I.updateCounterVoxel f ((I.updateEverFreeLoopOn k f b l).1.voxels n))) n k j
        dsimp only
        rw [clearedDuring_snoc]
        by_cases hjn : j = n
        · subst hjn
          refine ⟨fun _ => ?_, fun h => absurd (Or.inr ⟨hc, Or.inl rfl⟩) h⟩
          rw [r1 (Or.inl rfl), visitedVoxel_snoc_self, hcur]
          simp
        · rw [visitedVoxel_snoc_of_ne I f b l n j hjn]
          by_cases hnb : I.ownBlockNeighbor k n j
          · refine ⟨fun _ => ?_, fun h => absurd (Or.inr ⟨hc, Or.inr hnb⟩) h⟩
            rw [r1 (Or.inr hnb)]
            simp only [TsdfBlock.voxels_setVoxelByLinearIndex, hjn, if_false]
            by_cases hcl : I.clearedDuring k f b l j
            · rw [(ihv j).1 hcl, clearEverFree_idem]
            · rw [(ihv j).2 hcl]
          · have hno : ¬ (j = n ∨ I.ownBlockNeighbor k n j) := by
              rintro (h | h)
              · exact hjn h
              · exact hnb h
            rw [r2 hno]
            simp only [TsdfBlock.voxels_setVoxelByLinearIndex, hjn, if_false]
            refine ⟨fun h => ?_, fun h => ?_⟩
            · rcases h with h | h
              · exact (ihv j).1 h
              · rcases h.2 with h' | h'
                · exact absurd h' (by simp)
                · exact absurd h' hnb
            · exact (ihv j).2 (fun h' => h (Or.inl h'))
      · dsimp only
        have hru := removeEverFree_removalUpdate I 0
          ((I.updateEverFreeLoopOn k f b l).1.setVoxelByLinearIndex n
            (I.updateCounterVoxel f ((I.updateEverFreeLoopOn k f b l).1.voxels n))) n k
          (I.computeVoxelIndexFromLinearIndex n)
        rw [hru.1]
        exact ihu
      · dsimp only
        rw [ihk, List.filter_append, List.flatMap_append]
        simp [List.filter, hc]
    · -- the trigger does not fire at `n`
      rw [if_neg (fun h => hc (hfires.mp h))]
      refine ⟨fun j => ?_, ihu, ?_⟩
      · dsimp only
        have hiff : I.clearedDuring k f b (l ++ [n]) j ↔ I.clearedDuring k f b l j := by
          rw [clearedDuring_snoc]
          constructor
          · rintro (h | h)
            · exact h
            · exact absurd h.1 hc
          · exact fun h => Or.inl h
        rw [hiff]
        by_cases hjn : j = n
        · subst hjn
          simp only [TsdfBlock.voxels_setVoxelByLinearIndex, if_true, visitedVoxel_snoc_self]
          refine ⟨fun h => ?_, fun h => ?_⟩
          · rw [(ihv j).1 h, visitedVoxel_of_not_mem I f b l j hn,
              updateCounterVoxel_clearEverFree]
          · rw [(ihv j).2 h, visitedVoxel_of_not_mem I f b l j hn]
        · simp only [TsdfBlock.voxels_setVoxelByLinearIndex, hjn, if_false,
            visitedVoxel_snoc_of_ne I f b l n j hjn]
          exact ihv j
      · dsimp only
        rw [ihk, List.filter_append, List.flatMap_append]
        simp [List.filter, hc]



theorem clearedDuring_congr (I : EverFreeIntegrator) (k : BlockIndex) (f : Int) (b : TsdfBlock)
    (l l' : List Nat) (hmem : ∀ i, i ∈ l ↔ i ∈ l') (j : Nat) :
    I.clearedDuring k f b l j ↔ I.clearedDuring k f b l' j := by
  unfold clearedDuring
  constructor
  · rintro ⟨i, hi, hc⟩
    exact ⟨i, (hmem i).mp hi, hc⟩
  · rintro ⟨i, hi, hc⟩
    exact ⟨i, (hmem i).mpr hi, hc⟩

theorem visitedVoxel_congr (I : EverFreeIntegrator) (f : Int) (b : TsdfBlock)
    (l l' : List Nat) (hmem : ∀ i, i ∈ l ↔ i ∈ l') (j : Nat) :
    I.visitedVoxel f b l j = I.visitedVoxel f b l' j := by
  unfold visitedVoxel
  by_cases hj : j ∈ l
  · rw [if_pos hj, if_pos ((hmem j).mp hj)]
  · rw [if_neg hj, if_neg (fun h => hj ((hmem j).mpr h))]

/-- Counterexample to C16 as stated: block of 27 ever-free voxels at frame 8 whose voxels
12 and 13 both reach the counter 3.  In linear order 12 fires and clears 13, so voxel 14
keeps its label and the key of the absent block (-1, 0, 0) is handed over; with 12 and 13
exchanged, 13 fires and clears 12 and 14, and no key is handed over. -/
theorem C16_voxel_order_counterexample :
    swappedOrder.Perm (List.range sceneIntegrator.voxels_per_block_) ∧
    ((sceneIntegrator.updateEverFreeLoopOn (0, 0, 0) 8 (occupiedBlock [12, 13])
      (List.range sceneIntegrator.voxels_per_block_)).1.getVoxelByLinearIndex 14).ever_free =
        true ∧
    ((sceneIntegrator.updateEverFreeLoopOn (0, 0, 0) 8 (occupiedBlock [12, 13])
      swappedOrder).1.getVoxelByLinearIndex 14).ever_free = false ∧
    (sceneIntegrator.updateEverFreeLoopOn (0, 0, 0) 8 (occupiedBlock [12, 13])
      (List.range sceneIntegrator.voxels_per_block_)).2 = [((-1, 0, 0), (2, 1, 1))] ∧
    (sceneIntegrator.updateEverFreeLoopOn (0, 0, 0) 8 (occupiedBlock [12, 13])
      swappedOrder).2 = [] := by
  refine ⟨by decide, by decide!, by decide!, by decide!, by decide!⟩

/-- C16 (amended). Phase 1 is independent of the voxel visiting order inside a block when
no two removal candidates are neighbors in the block: if no two different voxels of the
block that are ever-free and reach `counter_to_reset` with this frame's counter update
are neighbors of one another in the block, then running the per-voxel phase-1 step over
any permutation of the linear indices yields the same block as the linear order
`0 .. voxels_per_block - 1` and the same cross-block removal obligations up to their
order. -/
theorem C16_voxel_order_independence (I : EverFreeIntegrator) (block_index : BlockIndex)
    (frame_counter : Int) (block : TsdfBlock) (order : List Nat)
    (hperm : order.Perm (List.range I.voxels_per_block_))
    (hsep : ∀ i, i < I.voxels_per_block_ → ∀ j, j < I.voxels_per_block_ → i ≠ j →
      I.removalCandidate frame_counter block i → I.removalCandidate frame_counter block j →
      ¬ I.ownBlockNeighbor block_index i j) :
    (I.updateEverFreeLoopOn block_index frame_counter block order).1 =
      (I.updateEverFreeLoopOn block_index frame_counter block
        (List.range I.voxels_per_block_)).1 ∧
    (I.updateEverFreeLoopOn block_index frame_counter block order).2.Perm
      (I.updateEverFreeLoopOn block_index frame_counter block
        (List.range I.voxels_per_block_)).2 := by
  have hmem : ∀ i, i ∈ order ↔ i ∈ List.range I.voxels_per_block_ := fun i => hperm.mem_iff
  obtain ⟨hv, hu, hk⟩ := updateEverFreeLoopOn_spec I block_index frame_counter block order
    (hperm.nodup_iff.mpr (List.nodup_range _))
    (fun i hi j hj => hsep i (List.mem_range.mp ((hmem i).mp hi)) j
      (List.mem_range.mp ((hmem j).mp hj)))
  obtain ⟨hv', hu', hk'⟩ := updateEverFreeLoopOn_spec I block_index frame_counter block
    (List.range I.voxels_per_block_) (List.nodup_range _)
    (fun i hi j hj => hsep i (List.mem_range.mp hi) j (List.mem_range.mp hj))
  constructor
  · rw [TsdfBlock.block_ext_iff]
    refine ⟨fun j => ?_, hu.trans hu'.symm⟩
    have hc := clearedDuring_congr I block_index frame_counter block order _ hmem j
    have hvis := visitedVoxel_congr I frame_counter block order _ hmem j
    by_cases hcl : I.clearedDuring block_index frame_counter block order j
    · rw [(hv j).1 hcl, (hv' j).1 (hc.mp hcl), hvis]
    · rw [(hv j).2 hcl, (hv' j).2 (fun h => hcl (hc.mpr h)), hvis]
  · rw [hk, hk']
    exact (hperm.filter _).flatMap_right _



/-- Witness of C16 (amended): block at frame 8 whose voxels 4 and 22 (both neighbors of
voxel 13, not of one another) reach the counter 3, visited in reverse order. -/
theorem C16_voxel_order_independence_witness :
    (List.range sceneIntegrator.voxels_per_block_).reverse.Perm
      (List.range sceneIntegrator.voxels_per_block_) ∧
    (∀ i, i < sceneIntegrator.voxels_per_block_ → ∀ j, j < sceneIntegrator.voxels_per_block_ →
      i ≠ j → sceneIntegrator.removalCandidate 8 (occupiedBlock [4, 22]) i →
      sceneIntegrator.removalCandidate 8 (occupiedBlock [4, 22]) j →
      ¬ sceneIntegrator.ownBlockNeighbor (0, 0, 0) i j) ∧
    sceneIntegrator.removalCandidate 8 (occupiedBlock [4, 22]) 4 ∧
    sceneIntegrator.removalCandidate 8 (occupiedBlock [4, 22]) 22 ∧
    (sceneIntegrator.updateEverFreeLoopOn (0, 0, 0) 8 (occupiedBlock [4, 22])
        (List.range sceneIntegrator.voxels_per_block_).reverse).1 =
      (sceneIntegrator.updateEverFreeLoopOn (0, 0, 0) 8 (occupiedBlock [4, 22])
        (List.range sceneIntegrator.voxels_per_block_)).1 ∧
    (sceneIntegrator.updateEverFreeLoopOn (0, 0, 0) 8 (occupiedBlock [4, 22])
        (List.range sceneIntegrator.voxels_per_block_).reverse).2.Perm
      (sceneIntegrator.updateEverFreeLoopOn (0, 0, 0) 8 (occupiedBlock [4, 22])
        (List.range sceneIntegrator.voxels_per_block_)).2 := by
  have hcand : ∀ i, i < sceneIntegrator.voxels_per_block_ →
      sceneIntegrator.removalCandidate 8 (occupiedBlock [4, 22]) i → i = 4 ∨ i = 22 := by
    decide!
  have hfar : ¬ sceneIntegrator.ownBlockNeighbor (0, 0, 0) 4 22 ∧
      ¬ sceneIntegrator.ownBlockNeighbor (0, 0, 0) 22 4 := by decide!
  have hsep : ∀ i, i < sceneIntegrator.voxels_per_block_ →
      ∀ j, j < sceneIntegrator.voxels_per_block_ →
      i ≠ j → sceneIntegrator.removalCandidate 8 (occupiedBlock [4, 22]) i →
      sceneIntegrator.removalCandidate 8 (occupiedBlock [4, 22]) j →
      ¬ sceneIntegrator.ownBlockNeighbor (0, 0, 0) i j := by
    intro i hi j hj hne hci hcj
    rcases hcand i hi hci with rfl | rfl <;> rcases hcand j hj hcj with rfl | rfl
    · exact absurd rfl hne
    · exact hfar.1
    · exact hfar.2
    · exact absurd rfl hne
  exact ⟨List.reverse_perm _, hsep, by decide!, by decide!,
    C16_voxel_order_independence sceneIntegrator (0, 0, 0) 8 (occupiedBlock [4, 22])
      (List.range sceneIntegrator.voxels_per_block_).reverse (List.reverse_perm _) hsep⟩

/-! ## Removal of a counted voxel is visible after the whole update -/

/-- A voxel that is cleared after `i` iterations of the voxel loop is cleared after every
later iteration. -/
theorem updateEverFreeLoop_cleared_mono (I : EverFreeIntegrator) (block_index : BlockIndex)
    (f : Int) (b : TsdfBlock) (i n j : Nat) (hin : i ≤ n)
    (hc : ((I.updateEverFreeLoop block_index f b i).1.voxels j).Cleared) :
    ((I.updateEverFreeLoop block_index f b n).1.voxels j).Cleared := by
  induction n with
  | zero =>
    have h0 : i = 0 := by omega
    subst h0
    exact hc
  | succ n ih =>
    by_cases h : i = n + 1
    · subst h
      exact hc
    · rw [updateEverFreeLoop_succ]
      have hru := updateEverFreeStep_removalUpdate I f block_index
        (I.updateEverFreeLoop block_index f b n) n
      exact TsdfVoxel.voxel_cleared_of_removalUpdate (hru.2 _) (ih (by omega))

/-- The voxel loop on a block in which the voxel at `index` was hit at the current frame
and is either cleared already, or ever-free with a counter that this frame's counter
update brings to `counter_to_reset`: after the loop the voxel is cleared and its
`last_occupied` is the frame.  When the loop reaches the voxel, either an earlier removal
of the same pass has cleared it, or its trigger fires. -/
theorem updateEverFreeLoop_clears_counted (I : EverFreeIntegrator) (block_index : BlockIndex)
    (f : Int) (b : TsdfBlock) (index : Nat) (hi : index < I.voxels_per_block_)
    (hlidar : (b.voxels index).last_lidar_occupied = f)
    (hpre : (b.voxels index).Cleared ∨ ((b.voxels index).ever_free = true ∧
      (I.updateOccupancyCounter (b.voxels index) f).occ_counter ≥ I.config_.counter_to_reset)) :
    ((I.updateEverFreeLoop block_index f b I.voxels_per_block_).1.voxels index).Cleared ∧
      ((I.updateEverFreeLoop block_index f b I.voxels_per_block_).1.voxels index).last_occupied
        = f := by
  refine ⟨?_, updateEverFreeLoop_last_occupied I block_index f b _ index hi hlidar⟩
  rcases hpre with hc | ⟨hef, hcount⟩
  · exact TsdfVoxel.voxel_cleared_of_removalUpdate
      ((updateEverFreeLoop_removalUpdate I f block_index b _).2 index) hc
  · by_cases hfire : I.removalTriggerFires block_index f b index
    · exact (updateEverFreeLoop_fired I block_index f b _ index hi hfire).1
    · refine updateEverFreeLoop_cleared_mono I block_index f b index _ index (le_of_lt hi) ?_
      have hkc := updateEverFreeLoopOn_keptOrCleared I block_index f b (List.range index) index
      have hf := updateEverFreeLoopOn_fields I block_index f b (List.range index)
        (List.nodup_range index) index
      rw [if_neg (by simp)] at hf
      rw [← updateEverFreeLoop_eq_loopOn] at hkc hf
      rcases hkc with hkept | hcl
      · exfalso
        apply hfire
        unfold removalTriggerFires removalWarranted
        rw [updateCounterStep_eq]
        simp only [TsdfBlock.getVoxelByLinearIndex_eq, TsdfBlock.voxels_setVoxelByLinearIndex,
          if_true]
        have hs := updateCounterVoxel_sameButFlags I f hf
        have hc0 := (updateCounterVoxel_counters I f (b.voxels index)).1
        rw [if_pos (Or.inr hlidar)] at hc0
        refine ⟨?_, ?_⟩
        · rw [hs.2.2.1, hc0]
          exact hcount
        · rw [(updateCounterVoxel_kept I f _).1, hkept.1]
          exact hef
      · exact hcl

/-- Phase 1 on a layer in which the voxel at `index` of the block `block_index` was hit at
the current frame and is cleared with `last_occupied` equal to the frame, or ever-free
with a counter that this frame's update brings to `counter_to_reset`: once the workers
have taken the block, the voxel is cleared and its `last_occupied` is the frame. -/
theorem removeOccupied_clears_counted (I : EverFreeIntegrator) (f : Int)
    (block_index : BlockIndex) (index : Nat) (hi : index < I.voxels_per_block_)
    (indices : List BlockIndex) (st : TsdfLayer × List VoxelKey)
    (hS : ∃ b, st.1.block_map block_index = some b ∧ (b.voxels index).last_lidar_occupied = f ∧
      (((b.voxels index).Cleared ∧ (b.voxels index).last_occupied = f) ∨
        ((b.voxels index).ever_free = true ∧
          (I.updateOccupancyCounter (b.voxels index) f).occ_counter ≥
            I.config_.counter_to_reset)))
    (hor : block_index ∈ indices ∨
      ∃ b, st.1.block_map block_index = some b ∧ (b.voxels index).Cleared ∧
        (b.voxels index).last_occupied = f) :
    ∃ b', (I.removeOccupied f st indices).1.block_map block_index = some b' ∧
      (b'.voxels index).Cleared ∧ (b'.voxels index).last_occupied = f := by
  induction indices generalizing st with
  | nil =>
    rcases hor with h | h
    · simp at h
    · exact h
  | cons x rest ih =>
    rw [removeOccupied_cons_append]
    obtain ⟨b, hb, hlidar, hpre⟩ := hS
    by_cases hx : block_index = x
    · subst hx
      have hgood := updateEverFreeLoop_clears_counted I block_index f b index hi hlidar
        (hpre.imp (fun h => h.1) (fun h => h))
      have hl : ((I.updateEverFreeLoop block_index f b I.voxels_per_block_).1.voxels
          index).last_lidar_occupied = f := by
        rw [((updateEverFreeLoop_removalUpdate I f block_index b _).2 index).2.2.1]
        exact hlidar
      have hblock : (I.blockWiseUpdateEverFree st.1 block_index f []).1.block_map block_index =
          some (I.updateEverFreeLoop block_index f b I.voxels_per_block_).1 := by
        rw [blockWiseUpdateEverFree_of_some I st.1 block_index f [] b hb]
        simp
      exact ih _ ⟨_, hblock, hl, Or.inl hgood⟩ (Or.inr ⟨_, hblock, hgood⟩)
    · have hblock : (I.blockWiseUpdateEverFree st.1 x f []).1.block_map block_index =
          some b := by
        rw [blockWiseUpdateEverFree_block_map_of_ne I st.1 x block_index f [] hx]
        exact hb
      refine ih _ ⟨b, hblock, hlidar, hpre⟩ ?_
      rcases hor with hmem | ⟨c, hc, hgood⟩
      · rcases List.mem_cons.mp hmem with h | h
        · exact absurd h hx
        · exact Or.inl h
      · rw [hb] at hc
        cases hc
        exact Or.inr ⟨b, hblock, hgood⟩

/-- A cleared voxel whose `last_occupied` is the frame stays so through
`blockWiseMakeEverFree` on any block, when the burn-in window is not empty. -/
theorem blockWiseMakeEverFree_keeps_removed_voxel (I : EverFreeIntegrator) (f : Int)
    (block_index : BlockIndex) (index : Nat) (x : BlockIndex)
    (hburn : I.config_.burn_in_period ≥ 1) (layer : TsdfLayer)
    (h : ∃ b, layer.block_map block_index = some b ∧ (b.voxels index).Cleared ∧
      (b.voxels index).last_occupied = f) :
    ∃ b, (I.blockWiseMakeEverFree layer x f).block_map block_index = some b ∧
      (b.voxels index).Cleared ∧ (b.voxels index).last_occupied = f := by
  obtain ⟨b, hb, hclr, hlo⟩ := h
  cases hx : layer.block_map x with
  | none =>
    rw [blockWiseMakeEverFree_of_none I layer x f hx]
    exact ⟨b, hb, hclr, hlo⟩
  | some bx =>
    rw [blockWiseMakeEverFree_of_some I layer x f bx hx]
    by_cases hk : block_index = x
    · subst hk
      rw [hb] at hx
      cases hx
      simp only [TsdfLayer.block_map_setBlock, if_true, Option.some.injEq, exists_eq_left']
      have hc : ¬ labelCondition I layer b block_index f index = true := by
        rw [labelCondition_iff I layer b block_index f index hb]
        rintro ⟨_, _, hle, _⟩
        omega
      rw [if_neg (fun h => hc h.2)]
      exact ⟨hclr, hlo⟩
    · exact ⟨b, by simpa [hk] using hb, hclr, hlo⟩

/-- Removal of a counted voxel is visible after the whole update: with a worker and
`burn_in_period ≥ 1`, a voxel of a block of the updated set that is ever-free, was hit at
the current frame and whose counter this frame's update brings to `counter_to_reset` is
cleared after `updateEverFreeVoxels`. -/
theorem updateEverFreeVoxels_clears_counted (I : EverFreeIntegrator) (layer : TsdfLayer)
    (f : Int) (block_index : BlockIndex) (block : TsdfBlock) (index : Nat)
    (hworkers : I.config_.num_threads ≥ 1)
    (hburn : I.config_.burn_in_period ≥ 1)
    (hupd : block_index ∈ layer.getAllUpdatedBlocks)
    (hb : layer.block_map block_index = some block)
    (hi : index < I.voxels_per_block_)
    (hfree : (block.voxels index).ever_free = true)
    (hlidar : (block.voxels index).last_lidar_occupied = f)
    (hcount : (I.updateOccupancyCounter (block.voxels index) f).occ_counter ≥
      I.config_.counter_to_reset) :
    ∃ b', (I.updateEverFreeVoxels layer f).block_map block_index = some b' ∧
      (b'.voxels index).Cleared ∧ (b'.voxels index).last_occupied = f := by
  unfold updateEverFreeVoxels updateEverFreeVoxelsOn
  rw [takenIndices_of_workers I _ hworkers]
  obtain ⟨b1, hb1, hc1, hlo1⟩ := removeOccupied_clears_counted I f block_index index hi
    layer.getAllUpdatedBlocks (layer, []) ⟨block, hb, hlidar, Or.inr ⟨hfree, hcount⟩⟩
    (Or.inl hupd)
  have hmerge := removeRemaining_removalUpdate I f
    (I.removeOccupied f (layer, []) layer.getAllUpdatedBlocks).1
    (I.removeOccupied f (layer, []) layer.getAllUpdatedBlocks).2
  obtain ⟨b2, hb2, hr2⟩ := (hmerge.2 block_index).2 b1 hb1
  have hM : ∃ b, (I.removeOccupiedAndMerge layer f layer.getAllUpdatedBlocks).block_map
      block_index = some b ∧ (b.voxels index).Cleared ∧ (b.voxels index).last_occupied = f := by
    refine ⟨b2, hb2, TsdfVoxel.voxel_cleared_of_removalUpdate (hr2.2 index) hc1, ?_⟩
    rcases (hr2.2 index).2.2.2.2.2.1 with h | h
    · rw [h]; exact hlo1
    · exact h
  generalize I.removeOccupiedAndMerge layer f layer.getAllUpdatedBlocks = m at hM
  generalize layer.getAllUpdatedBlocks = indices
  unfold labelFree
  induction indices generalizing m with
  | nil => exact hM
  | cons x rest ih =>
    exact ih _ (blockWiseMakeEverFree_keeps_removed_voxel I f block_index index x hburn m hM)


/-- C3 (amended). Removal is visible after the whole frame update: with at least one
worker (`num_threads ≥ 1`), `burn_in_period ≥ 1` and a neighborhood in which the voxel V
is a neighbor of each of its neighbors, if V is ever-free before `updateEverFreeVoxels`,
V's block is in the updated set, V was hit at the current frame
(`last_lidar_occupied = frame_counter`) and V's counter after this frame's counter update
is at least `counter_to_reset`, then after `updateEverFreeVoxels` V has
`ever_free = false` and `dynamic = false`; and if moreover the removal trigger fires for V
when the voxel loop of phase 1 reaches it (V is still ever-free then: no voxel of the
same block visited earlier has cleared it as its neighbor), then every neighbor of V
lying in an existing block has `ever_free = false` and `dynamic = false` as well. -/
theorem C3_removal_visible_after_update (I : EverFreeIntegrator) (layer : TsdfLayer)
    (frame_counter : Int) (block_index : BlockIndex) (block : TsdfBlock) (index : Nat)
    (hworkers : I.config_.num_threads ≥ 1)
    (hburn : I.config_.burn_in_period ≥ 1)
    (hsym : ∀ key ∈ I.search block_index (I.computeVoxelIndexFromLinearIndex index)
        I.voxels_per_side_,
      ∃ key' ∈ I.search key.1
          (I.computeVoxelIndexFromLinearIndex (I.computeLinearIndexFromVoxelIndex key.2))
          I.voxels_per_side_,
        key'.1 = block_index ∧ I.computeLinearIndexFromVoxelIndex key'.2 = index)
    (hupd : block_index ∈ layer.getAllUpdatedBlocks)
    (hb : layer.getBlockPtrByIndex block_index = some block)
    (hi : index < I.voxels_per_block_)
    (hfree : (block.getVoxelByLinearIndex index).ever_free = true)
    (hlidar : (block.getVoxelByLinearIndex index).last_lidar_occupied = frame_counter)
    (hcount : (I.updateOccupancyCounter (block.getVoxelByLinearIndex index)
      frame_counter).occ_counter ≥ I.config_.counter_to_reset) :
    (∃ block', (I.updateEverFreeVoxels layer frame_counter).getBlockPtrByIndex block_index =
        some block' ∧
        (block'.getVoxelByLinearIndex index).ever_free = false ∧
        (block'.getVoxelByLinearIndex index).dynamic = false) ∧
    ∀ (pre post : List BlockIndex) (block1 : TsdfBlock),
      layer.getAllUpdatedBlocks = pre ++ block_index :: post →
      (I.removeOccupied frame_counter (layer, []) pre).1.getBlockPtrByIndex block_index =
        some block1 →
      I.removalTriggerFires block_index frame_counter block1 index →
      ∀ key ∈ I.search block_index (I.computeVoxelIndexFromLinearIndex index)
          I.voxels_per_side_,
        ∀ nb, (I.updateEverFreeVoxels layer frame_counter).getBlockPtrByIndex key.1 = some nb →
          (I.getVoxelByVoxelIndex nb key.2).ever_free = false ∧
          (I.getVoxelByVoxelIndex nb key.2).dynamic = false := by
  constructor
  · obtain ⟨b', hb', hclr, _⟩ := updateEverFreeVoxels_clears_counted I layer frame_counter
      block_index block index hworkers hburn hupd hb hi hfree hlidar hcount
    exact ⟨b', hb', hclr.1, hclr.2⟩
  · intro pre post block1 hsplit hb1 hfire
    have hl1 : (block1.getVoxelByLinearIndex index).last_lidar_occupied = frame_counter := by
      obtain ⟨c, hc, hr⟩ := ((removeOccupied_removalUpdate I frame_counter pre (layer, [])).2
        block_index).2 block hb
      have hc' : (I.removeOccupied frame_counter (layer, []) pre).1.block_map block_index =
          some block1 := hb1
      rw [hc'] at hc
      cases hc
      show (block1.voxels index).last_lidar_occupied = frame_counter
      rw [(hr.2 index).2.2.1]
      exact hlidar
    exact (updateEverFreeVoxels_fired_visible I layer frame_counter pre post block_index block1
      index hworkers hburn hsym hsplit hb1 hi hl1 hfire).2

/-- Witness of C3 (amended): one worker, single block, burn-in 5, counter to reset 3; the
interior voxel (linear index 13) was counted occupied at frames 6 and 7 and is hit again
at frame 8, and its trigger fires when the loop reaches it. -/
theorem C3_removal_visible_after_update_witness :
    sceneIntegrator.config_.num_threads ≥ 1 ∧
    sceneIntegrator.config_.burn_in_period ≥ 1 ∧
    (∀ key ∈ sceneIntegrator.search (0, 0, 0)
        (sceneIntegrator.computeVoxelIndexFromLinearIndex 13) sceneIntegrator.voxels_per_side_,
      ∃ key' ∈ sceneIntegrator.search key.1
          (sceneIntegrator.computeVoxelIndexFromLinearIndex
            (sceneIntegrator.computeLinearIndexFromVoxelIndex key.2))
          sceneIntegrator.voxels_per_side_,
        key'.1 = (0, 0, 0) ∧ sceneIntegrator.computeLinearIndexFromVoxelIndex key'.2 = 13) ∧
    (0, 0, 0) ∈ (singleBlockLayer (occupiedBlock [13])).getAllUpdatedBlocks ∧
    (singleBlockLayer (occupiedBlock [13])).getBlockPtrByIndex (0, 0, 0) =
      some (occupiedBlock [13]) ∧
    13 < sceneIntegrator.voxels_per_block_ ∧
    ((occupiedBlock [13]).getVoxelByLinearIndex 13).ever_free = true ∧
    ((occupiedBlock [13]).getVoxelByLinearIndex 13).last_lidar_occupied = 8 ∧
    (sceneIntegrator.updateOccupancyCounter ((occupiedBlock [13]).getVoxelByLinearIndex 13)
      8).occ_counter ≥ sceneIntegrator.config_.counter_to_reset ∧
    (∃ block', (sceneIntegrator.updateEverFreeVoxels (singleBlockLayer (occupiedBlock [13]))
          8).getBlockPtrByIndex (0, 0, 0) = some block' ∧
        (block'.getVoxelByLinearIndex 13).ever_free = false ∧
        (block'.getVoxelByLinearIndex 13).dynamic = false) ∧
    (singleBlockLayer (occupiedBlock [13])).getAllUpdatedBlocks = [] ++ (0, 0, 0) :: [] ∧
    (sceneIntegrator.removeOccupied 8 (singleBlockLayer (occupiedBlock [13]), [])
      []).1.getBlockPtrByIndex (0, 0, 0) = some (occupiedBlock [13]) ∧
    sceneIntegrator.removalTriggerFires (0, 0, 0) 8 (occupiedBlock [13]) 13 ∧
    ∀ key ∈ sceneIntegrator.search (0, 0, 0)
        (sceneIntegrator.computeVoxelIndexFromLinearIndex 13) sceneIntegrator.voxels_per_side_,
      ∀ nb, (sceneIntegrator.updateEverFreeVoxels (singleBlockLayer (occupiedBlock [13]))
          8).getBlockPtrByIndex key.1 = some nb →
        (sceneIntegrator.getVoxelByVoxelIndex nb key.2).ever_free = false ∧
        (sceneIntegrator.getVoxelByVoxelIndex nb key.2).dynamic = false :=
  ⟨by decide, by decide, by decide, by decide, rfl, by decide, rfl, rfl, by decide,
    (C3_removal_visible_after_update sceneIntegrator (singleBlockLayer (occupiedBlock [13])) 8
      (0, 0, 0) (occupiedBlock [13]) 13 (by decide) (by decide) (by decide) (by decide) rfl
      (by decide) rfl rfl (by decide)).1,
    by decide, rfl, by decide!,
    (C3_removal_visible_after_update sceneIntegrator (singleBlockLayer (occupiedBlock [13])) 8
      (0, 0, 0) (occupiedBlock [13]) 13 (by decide) (by decide) (by decide) (by decide) rfl
      (by decide) rfl rfl (by decide)).2 [] [] (occupiedBlock [13]) (by decide) rfl
      (by decide!)⟩

end dynablox
